import Mathlib

/-!
# SignalScatter ring buffers

A shallow embedding of `src/cpp/RingBuffer.cpp`, `src/cpp/ConcurrentRingBuffer.cpp`
and `src/cpp/Span.h`, followed by theorems about the embedded code.

Modelling conventions.

* A C++ `int` is a Lean `Int`.  Position arithmetic is carried out without
  wrap-around: overflow of a signed `int` is undefined in C++ and the
  positions of the buffers are treated as unbounded counters.  The one place
  where the width of `int` decides an outcome is the conversion
  `(int)std::pow(2, power)` in the constructors; it is modelled as a partial
  operation that is defined only when the value fits in 32 bits.
* `a & b` on `int` is `Int.land a b` (two's complement on unbounded integers).
* Memory reached through a pointer is a total map from the element index to
  the stored value: `_buffer : Int → UInt8` where the allocation made by the
  constructor is the index range `[0, _bufferSize)`.  An index outside that
  range is storage that does not belong to the buffer.
* A `ByteSpan` handed in by a caller carries the caller's memory as a map from
  the offset to the byte.  Caller memory and the buffer do not overlap.
* `std::cout << line << std::endl` appends `line` to the `cout` field of the
  result of a call.
* The concurrent buffer is run one call at a time, without other threads: an
  atomic is the value it holds, a compare-exchange whose expected value
  matches succeeds, and a loop `do { … SpinOnce(); } while (true)` is run for
  at most `fuel` passes, with `none` for a call that has not returned by then.
  Schedules in which calls of different threads overlap are not modelled.
-/

namespace SignalScatter

/-! ## Span.h -/

/-- Embedding of `struct ByteSpan`: `Pointer[i]` is `Pointer i`, `Length` is the `int` field. -/
structure ByteSpan where
  Pointer : Nat → UInt8
  Length : Int

/-- A `ByteSpan` whose `Pointer` points into the storage of a ring buffer, as
produced by `Slice`: `Pointer` is the distance of the pointer from `_buffer`. -/
structure BufferSpan where
  Pointer : Int
  Length : Int
deriving DecidableEq

/-! ## Library functions used by the constructors -/

/-- Largest value of a 32-bit `int`. -/
def INT_MAX : Int := 2147483647

/-- Models `(int)std::ceil(std::log2(capacity))` with exact real arithmetic:
for `capacity ≥ 1` the result is `⌈log₂ capacity⌉`; for `capacity ≤ 0` the
logarithm is `-∞` or NaN and the conversion to `int` has no defined value. -/
def ceilLog2 (capacity : Int) : Option Int :=
  if 1 ≤ capacity then some (Nat.clog 2 capacity.toNat : Nat) else none

/-- Models `(int)std::pow(2, power)`: a negative power gives a value in
`(0, 1)` which truncates to `0`; otherwise the value is `2 ^ power`, and the
conversion is defined only when it does not exceed `INT_MAX`. -/
def pow2Int (power : Int) : Option Int :=
  if power < 0 then some 0
  else if (2 : Int) ^ power.toNat ≤ INT_MAX then some ((2 : Int) ^ power.toNat)
  else none

/-- The line written by the enqueue paths on overflow. -/
def enqueueOverflowLine : String :=
  "********************* BulkEnqueue Overflow **********************"

/-- The line written by the dequeue paths on failure. -/
def dequeueOverflowLine : String :=
  "********************* BulkDequeue Overflow **********************"

/-! ## RingBuffer.h / RingBuffer.cpp -/

/-- Embedding of `class RingBuffer`: the private fields. -/
structure RingBuffer where
  _buffer : Int → UInt8
  _bufferMask : Int
  _bufferSize : Int
  _enqueuePosition : Int
  _dequeuePosition : Int

/-- Result of an enqueue entry point: the returned `bool`, the object after
the call and the lines written to `std::cout`. -/
structure EnqueueResult (σ : Type) where
  ret : Bool
  self : σ
  cout : List String

/-- Result of a dequeue entry point: the returned `bool`, the object after the
call, the destination span after the call and the lines written to
`std::cout`. -/
structure DequeueResult (σ : Type) where
  ret : Bool
  self : σ
  span : ByteSpan
  cout : List String

/-- Embedding of `RingBuffer::RingBuffer(int capacity)`.  `storage` is the content of the
freshly allocated (uninitialised) array `new uint8_t[bufferSize]`. -/
def RingBuffer.new (capacity : Int) (storage : Int → UInt8) : Option RingBuffer :=
  match ceilLog2 capacity with
  | none => none
  | some power =>
    match pow2Int power with
    | none => none
    | some bufferSize =>
      some
        { _bufferSize := bufferSize
          _bufferMask := bufferSize - 1
          _buffer := storage
          _enqueuePosition := 0
          _dequeuePosition := 0 }

/-- Embedding of `RingBuffer::GetBufferSize`. -/
def RingBuffer.GetBufferSize (self : RingBuffer) : Int :=
  self._bufferSize

/-- Embedding of `RingBuffer::GetCount`. -/
def RingBuffer.GetCount (self : RingBuffer) : Int :=
  self._enqueuePosition - self._dequeuePosition

/-- Embedding of `RingBuffer::Clear(int length)`. -/
def RingBuffer.ClearN (self : RingBuffer) (length : Int) : RingBuffer :=
  let position := self._dequeuePosition
  let count := self._enqueuePosition - position
  let length := if length ≤ count then length else count
  { self with _dequeuePosition := position + length }

/-- Embedding of `RingBuffer::Clear()`. -/
def RingBuffer.Clear (self : RingBuffer) : RingBuffer :=
  let count := self._enqueuePosition - self._dequeuePosition
  self.ClearN count

/-- Embedding of `RingBuffer::Slice(int start, int length, ByteSpan&, ByteSpan&)`: the pair
`(firstSegmentSpan, secondSegmentSpan)`.  The object is not modified. -/
def RingBuffer.Slice (self : RingBuffer) (start length : Int) : BufferSpan × BufferSpan :=
  let headPosition := self._dequeuePosition
  let startIndex := Int.land (headPosition + start) self._bufferMask
  let endIndex := Int.land (headPosition + start + length) self._bufferMask
  if startIndex ≤ endIndex then
    ({ Pointer := startIndex, Length := length }, { Pointer := 0, Length := 0 })
  else
    let firstSegmentSize := self._bufferSize - startIndex
    let secondSegmentSize := length - firstSegmentSize
    ({ Pointer := startIndex, Length := firstSegmentSize },
     { Pointer := 0, Length := secondSegmentSize })

/-- Embedding of `RingBuffer::Slice(int start, ByteSpan&, ByteSpan&)`. -/
def RingBuffer.SliceFrom (self : RingBuffer) (start : Int) : BufferSpan × BufferSpan :=
  let count := self._enqueuePosition - self._dequeuePosition
  self.Slice start count

/-- The loop `for (int i = 0; i < length; i++) _buffer[(position + i) & _bufferMask] = data[i];`
of the enqueue paths. -/
def storeLoop (bufferMask position : Int) (data : Nat → UInt8) (length : Int)
    (buffer : Int → UInt8) : Int → UInt8 :=
  (List.range length.toNat).foldl
    (fun b (i : Nat) => Function.update b (Int.land (position + (i : Int)) bufferMask) (data i))
    buffer

/-- The loop `for (int i = 0; i < length; i++) dest[i] = _buffer[(position + i) & _bufferMask];`
of the dequeue paths. -/
def loadLoop (bufferMask position : Int) (buffer : Int → UInt8) (length : Int)
    (dest : Nat → UInt8) : Nat → UInt8 :=
  (List.range length.toNat).foldl
    (fun d (i : Nat) => Function.update d i (buffer (Int.land (position + (i : Int)) bufferMask)))
    dest

/-- Embedding of `RingBuffer::TryBulkEnqueue`. -/
def RingBuffer.TryBulkEnqueue (self : RingBuffer) (span : ByteSpan) : EnqueueResult RingBuffer :=
  let data := span.Pointer
  let length := span.Length
  let position := self._enqueuePosition
  let count := position - self._dequeuePosition
  if length ≤ self._bufferSize - count then
    { ret := true
      self :=
        { self with
          _enqueuePosition := position + length
          _buffer := storeLoop self._bufferMask position data length self._buffer }
      cout := [] }
  else
    { ret := false, self := self, cout := [enqueueOverflowLine] }

/-- Embedding of `RingBuffer::TryBulkEnqueueByte4` (the loop is unrolled in the source). -/
def RingBuffer.TryBulkEnqueueByte4 (self : RingBuffer) (span : ByteSpan) :
    EnqueueResult RingBuffer :=
  let data := span.Pointer
  let length := span.Length
  if length ≠ 4 then { ret := false, self := self, cout := [] }
  else
    let position := self._enqueuePosition
    let count := position - self._dequeuePosition
    if length ≤ self._bufferSize - count then
      let b := self._buffer
      let b := Function.update b (Int.land (position + 0) self._bufferMask) (data 0)
      let b := Function.update b (Int.land (position + 1) self._bufferMask) (data 1)
      let b := Function.update b (Int.land (position + 2) self._bufferMask) (data 2)
      let b := Function.update b (Int.land (position + 3) self._bufferMask) (data 3)
      { ret := true
        self := { self with _enqueuePosition := position + length, _buffer := b }
        cout := [] }
    else
      { ret := false, self := self, cout := [enqueueOverflowLine] }

/-- Embedding of `RingBuffer::TryBulkEnqueueByte8` (the loop is unrolled in the source). -/
def RingBuffer.TryBulkEnqueueByte8 (self : RingBuffer) (span : ByteSpan) :
    EnqueueResult RingBuffer :=
  let data := span.Pointer
  let length := span.Length
  if length ≠ 8 then { ret := false, self := self, cout := [] }
  else
    let position := self._enqueuePosition
    let count := position - self._dequeuePosition
    if length ≤ self._bufferSize - count then
      let b := self._buffer
      let b := Function.update b (Int.land (position + 0) self._bufferMask) (data 0)
      let b := Function.update b (Int.land (position + 1) self._bufferMask) (data 1)
      let b := Function.update b (Int.land (position + 2) self._bufferMask) (data 2)
      let b := Function.update b (Int.land (position + 3) self._bufferMask) (data 3)
      let b := Function.update b (Int.land (position + 4) self._bufferMask) (data 4)
      let b := Function.update b (Int.land (position + 5) self._bufferMask) (data 5)
      let b := Function.update b (Int.land (position + 6) self._bufferMask) (data 6)
      let b := Function.update b (Int.land (position + 7) self._bufferMask) (data 7)
      { ret := true
        self := { self with _enqueuePosition := position + length, _buffer := b }
        cout := [] }
    else
      { ret := false, self := self, cout := [enqueueOverflowLine] }

/-- Embedding of `RingBuffer::TryBulkEnqueueByte16` (the loop is unrolled in the source). -/
def RingBuffer.TryBulkEnqueueByte16 (self : RingBuffer) (span : ByteSpan) :
    EnqueueResult RingBuffer :=
  let data := span.Pointer
  let length := span.Length
  if length ≠ 16 then { ret := false, self := self, cout := [] }
  else
    let position := self._enqueuePosition
    let count := position - self._dequeuePosition
    if length ≤ self._bufferSize - count then
      let b := self._buffer
      let b := Function.update b (Int.land (position + 0) self._bufferMask) (data 0)
      let b := Function.update b (Int.land (position + 1) self._bufferMask) (data 1)
      let b := Function.update b (Int.land (position + 2) self._bufferMask) (data 2)
      let b := Function.update b (Int.land (position + 3) self._bufferMask) (data 3)
      let b := Function.update b (Int.land (position + 4) self._bufferMask) (data 4)
      let b := Function.update b (Int.land (position + 5) self._bufferMask) (data 5)
      let b := Function.update b (Int.land (position + 6) self._bufferMask) (data 6)
      let b := Function.update b (Int.land (position + 7) self._bufferMask) (data 7)
      let b := Function.update b (Int.land (position + 8) self._bufferMask) (data 8)
      let b := Function.update b (Int.land (position + 9) self._bufferMask) (data 9)
      let b := Function.update b (Int.land (position + 10) self._bufferMask) (data 10)
      let b := Function.update b (Int.land (position + 11) self._bufferMask) (data 11)
      let b := Function.update b (Int.land (position + 12) self._bufferMask) (data 12)
      let b := Function.update b (Int.land (position + 13) self._bufferMask) (data 13)
      let b := Function.update b (Int.land (position + 14) self._bufferMask) (data 14)
      let b := Function.update b (Int.land (position + 15) self._bufferMask) (data 15)
      { ret := true
        self := { self with _enqueuePosition := position + length, _buffer := b }
        cout := [] }
    else
      { ret := false, self := self, cout := [enqueueOverflowLine] }

/-- Embedding of `RingBuffer::TryBulkEnqueueByte32` (the loop is unrolled in the source). -/
def RingBuffer.TryBulkEnqueueByte32 (self : RingBuffer) (span : ByteSpan) :
    EnqueueResult RingBuffer :=
  let data := span.Pointer
  let length := span.Length
  if length ≠ 32 then { ret := false, self := self, cout := [] }
  else
    let position := self._enqueuePosition
    let count := position - self._dequeuePosition
    if length ≤ self._bufferSize - count then
      let b := self._buffer
      let b := Function.update b (Int.land (position + 0) self._bufferMask) (data 0)
      let b := Function.update b (Int.land (position + 1) self._bufferMask) (data 1)
      let b := Function.update b (Int.land (position + 2) self._bufferMask) (data 2)
      let b := Function.update b (Int.land (position + 3) self._bufferMask) (data 3)
      let b := Function.update b (Int.land (position + 4) self._bufferMask) (data 4)
      let b := Function.update b (Int.land (position + 5) self._bufferMask) (data 5)
      let b := Function.update b (Int.land (position + 6) self._bufferMask) (data 6)
      let b := Function.update b (Int.land (position + 7) self._bufferMask) (data 7)
      let b := Function.update b (Int.land (position + 8) self._bufferMask) (data 8)
      let b := Function.update b (Int.land (position + 9) self._bufferMask) (data 9)
      let b := Function.update b (Int.land (position + 10) self._bufferMask) (data 10)
      let b := Function.update b (Int.land (position + 11) self._bufferMask) (data 11)
      let b := Function.update b (Int.land (position + 12) self._bufferMask) (data 12)
      let b := Function.update b (Int.land (position + 13) self._bufferMask) (data 13)
      let b := Function.update b (Int.land (position + 14) self._bufferMask) (data 14)
      let b := Function.update b (Int.land (position + 15) self._bufferMask) (data 15)
      let b := Function.update b (Int.land (position + 16) self._bufferMask) (data 16)
      let b := Function.update b (Int.land (position + 17) self._bufferMask) (data 17)
      let b := Function.update b (Int.land (position + 18) self._bufferMask) (data 18)
      let b := Function.update b (Int.land (position + 19) self._bufferMask) (data 19)
      let b := Function.update b (Int.land (position + 20) self._bufferMask) (data 20)
      let b := Function.update b (Int.land (position + 21) self._bufferMask) (data 21)
      let b := Function.update b (Int.land (position + 22) self._bufferMask) (data 22)
      let b := Function.update b (Int.land (position + 23) self._bufferMask) (data 23)
      let b := Function.update b (Int.land (position + 24) self._bufferMask) (data 24)
      let b := Function.update b (Int.land (position + 25) self._bufferMask) (data 25)
      let b := Function.update b (Int.land (position + 26) self._bufferMask) (data 26)
      let b := Function.update b (Int.land (position + 27) self._bufferMask) (data 27)
      let b := Function.update b (Int.land (position + 28) self._bufferMask) (data 28)
      let b := Function.update b (Int.land (position + 29) self._bufferMask) (data 29)
      let b := Function.update b (Int.land (position + 30) self._bufferMask) (data 30)
      let b := Function.update b (Int.land (position + 31) self._bufferMask) (data 31)
      { ret := true
        self := { self with _enqueuePosition := position + length, _buffer := b }
        cout := [] }
    else
      { ret := false, self := self, cout := [enqueueOverflowLine] }

/-- Embedding of `RingBuffer::TryBulkDequeueByte4` (the loop is unrolled in the source). -/
def RingBuffer.TryBulkDequeueByte4 (self : RingBuffer) (span : ByteSpan) :
    DequeueResult RingBuffer :=
  let dest := span.Pointer
  let length := span.Length
  if length ≠ 4 then { ret := false, self := self, span := span, cout := [] }
  else
    let position := self._dequeuePosition
    let dest := Function.update dest 0 (self._buffer (Int.land (position + 0) self._bufferMask))
    let dest := Function.update dest 1 (self._buffer (Int.land (position + 1) self._bufferMask))
    let dest := Function.update dest 2 (self._buffer (Int.land (position + 2) self._bufferMask))
    let dest := Function.update dest 3 (self._buffer (Int.land (position + 3) self._bufferMask))
    { ret := true
      self := { self with _dequeuePosition := position + length }
      span := { span with Pointer := dest }
      cout := [] }

/-- Embedding of `RingBuffer::TryBulkDequeueByte8` (the loop is unrolled in the source). -/
def RingBuffer.TryBulkDequeueByte8 (self : RingBuffer) (span : ByteSpan) :
    DequeueResult RingBuffer :=
  let dest := span.Pointer
  let length := span.Length
  if length ≠ 8 then { ret := false, self := self, span := span, cout := [] }
  else
    let position := self._dequeuePosition
    let dest := Function.update dest 0 (self._buffer (Int.land (position + 0) self._bufferMask))
    let dest := Function.update dest 1 (self._buffer (Int.land (position + 1) self._bufferMask))
    let dest := Function.update dest 2 (self._buffer (Int.land (position + 2) self._bufferMask))
    let dest := Function.update dest 3 (self._buffer (Int.land (position + 3) self._bufferMask))
    let dest := Function.update dest 4 (self._buffer (Int.land (position + 4) self._bufferMask))
    let dest := Function.update dest 5 (self._buffer (Int.land (position + 5) self._bufferMask))
    let dest := Function.update dest 6 (self._buffer (Int.land (position + 6) self._bufferMask))
    let dest := Function.update dest 7 (self._buffer (Int.land (position + 7) self._bufferMask))
    { ret := true
      self := { self with _dequeuePosition := position + length }
      span := { span with Pointer := dest }
      cout := [] }

/-- Embedding of `RingBuffer::TryBulkDequeueByte16` (the loop is unrolled in the source). -/
def RingBuffer.TryBulkDequeueByte16 (self : RingBuffer) (span : ByteSpan) :
    DequeueResult RingBuffer :=
  let dest := span.Pointer
  let length := span.Length
  if length ≠ 16 then { ret := false, self := self, span := span, cout := [] }
  else
    let position := self._dequeuePosition
    let dest := Function.update dest 0 (self._buffer (Int.land (position + 0) self._bufferMask))
    let dest := Function.update dest 1 (self._buffer (Int.land (position + 1) self._bufferMask))
    let dest := Function.update dest 2 (self._buffer (Int.land (position + 2) self._bufferMask))
    let dest := Function.update dest 3 (self._buffer (Int.land (position + 3) self._bufferMask))
    let dest := Function.update dest 4 (self._buffer (Int.land (position + 4) self._bufferMask))
    let dest := Function.update dest 5 (self._buffer (Int.land (position + 5) self._bufferMask))
    let dest := Function.update dest 6 (self._buffer (Int.land (position + 6) self._bufferMask))
    let dest := Function.update dest 7 (self._buffer (Int.land (position + 7) self._bufferMask))
    let dest := Function.update dest 8 (self._buffer (Int.land (position + 8) self._bufferMask))
    let dest := Function.update dest 9 (self._buffer (Int.land (position + 9) self._bufferMask))
    let dest := Function.update dest 10 (self._buffer (Int.land (position + 10) self._bufferMask))
    let dest := Function.update dest 11 (self._buffer (Int.land (position + 11) self._bufferMask))
    let dest := Function.update dest 12 (self._buffer (Int.land (position + 12) self._bufferMask))
    let dest := Function.update dest 13 (self._buffer (Int.land (position + 13) self._bufferMask))
    let dest := Function.update dest 14 (self._buffer (Int.land (position + 14) self._bufferMask))
    let dest := Function.update dest 15 (self._buffer (Int.land (position + 15) self._bufferMask))
    { ret := true
      self := { self with _dequeuePosition := position + length }
      span := { span with Pointer := dest }
      cout := [] }

/-- Embedding of `RingBuffer::TryBulkDequeueByte32` (the loop is unrolled in the source). -/
def RingBuffer.TryBulkDequeueByte32 (self : RingBuffer) (span : ByteSpan) :
    DequeueResult RingBuffer :=
  let dest := span.Pointer
  let length := span.Length
  if length ≠ 32 then { ret := false, self := self, span := span, cout := [] }
  else
    let position := self._dequeuePosition
    let dest := Function.update dest 0 (self._buffer (Int.land (position + 0) self._bufferMask))
    let dest := Function.update dest 1 (self._buffer (Int.land (position + 1) self._bufferMask))
    let dest := Function.update dest 2 (self._buffer (Int.land (position + 2) self._bufferMask))
    let dest := Function.update dest 3 (self._buffer (Int.land (position + 3) self._bufferMask))
    let dest := Function.update dest 4 (self._buffer (Int.land (position + 4) self._bufferMask))
    let dest := Function.update dest 5 (self._buffer (Int.land (position + 5) self._bufferMask))
    let dest := Function.update dest 6 (self._buffer (Int.land (position + 6) self._bufferMask))
    let dest := Function.update dest 7 (self._buffer (Int.land (position + 7) self._bufferMask))
    let dest := Function.update dest 8 (self._buffer (Int.land (position + 8) self._bufferMask))
    let dest := Function.update dest 9 (self._buffer (Int.land (position + 9) self._bufferMask))
    let dest := Function.update dest 10 (self._buffer (Int.land (position + 10) self._bufferMask))
    let dest := Function.update dest 11 (self._buffer (Int.land (position + 11) self._bufferMask))
    let dest := Function.update dest 12 (self._buffer (Int.land (position + 12) self._bufferMask))
    let dest := Function.update dest 13 (self._buffer (Int.land (position + 13) self._bufferMask))
    let dest := Function.update dest 14 (self._buffer (Int.land (position + 14) self._bufferMask))
    let dest := Function.update dest 15 (self._buffer (Int.land (position + 15) self._bufferMask))
    let dest := Function.update dest 16 (self._buffer (Int.land (position + 16) self._bufferMask))
    let dest := Function.update dest 17 (self._buffer (Int.land (position + 17) self._bufferMask))
    let dest := Function.update dest 18 (self._buffer (Int.land (position + 18) self._bufferMask))
    let dest := Function.update dest 19 (self._buffer (Int.land (position + 19) self._bufferMask))
    let dest := Function.update dest 20 (self._buffer (Int.land (position + 20) self._bufferMask))
    let dest := Function.update dest 21 (self._buffer (Int.land (position + 21) self._bufferMask))
    let dest := Function.update dest 22 (self._buffer (Int.land (position + 22) self._bufferMask))
    let dest := Function.update dest 23 (self._buffer (Int.land (position + 23) self._bufferMask))
    let dest := Function.update dest 24 (self._buffer (Int.land (position + 24) self._bufferMask))
    let dest := Function.update dest 25 (self._buffer (Int.land (position + 25) self._bufferMask))
    let dest := Function.update dest 26 (self._buffer (Int.land (position + 26) self._bufferMask))
    let dest := Function.update dest 27 (self._buffer (Int.land (position + 27) self._bufferMask))
    let dest := Function.update dest 28 (self._buffer (Int.land (position + 28) self._bufferMask))
    let dest := Function.update dest 29 (self._buffer (Int.land (position + 29) self._bufferMask))
    let dest := Function.update dest 30 (self._buffer (Int.land (position + 30) self._bufferMask))
    let dest := Function.update dest 31 (self._buffer (Int.land (position + 31) self._bufferMask))
    { ret := true
      self := { self with _dequeuePosition := position + length }
      span := { span with Pointer := dest }
      cout := [] }

/-- Embedding of `RingBuffer::TryBulkDequeue`.  Every branch of the source returns, so the
diagnostic after the `if` chain is never reached. -/
def RingBuffer.TryBulkDequeue (self : RingBuffer) (span : ByteSpan) : DequeueResult RingBuffer :=
  let dest := span.Pointer
  let length := span.Length
  if length = 4 then self.TryBulkDequeueByte4 span
  else if length = 8 then self.TryBulkDequeueByte8 span
  else if length = 16 then self.TryBulkDequeueByte16 span
  else if length = 32 then self.TryBulkDequeueByte32 span
  else
    let position := self._dequeuePosition
    { ret := true
      self := { self with _dequeuePosition := position + length }
      span := { span with Pointer := loadLoop self._bufferMask position self._buffer length dest }
      cout := [] }


/-- The last branch of `RingBuffer::TryBulkDequeue` on its own: the general
wrap-aware loop, which the source takes for every length other than 4, 8, 16
and 32. -/
def RingBuffer.TryBulkDequeueLoop (self : RingBuffer) (span : ByteSpan) :
    DequeueResult RingBuffer :=
  let dest := span.Pointer
  let length := span.Length
  let position := self._dequeuePosition
  { ret := true
    self := { self with _dequeuePosition := position + length }
    span := { span with Pointer := loadLoop self._bufferMask position self._buffer length dest }
    cout := [] }

/-! ## ConcurrentRingBuffer.h / ConcurrentRingBuffer.cpp -/

/-- Embedding of `class ConcurrentRingBuffer`: the private fields.  `_sequence[i]` is the
value held by the atomic at index `i`. -/
structure ConcurrentRingBuffer where
  _sequence : Int → Int
  _buffer : Int → UInt8
  _bufferMask : Int
  _bufferSize : Int
  _enqueuePosition : Int
  _dequeuePosition : Int

/-- Embedding of `ConcurrentRingBuffer::ConcurrentRingBuffer(int capacity)`.  `storage` and
`stamps` are the contents of the two freshly allocated arrays before the
constructor initialises `_sequence[i] = i` for `i < bufferSize`. -/
def ConcurrentRingBuffer.new (capacity : Int) (storage : Int → UInt8) (stamps : Int → Int) :
    Option ConcurrentRingBuffer :=
  match ceilLog2 capacity with
  | none => none
  | some power =>
    match pow2Int power with
    | none => none
    | some bufferSize =>
      some
        { _bufferSize := bufferSize
          _bufferMask := bufferSize - 1
          _buffer := storage
          _sequence :=
            (List.range bufferSize.toNat).foldl
              (fun s (i : Nat) => Function.update s (i : Int) (i : Int)) stamps
          _enqueuePosition := 0
          _dequeuePosition := 0 }

/-- Embedding of `ConcurrentRingBuffer::GetBufferSize`. -/
def ConcurrentRingBuffer.GetBufferSize (self : ConcurrentRingBuffer) : Int :=
  self._bufferSize

/-- Embedding of `ConcurrentRingBuffer::GetCount`. -/
def ConcurrentRingBuffer.GetCount (self : ConcurrentRingBuffer) : Int :=
  self._enqueuePosition - self._dequeuePosition

/-- Embedding of `std::atomic<int>::compare_exchange_weak(expected, desired)` on an
atomic that holds `value`, in a run without other threads and without spurious
failure: the returned `bool` and the value held afterwards. -/
def compareExchange (value expected desired : Int) : Bool × Int :=
  if value = expected then (true, desired) else (false, value)

/-- The loops `do { … SpinOnce(); } while (true)` of the concurrent buffer in a
run without other threads.  `SpinOnce` only yields, so every pass sees the
same object; `pass` is the outcome of one pass through the body, `some r` when
the pass returns `r` and `none` when it reaches `SpinOnce()`.  The loop is run
for at most `fuel` passes and gives `none` when none of them returns. -/
def spinLoop {α : Type} (pass : Option α) : Nat → Option α
  | 0 => none
  | fuel + 1 =>
    match pass with
    | some r => some r
    | none => spinLoop pass fuel

/-- The loop of the committed branch of `ConcurrentRingBuffer::TryBulkEnqueue`:
`for (int i = 0; i < length; i++) { _buffer[index + i] = data[i];
_sequence[index + i].store(position + 1 + i); }`, on the pair of `_buffer` and
`_sequence`. -/
def enqueueCommitLoop (index position : Int) (data : Nat → UInt8) (length : Int)
    (arrays : (Int → UInt8) × (Int → Int)) : (Int → UInt8) × (Int → Int) :=
  (List.range length.toNat).foldl
    (fun a (i : Nat) =>
      (Function.update a.1 (index + (i : Int)) (data i),
       Function.update a.2 (index + (i : Int)) (position + 1 + (i : Int))))
    arrays

/-- The loop of the committed branch of `ConcurrentRingBuffer::TryBulkDequeue`:
`for (int i = 0; i < length; i++) { int bufferIndex = (position + i) & _bufferMask;
dest[i] = _buffer[bufferIndex];
_sequence[bufferIndex].store(position + _bufferMask + 1 + i); }`, on the pair
of `dest` and `_sequence`. -/
def dequeueCommitLoop (bufferMask position : Int) (buffer : Int → UInt8) (length : Int)
    (arrays : (Nat → UInt8) × (Int → Int)) : (Nat → UInt8) × (Int → Int) :=
  (List.range length.toNat).foldl
    (fun a (i : Nat) =>
      (Function.update a.1 i (buffer (Int.land (position + (i : Int)) bufferMask)),
       Function.update a.2 (Int.land (position + (i : Int)) bufferMask)
         (position + bufferMask + 1 + (i : Int))))
    arrays

/-- The loop of the committed branch of `ConcurrentRingBuffer::Clear(int)`:
`for (int i = 0; i < length; i++) _sequence[index + i].store(position + _bufferMask + 1 + i);`. -/
def clearCommitLoop (bufferMask index position : Int) (length : Int) (sequence : Int → Int) :
    Int → Int :=
  (List.range length.toNat).foldl
    (fun s (i : Nat) =>
      Function.update s (index + (i : Int)) (position + bufferMask + 1 + (i : Int)))
    sequence

/-- One pass through the loop body of `ConcurrentRingBuffer::TryBulkEnqueue`. -/
def ConcurrentRingBuffer.TryBulkEnqueuePass (self : ConcurrentRingBuffer) (span : ByteSpan) :
    Option (EnqueueResult ConcurrentRingBuffer) :=
  let data := span.Pointer
  let length := span.Length
  let position := self._enqueuePosition
  let index := Int.land position self._bufferMask
  let sequence := self._sequence index
  let diff := sequence - position
  let count := position - self._dequeuePosition
  let cas := compareExchange self._enqueuePosition position (position + length)
  if diff = 0 ∧ length ≤ self._bufferSize - count ∧ cas.1 = true then
    let arrays := enqueueCommitLoop index position data length (self._buffer, self._sequence)
    some
      { ret := true
        self := { self with _enqueuePosition := cas.2, _buffer := arrays.1, _sequence := arrays.2 }
        cout := [] }
  else if diff < 0 ∨ length > self._bufferSize - count then
    some { ret := false, self := self, cout := [enqueueOverflowLine] }
  else none

/-- Embedding of `ConcurrentRingBuffer::TryBulkEnqueue`, run for at most `fuel` passes. -/
def ConcurrentRingBuffer.TryBulkEnqueue (self : ConcurrentRingBuffer) (span : ByteSpan)
    (fuel : Nat) : Option (EnqueueResult ConcurrentRingBuffer) :=
  spinLoop (self.TryBulkEnqueuePass span) fuel

/-- One pass through the loop body of `ConcurrentRingBuffer::TryBulkDequeue`.  The
local `count` of the source is computed and not used. -/
def ConcurrentRingBuffer.TryBulkDequeuePass (self : ConcurrentRingBuffer) (span : ByteSpan) :
    Option (DequeueResult ConcurrentRingBuffer) :=
  let dest := span.Pointer
  let length := span.Length
  let position := self._dequeuePosition
  let index := Int.land position self._bufferMask
  let sequence := self._sequence index
  let diff := sequence - (position + 1)
  let cas := compareExchange self._dequeuePosition position (position + length)
  if diff = 0 ∧ cas.1 = true then
    let arrays :=
      dequeueCommitLoop self._bufferMask position self._buffer length (dest, self._sequence)
    some
      { ret := true
        self := { self with _dequeuePosition := cas.2, _sequence := arrays.2 }
        span := { span with Pointer := arrays.1 }
        cout := [] }
  else if diff < 0 then
    some { ret := false, self := self, span := span, cout := [dequeueOverflowLine] }
  else none

/-- Embedding of `ConcurrentRingBuffer::TryBulkDequeue`, run for at most `fuel` passes. -/
def ConcurrentRingBuffer.TryBulkDequeue (self : ConcurrentRingBuffer) (span : ByteSpan)
    (fuel : Nat) : Option (DequeueResult ConcurrentRingBuffer) :=
  spinLoop (self.TryBulkDequeuePass span) fuel

/-- Embedding of `ConcurrentRingBuffer::Clear(int length)`, run for at most `fuel`
passes: `none` when none of them returns.  A pass that reaches `SpinOnce()`
hands the `length` it has clamped to the next pass. -/
def ConcurrentRingBuffer.ClearN (self : ConcurrentRingBuffer) (length : Int) :
    Nat → Option ConcurrentRingBuffer
  | 0 => none
  | fuel + 1 =>
    let position := self._dequeuePosition
    let index := Int.land position self._bufferMask
    let sequence := self._sequence index
    let diff := sequence - (position + 1)
    let count := self._enqueuePosition - position
    let length := if length ≤ count then length else count
    let cas := compareExchange self._dequeuePosition position (position + length)
    if diff = 0 ∧ cas.1 = true then
      some
        { self with
          _dequeuePosition := cas.2
          _sequence := clearCommitLoop self._bufferMask index position length self._sequence }
    else ConcurrentRingBuffer.ClearN self length fuel

/-- Embedding of `ConcurrentRingBuffer::Clear()`, run for at most `fuel` passes. -/
def ConcurrentRingBuffer.Clear (self : ConcurrentRingBuffer) (fuel : Nat) :
    Option ConcurrentRingBuffer :=
  let count := self._enqueuePosition - self._dequeuePosition
  self.ClearN count fuel

/-- One pass through the loop body of `ConcurrentRingBuffer::TryBulkEnqueueByte4`
(the loop is unrolled in the source and the diagnostic is commented out). -/
def ConcurrentRingBuffer.TryBulkEnqueueByte4Pass (self : ConcurrentRingBuffer)
    (span : ByteSpan) : Option (EnqueueResult ConcurrentRingBuffer) :=
  let data := span.Pointer
  let length := span.Length
  let position := self._enqueuePosition
  let index := Int.land position self._bufferMask
  let sequence := self._sequence index
  let diff := sequence - position
  let count := position - self._dequeuePosition
  let cas := compareExchange self._enqueuePosition position (position + length)
  if diff = 0 ∧ length ≤ self._bufferSize - count ∧ cas.1 = true then
    let b := self._buffer
    let s := self._sequence
    let b := Function.update b (index + 0) (data 0)
    let s := Function.update s (index + 0) (position + 1 + 0)
    let b := Function.update b (index + 1) (data 1)
    let s := Function.update s (index + 1) (position + 1 + 1)
    let b := Function.update b (index + 2) (data 2)
    let s := Function.update s (index + 2) (position + 1 + 2)
    let b := Function.update b (index + 3) (data 3)
    let s := Function.update s (index + 3) (position + 1 + 3)
    some
      { ret := true
        self := { self with _enqueuePosition := cas.2, _buffer := b, _sequence := s }
        cout := [] }
  else if diff < 0 ∨ length > self._bufferSize - count then
    some { ret := false, self := self, cout := [] }
  else none

/-- Embedding of `ConcurrentRingBuffer::TryBulkEnqueueByte4`, run for at most `fuel`
passes. -/
def ConcurrentRingBuffer.TryBulkEnqueueByte4 (self : ConcurrentRingBuffer) (span : ByteSpan)
    (fuel : Nat) : Option (EnqueueResult ConcurrentRingBuffer) :=
  if span.Length ≠ 4 then some { ret := false, self := self, cout := [] }
  else spinLoop (self.TryBulkEnqueueByte4Pass span) fuel

/-- One pass through the loop body of `ConcurrentRingBuffer::TryBulkEnqueueByte8`
(the loop is unrolled in the source and the diagnostic is commented out). -/
def ConcurrentRingBuffer.TryBulkEnqueueByte8Pass (self : ConcurrentRingBuffer)
    (span : ByteSpan) : Option (EnqueueResult ConcurrentRingBuffer) :=
  let data := span.Pointer
  let length := span.Length
  let position := self._enqueuePosition
  let index := Int.land position self._bufferMask
  let sequence := self._sequence index
  let diff := sequence - position
  let count := position - self._dequeuePosition
  let cas := compareExchange self._enqueuePosition position (position + length)
  if diff = 0 ∧ length ≤ self._bufferSize - count ∧ cas.1 = true then
    let b := self._buffer
    let s := self._sequence
    let b := Function.update b (index + 0) (data 0)
    let s := Function.update s (index + 0) (position + 1 + 0)
    let b := Function.update b (index + 1) (data 1)
    let s := Function.update s (index + 1) (position + 1 + 1)
    let b := Function.update b (index + 2) (data 2)
    let s := Function.update s (index + 2) (position + 1 + 2)
    let b := Function.update b (index + 3) (data 3)
    let s := Function.update s (index + 3) (position + 1 + 3)
    let b := Function.update b (index + 4) (data 4)
    let s := Function.update s (index + 4) (position + 1 + 4)
    let b := Function.update b (index + 5) (data 5)
    let s := Function.update s (index + 5) (position + 1 + 5)
    let b := Function.update b (index + 6) (data 6)
    let s := Function.update s (index + 6) (position + 1 + 6)
    let b := Function.update b (index + 7) (data 7)
    let s := Function.update s (index + 7) (position + 1 + 7)
    some
      { ret := true
        self := { self with _enqueuePosition := cas.2, _buffer := b, _sequence := s }
        cout := [] }
  else if diff < 0 ∨ length > self._bufferSize - count then
    some { ret := false, self := self, cout := [] }
  else none

/-- Embedding of `ConcurrentRingBuffer::TryBulkEnqueueByte8`, run for at most `fuel`
passes. -/
def ConcurrentRingBuffer.TryBulkEnqueueByte8 (self : ConcurrentRingBuffer) (span : ByteSpan)
    (fuel : Nat) : Option (EnqueueResult ConcurrentRingBuffer) :=
  if span.Length ≠ 8 then some { ret := false, self := self, cout := [] }
  else spinLoop (self.TryBulkEnqueueByte8Pass span) fuel

/-- One pass through the loop body of `ConcurrentRingBuffer::TryBulkEnqueueByte16`
(the loop is unrolled in the source and the diagnostic is commented out). -/
def ConcurrentRingBuffer.TryBulkEnqueueByte16Pass (self : ConcurrentRingBuffer)
    (span : ByteSpan) : Option (EnqueueResult ConcurrentRingBuffer) :=
  let data := span.Pointer
  let length := span.Length
  let position := self._enqueuePosition
  let index := Int.land position self._bufferMask
  let sequence := self._sequence index
  let diff := sequence - position
  let count := position - self._dequeuePosition
  let cas := compareExchange self._enqueuePosition position (position + length)
  if diff = 0 ∧ length ≤ self._bufferSize - count ∧ cas.1 = true then
    let b := self._buffer
    let s := self._sequence
    let b := Function.update b (index + 0) (data 0)
    let s := Function.update s (index + 0) (position + 1 + 0)
    let b := Function.update b (index + 1) (data 1)
    let s := Function.update s (index + 1) (position + 1 + 1)
    let b := Function.update b (index + 2) (data 2)
    let s := Function.update s (index + 2) (position + 1 + 2)
    let b := Function.update b (index + 3) (data 3)
    let s := Function.update s (index + 3) (position + 1 + 3)
    let b := Function.update b (index + 4) (data 4)
    let s := Function.update s (index + 4) (position + 1 + 4)
    let b := Function.update b (index + 5) (data 5)
    let s := Function.update s (index + 5) (position + 1 + 5)
    let b := Function.update b (index + 6) (data 6)
    let s := Function.update s (index + 6) (position + 1 + 6)
    let b := Function.update b (index + 7) (data 7)
    let s := Function.update s (index + 7) (position + 1 + 7)
    let b := Function.update b (index + 8) (data 8)
    let s := Function.update s (index + 8) (position + 1 + 8)
    let b := Function.update b (index + 9) (data 9)
    let s := Function.update s (index + 9) (position + 1 + 9)
    let b := Function.update b (index + 10) (data 10)
    let s := Function.update s (index + 10) (position + 1 + 10)
    let b := Function.update b (index + 11) (data 11)
    let s := Function.update s (index + 11) (position + 1 + 11)
    let b := Function.update b (index + 12) (data 12)
    let s := Function.update s (index + 12) (position + 1 + 12)
    let b := Function.update b (index + 13) (data 13)
    let s := Function.update s (index + 13) (position + 1 + 13)
    let b := Function.update b (index + 14) (data 14)
    let s := Function.update s (index + 14) (position + 1 + 14)
    let b := Function.update b (index + 15) (data 15)
    let s := Function.update s (index + 15) (position + 1 + 15)
    some
      { ret := true
        self := { self with _enqueuePosition := cas.2, _buffer := b, _sequence := s }
        cout := [] }
  else if diff < 0 ∨ length > self._bufferSize - count then
    some { ret := false, self := self, cout := [] }
  else none

/-- Embedding of `ConcurrentRingBuffer::TryBulkEnqueueByte16`, run for at most `fuel`
passes. -/
def ConcurrentRingBuffer.TryBulkEnqueueByte16 (self : ConcurrentRingBuffer) (span : ByteSpan)
    (fuel : Nat) : Option (EnqueueResult ConcurrentRingBuffer) :=
  if span.Length ≠ 16 then some { ret := false, self := self, cout := [] }
  else spinLoop (self.TryBulkEnqueueByte16Pass span) fuel

/-- One pass through the loop body of `ConcurrentRingBuffer::TryBulkEnqueueByte32`
(the loop is unrolled in the source and the diagnostic is commented out). -/
def ConcurrentRingBuffer.TryBulkEnqueueByte32Pass (self : ConcurrentRingBuffer)
    (span : ByteSpan) : Option (EnqueueResult ConcurrentRingBuffer) :=
  let data := span.Pointer
  let length := span.Length
  let position := self._enqueuePosition
  let index := Int.land position self._bufferMask
  let sequence := self._sequence index
  let diff := sequence - position
  let count := position - self._dequeuePosition
  let cas := compareExchange self._enqueuePosition position (position + length)
  if diff = 0 ∧ length ≤ self._bufferSize - count ∧ cas.1 = true then
    let b := self._buffer
    let s := self._sequence
    let b := Function.update b (index + 0) (data 0)
    let s := Function.update s (index + 0) (position + 1 + 0)
    let b := Function.update b (index + 1) (data 1)
    let s := Function.update s (index + 1) (position + 1 + 1)
    let b := Function.update b (index + 2) (data 2)
    let s := Function.update s (index + 2) (position + 1 + 2)
    let b := Function.update b (index + 3) (data 3)
    let s := Function.update s (index + 3) (position + 1 + 3)
    let b := Function.update b (index + 4) (data 4)
    let s := Function.update s (index + 4) (position + 1 + 4)
    let b := Function.update b (index + 5) (data 5)
    let s := Function.update s (index + 5) (position + 1 + 5)
    let b := Function.update b (index + 6) (data 6)
    let s := Function.update s (index + 6) (position + 1 + 6)
    let b := Function.update b (index + 7) (data 7)
    let s := Function.update s (index + 7) (position + 1 + 7)
    let b := Function.update b (index + 8) (data 8)
    let s := Function.update s (index + 8) (position + 1 + 8)
    let b := Function.update b (index + 9) (data 9)
    let s := Function.update s (index + 9) (position + 1 + 9)
    let b := Function.update b (index + 10) (data 10)
    let s := Function.update s (index + 10) (position + 1 + 10)
    let b := Function.update b (index + 11) (data 11)
    let s := Function.update s (index + 11) (position + 1 + 11)
    let b := Function.update b (index + 12) (data 12)
    let s := Function.update s (index + 12) (position + 1 + 12)
    let b := Function.update b (index + 13) (data 13)
    let s := Function.update s (index + 13) (position + 1 + 13)
    let b := Function.update b (index + 14) (data 14)
    let s := Function.update s (index + 14) (position + 1 + 14)
    let b := Function.update b (index + 15) (data 15)
    let s := Function.update s (index + 15) (position + 1 + 15)
    let b := Function.update b (index + 16) (data 16)
    let s := Function.update s (index + 16) (position + 1 + 16)
    let b := Function.update b (index + 17) (data 17)
    let s := Function.update s (index + 17) (position + 1 + 17)
    let b := Function.update b (index + 18) (data 18)
    let s := Function.update s (index + 18) (position + 1 + 18)
    let b := Function.update b (index + 19) (data 19)
    let s := Function.update s (index + 19) (position + 1 + 19)
    let b := Function.update b (index + 20) (data 20)
    let s := Function.update s (index + 20) (position + 1 + 20)
    let b := Function.update b (index + 21) (data 21)
    let s := Function.update s (index + 21) (position + 1 + 21)
    let b := Function.update b (index + 22) (data 22)
    let s := Function.update s (index + 22) (position + 1 + 22)
    let b := Function.update b (index + 23) (data 23)
    let s := Function.update s (index + 23) (position + 1 + 23)
    let b := Function.update b (index + 24) (data 24)
    let s := Function.update s (index + 24) (position + 1 + 24)
    let b := Function.update b (index + 25) (data 25)
    let s := Function.update s (index + 25) (position + 1 + 25)
    let b := Function.update b (index + 26) (data 26)
    let s := Function.update s (index + 26) (position + 1 + 26)
    let b := Function.update b (index + 27) (data 27)
    let s := Function.update s (index + 27) (position + 1 + 27)
    let b := Function.update b (index + 28) (data 28)
    let s := Function.update s (index + 28) (position + 1 + 28)
    let b := Function.update b (index + 29) (data 29)
    let s := Function.update s (index + 29) (position + 1 + 29)
    let b := Function.update b (index + 30) (data 30)
    let s := Function.update s (index + 30) (position + 1 + 30)
    let b := Function.update b (index + 31) (data 31)
    let s := Function.update s (index + 31) (position + 1 + 31)
    some
      { ret := true
        self := { self with _enqueuePosition := cas.2, _buffer := b, _sequence := s }
        cout := [] }
  else if diff < 0 ∨ length > self._bufferSize - count then
    some { ret := false, self := self, cout := [] }
  else none

/-- Embedding of `ConcurrentRingBuffer::TryBulkEnqueueByte32`, run for at most `fuel`
passes. -/
def ConcurrentRingBuffer.TryBulkEnqueueByte32 (self : ConcurrentRingBuffer) (span : ByteSpan)
    (fuel : Nat) : Option (EnqueueResult ConcurrentRingBuffer) :=
  if span.Length ≠ 32 then some { ret := false, self := self, cout := [] }
  else spinLoop (self.TryBulkEnqueueByte32Pass span) fuel

/-- One pass through the loop body of `ConcurrentRingBuffer::TryBulkDequeueByte4`
(the loop is unrolled in the source). -/
def ConcurrentRingBuffer.TryBulkDequeueByte4Pass (self : ConcurrentRingBuffer)
    (span : ByteSpan) : Option (DequeueResult ConcurrentRingBuffer) :=
  let dest := span.Pointer
  let length := span.Length
  let position := self._dequeuePosition
  let index := Int.land position self._bufferMask
  let sequence := self._sequence index
  let diff := sequence - (position + 1)
  let cas := compareExchange self._dequeuePosition position (position + length)
  if diff = 0 ∧ cas.1 = true then
    let s := self._sequence
    let bufferIndex := Int.land (position + 0) self._bufferMask
    let dest := Function.update dest 0 (self._buffer bufferIndex)
    let s := Function.update s bufferIndex (position + self._bufferMask + 1 + 0)
    let bufferIndex := Int.land (position + 1) self._bufferMask
    let dest := Function.update dest 1 (self._buffer bufferIndex)
    let s := Function.update s bufferIndex (position + self._bufferMask + 1 + 1)
    let bufferIndex := Int.land (position + 2) self._bufferMask
    let dest := Function.update dest 2 (self._buffer bufferIndex)
    let s := Function.update s bufferIndex (position + self._bufferMask + 1 + 2)
    let bufferIndex := Int.land (position + 3) self._bufferMask
    let dest := Function.update dest 3 (self._buffer bufferIndex)
    let s := Function.update s bufferIndex (position + self._bufferMask + 1 + 3)
    some
      { ret := true
        self := { self with _dequeuePosition := cas.2, _sequence := s }
        span := { span with Pointer := dest }
        cout := [] }
  else if diff < 0 then
    some { ret := false, self := self, span := span, cout := [dequeueOverflowLine] }
  else none

/-- Embedding of `ConcurrentRingBuffer::TryBulkDequeueByte4`, run for at most `fuel`
passes. -/
def ConcurrentRingBuffer.TryBulkDequeueByte4 (self : ConcurrentRingBuffer) (span : ByteSpan)
    (fuel : Nat) : Option (DequeueResult ConcurrentRingBuffer) :=
  if span.Length ≠ 4 then some { ret := false, self := self, span := span, cout := [] }
  else spinLoop (self.TryBulkDequeueByte4Pass span) fuel

/-- One pass through the loop body of `ConcurrentRingBuffer::TryBulkDequeueByte8`
(the loop is unrolled in the source). -/
def ConcurrentRingBuffer.TryBulkDequeueByte8Pass (self : ConcurrentRingBuffer)
    (span : ByteSpan) : Option (DequeueResult ConcurrentRingBuffer) :=
  let dest := span.Pointer
  let length := span.Length
  let position := self._dequeuePosition
  let index := Int.land position self._bufferMask
  let sequence := self._sequence index
  let diff := sequence - (position + 1)
  let cas := compareExchange self._dequeuePosition position (position + length)
  if diff = 0 ∧ cas.1 = true then
    let s := self._sequence
    let bufferIndex := Int.land (position + 0) self._bufferMask
    let dest := Function.update dest 0 (self._buffer bufferIndex)
    let s := Function.update s bufferIndex (position + self._bufferMask + 1 + 0)
    let bufferIndex := Int.land (position + 1) self._bufferMask
    let dest := Function.update dest 1 (self._buffer bufferIndex)
    let s := Function.update s bufferIndex (position + self._bufferMask + 1 + 1)
    let bufferIndex := Int.land (position + 2) self._bufferMask
    let dest := Function.update dest 2 (self._buffer bufferIndex)
    let s := Function.update s bufferIndex (position + self._bufferMask + 1 + 2)
    let bufferIndex := Int.land (position + 3) self._bufferMask
    let dest := Function.update dest 3 (self._buffer bufferIndex)
    let s := Function.update s bufferIndex (position + self._bufferMask + 1 + 3)
    let bufferIndex := Int.land (position + 4) self._bufferMask
    let dest := Function.update dest 4 (self._buffer bufferIndex)
    let s := Function.update s bufferIndex (position + self._bufferMask + 1 + 4)
    let bufferIndex := Int.land (position + 5) self._bufferMask
    let dest := Function.update dest 5 (self._buffer bufferIndex)
    let s := Function.update s bufferIndex (position + self._bufferMask + 1 + 5)
    let bufferIndex := Int.land (position + 6) self._bufferMask
    let dest := Function.update dest 6 (self._buffer bufferIndex)
    let s := Function.update s bufferIndex (position + self._bufferMask + 1 + 6)
    let bufferIndex := Int.land (position + 7) self._bufferMask
    let dest := Function.update dest 7 (self._buffer bufferIndex)
    let s := Function.update s bufferIndex (position + self._bufferMask + 1 + 7)
    some
      { ret := true
        self := { self with _dequeuePosition := cas.2, _sequence := s }
        span := { span with Pointer := dest }
        cout := [] }
  else if diff < 0 then
    some { ret := false, self := self, span := span, cout := [dequeueOverflowLine] }
  else none

/-- Embedding of `ConcurrentRingBuffer::TryBulkDequeueByte8`, run for at most `fuel`
passes. -/
def ConcurrentRingBuffer.TryBulkDequeueByte8 (self : ConcurrentRingBuffer) (span : ByteSpan)
    (fuel : Nat) : Option (DequeueResult ConcurrentRingBuffer) :=
  if span.Length ≠ 8 then some { ret := false, self := self, span := span, cout := [] }
  else spinLoop (self.TryBulkDequeueByte8Pass span) fuel

/-- One pass through the loop body of `ConcurrentRingBuffer::TryBulkDequeueByte16`
(the loop is unrolled in the source). -/
def ConcurrentRingBuffer.TryBulkDequeueByte16Pass (self : ConcurrentRingBuffer)
    (span : ByteSpan) : Option (DequeueResult ConcurrentRingBuffer) :=
  let dest := span.Pointer
  let length := span.Length
  let position := self._dequeuePosition
  let index := Int.land position self._bufferMask
  let sequence := self._sequence index
  let diff := sequence - (position + 1)
  let cas := compareExchange self._dequeuePosition position (position + length)
  if diff = 0 ∧ cas.1 = true then
    let s := self._sequence
    let bufferIndex := Int.land (position + 0) self._bufferMask
    let dest := Function.update dest 0 (self._buffer bufferIndex)
    let s := Function.update s bufferIndex (position + self._bufferMask + 1 + 0)
    let bufferIndex := Int.land (position + 1) self._bufferMask
    let dest := Function.update dest 1 (self._buffer bufferIndex)
    let s := Function.update s bufferIndex (position + self._bufferMask + 1 + 1)
    let bufferIndex := Int.land (position + 2) self._bufferMask
    let dest := Function.update dest 2 (self._buffer bufferIndex)
    let s := Function.update s bufferIndex (position + self._bufferMask + 1 + 2)
    let bufferIndex := Int.land (position + 3) self._bufferMask
    let dest := Function.update dest 3 (self._buffer bufferIndex)
    let s := Function.update s bufferIndex (position + self._bufferMask + 1 + 3)
    let bufferIndex := Int.land (position + 4) self._bufferMask
    let dest := Function.update dest 4 (self._buffer bufferIndex)
    let s := Function.update s bufferIndex (position + self._bufferMask + 1 + 4)
    let bufferIndex := Int.land (position + 5) self._bufferMask
    let dest := Function.update dest 5 (self._buffer bufferIndex)
    let s := Function.update s bufferIndex (position + self._bufferMask + 1 + 5)
    let bufferIndex := Int.land (position + 6) self._bufferMask
    let dest := Function.update dest 6 (self._buffer bufferIndex)
    let s := Function.update s bufferIndex (position + self._bufferMask + 1 + 6)
    let bufferIndex := Int.land (position + 7) self._bufferMask
    let dest := Function.update dest 7 (self._buffer bufferIndex)
    let s := Function.update s bufferIndex (position + self._bufferMask + 1 + 7)
    let bufferIndex := Int.land (position + 8) self._bufferMask
    let dest := Function.update dest 8 (self._buffer bufferIndex)
    let s := Function.update s bufferIndex (position + self._bufferMask + 1 + 8)
    let bufferIndex := Int.land (position + 9) self._bufferMask
    let dest := Function.update dest 9 (self._buffer bufferIndex)
    let s := Function.update s bufferIndex (position + self._bufferMask + 1 + 9)
    let bufferIndex := Int.land (position + 10) self._bufferMask
    let dest := Function.update dest 10 (self._buffer bufferIndex)
    let s := Function.update s bufferIndex (position + self._bufferMask + 1 + 10)
    let bufferIndex := Int.land (position + 11) self._bufferMask
    let dest := Function.update dest 11 (self._buffer bufferIndex)
    let s := Function.update s bufferIndex (position + self._bufferMask + 1 + 11)
    let bufferIndex := Int.land (position + 12) self._bufferMask
    let dest := Function.update dest 12 (self._buffer bufferIndex)
    let s := Function.update s bufferIndex (position + self._bufferMask + 1 + 12)
    let bufferIndex := Int.land (position + 13) self._bufferMask
    let dest := Function.update dest 13 (self._buffer bufferIndex)
    let s := Function.update s bufferIndex (position + self._bufferMask + 1 + 13)
    let bufferIndex := Int.land (position + 14) self._bufferMask
    let dest := Function.update dest 14 (self._buffer bufferIndex)
    let s := Function.update s bufferIndex (position + self._bufferMask + 1 + 14)
    let bufferIndex := Int.land (position + 15) self._bufferMask
    let dest := Function.update dest 15 (self._buffer bufferIndex)
    let s := Function.update s bufferIndex (position + self._bufferMask + 1 + 15)
    some
      { ret := true
        self := { self with _dequeuePosition := cas.2, _sequence := s }
        span := { span with Pointer := dest }
        cout := [] }
  else if diff < 0 then
    some { ret := false, self := self, span := span, cout := [dequeueOverflowLine] }
  else none

/-- Embedding of `ConcurrentRingBuffer::TryBulkDequeueByte16`, run for at most `fuel`
passes. -/
def ConcurrentRingBuffer.TryBulkDequeueByte16 (self : ConcurrentRingBuffer) (span : ByteSpan)
    (fuel : Nat) : Option (DequeueResult ConcurrentRingBuffer) :=
  if span.Length ≠ 16 then some { ret := false, self := self, span := span, cout := [] }
  else spinLoop (self.TryBulkDequeueByte16Pass span) fuel

/-- One pass through the loop body of `ConcurrentRingBuffer::TryBulkDequeueByte32`
(the loop is unrolled in the source). -/
def ConcurrentRingBuffer.TryBulkDequeueByte32Pass (self : ConcurrentRingBuffer)
    (span : ByteSpan) : Option (DequeueResult ConcurrentRingBuffer) :=
  let dest := span.Pointer
  let length := span.Length
  let position := self._dequeuePosition
  let index := Int.land position self._bufferMask
  let sequence := self._sequence index
  let diff := sequence - (position + 1)
  let cas := compareExchange self._dequeuePosition position (position + length)
  if diff = 0 ∧ cas.1 = true then
    let s := self._sequence
    let bufferIndex := Int.land (position + 0) self._bufferMask
    let dest := Function.update dest 0 (self._buffer bufferIndex)
    let s := Function.update s bufferIndex (position + self._bufferMask + 1 + 0)
    let bufferIndex := Int.land (position + 1) self._bufferMask
    let dest := Function.update dest 1 (self._buffer bufferIndex)
    let s := Function.update s bufferIndex (position + self._bufferMask + 1 + 1)
    let bufferIndex := Int.land (position + 2) self._bufferMask
    let dest := Function.update dest 2 (self._buffer bufferIndex)
    let s := Function.update s bufferIndex (position + self._bufferMask + 1 + 2)
    let bufferIndex := Int.land (position + 3) self._bufferMask
    let dest := Function.update dest 3 (self._buffer bufferIndex)
    let s := Function.update s bufferIndex (position + self._bufferMask + 1 + 3)
    let bufferIndex := Int.land (position + 4) self._bufferMask
    let dest := Function.update dest 4 (self._buffer bufferIndex)
    let s := Function.update s bufferIndex (position + self._bufferMask + 1 + 4)
    let bufferIndex := Int.land (position + 5) self._bufferMask
    let dest := Function.update dest 5 (self._buffer bufferIndex)
    let s := Function.update s bufferIndex (position + self._bufferMask + 1 + 5)
    let bufferIndex := Int.land (position + 6) self._bufferMask
    let dest := Function.update dest 6 (self._buffer bufferIndex)
    let s := Function.update s bufferIndex (position + self._bufferMask + 1 + 6)
    let bufferIndex := Int.land (position + 7) self._bufferMask
    let dest := Function.update dest 7 (self._buffer bufferIndex)
    let s := Function.update s bufferIndex (position + self._bufferMask + 1 + 7)
    let bufferIndex := Int.land (position + 8) self._bufferMask
    let dest := Function.update dest 8 (self._buffer bufferIndex)
    let s := Function.update s bufferIndex (position + self._bufferMask + 1 + 8)
    let bufferIndex := Int.land (position + 9) self._bufferMask
    let dest := Function.update dest 9 (self._buffer bufferIndex)
    let s := Function.update s bufferIndex (position + self._bufferMask + 1 + 9)
    let bufferIndex := Int.land (position + 10) self._bufferMask
    let dest := Function.update dest 10 (self._buffer bufferIndex)
    let s := Function.update s bufferIndex (position + self._bufferMask + 1 + 10)
    let bufferIndex := Int.land (position + 11) self._bufferMask
    let dest := Function.update dest 11 (self._buffer bufferIndex)
    let s := Function.update s bufferIndex (position + self._bufferMask + 1 + 11)
    let bufferIndex := Int.land (position + 12) self._bufferMask
    let dest := Function.update dest 12 (self._buffer bufferIndex)
    let s := Function.update s bufferIndex (position + self._bufferMask + 1 + 12)
    let bufferIndex := Int.land (position + 13) self._bufferMask
    let dest := Function.update dest 13 (self._buffer bufferIndex)
    let s := Function.update s bufferIndex (position + self._bufferMask + 1 + 13)
    let bufferIndex := Int.land (position + 14) self._bufferMask
    let dest := Function.update dest 14 (self._buffer bufferIndex)
    let s := Function.update s bufferIndex (position + self._bufferMask + 1 + 14)
    let bufferIndex := Int.land (position + 15) self._bufferMask
    let dest := Function.update dest 15 (self._buffer bufferIndex)
    let s := Function.update s bufferIndex (position + self._bufferMask + 1 + 15)
    let bufferIndex := Int.land (position + 16) self._bufferMask
    let dest := Function.update dest 16 (self._buffer bufferIndex)
    let s := Function.update s bufferIndex (position + self._bufferMask + 1 + 16)
    let bufferIndex := Int.land (position + 17) self._bufferMask
    let dest := Function.update dest 17 (self._buffer bufferIndex)
    let s := Function.update s bufferIndex (position + self._bufferMask + 1 + 17)
    let bufferIndex := Int.land (position + 18) self._bufferMask
    let dest := Function.update dest 18 (self._buffer bufferIndex)
    let s := Function.update s bufferIndex (position + self._bufferMask + 1 + 18)
    let bufferIndex := Int.land (position + 19) self._bufferMask
    let dest := Function.update dest 19 (self._buffer bufferIndex)
    let s := Function.update s bufferIndex (position + self._bufferMask + 1 + 19)
    let bufferIndex := Int.land (position + 20) self._bufferMask
    let dest := Function.update dest 20 (self._buffer bufferIndex)
    let s := Function.update s bufferIndex (position + self._bufferMask + 1 + 20)
    let bufferIndex := Int.land (position + 21) self._bufferMask
    let dest := Function.update dest 21 (self._buffer bufferIndex)
    let s := Function.update s bufferIndex (position + self._bufferMask + 1 + 21)
    let bufferIndex := Int.land (position + 22) self._bufferMask
    let dest := Function.update dest 22 (self._buffer bufferIndex)
    let s := Function.update s bufferIndex (position + self._bufferMask + 1 + 22)
    let bufferIndex := Int.land (position + 23) self._bufferMask
    let dest := Function.update dest 23 (self._buffer bufferIndex)
    let s := Function.update s bufferIndex (position + self._bufferMask + 1 + 23)
    let bufferIndex := Int.land (position + 24) self._bufferMask
    let dest := Function.update dest 24 (self._buffer bufferIndex)
    let s := Function.update s bufferIndex (position + self._bufferMask + 1 + 24)
    let bufferIndex := Int.land (position + 25) self._bufferMask
    let dest := Function.update dest 25 (self._buffer bufferIndex)
    let s := Function.update s bufferIndex (position + self._bufferMask + 1 + 25)
    let bufferIndex := Int.land (position + 26) self._bufferMask
    let dest := Function.update dest 26 (self._buffer bufferIndex)
    let s := Function.update s bufferIndex (position + self._bufferMask + 1 + 26)
    let bufferIndex := Int.land (position + 27) self._bufferMask
    let dest := Function.update dest 27 (self._buffer bufferIndex)
    let s := Function.update s bufferIndex (position + self._bufferMask + 1 + 27)
    let bufferIndex := Int.land (position + 28) self._bufferMask
    let dest := Function.update dest 28 (self._buffer bufferIndex)
    let s := Function.update s bufferIndex (position + self._bufferMask + 1 + 28)
    let bufferIndex := Int.land (position + 29) self._bufferMask
    let dest := Function.update dest 29 (self._buffer bufferIndex)
    let s := Function.update s bufferIndex (position + self._bufferMask + 1 + 29)
    let bufferIndex := Int.land (position + 30) self._bufferMask
    let dest := Function.update dest 30 (self._buffer bufferIndex)
    let s := Function.update s bufferIndex (position + self._bufferMask + 1 + 30)
    let bufferIndex := Int.land (position + 31) self._bufferMask
    let dest := Function.update dest 31 (self._buffer bufferIndex)
    let s := Function.update s bufferIndex (position + self._bufferMask + 1 + 31)
    some
      { ret := true
        self := { self with _dequeuePosition := cas.2, _sequence := s }
        span := { span with Pointer := dest }
        cout := [] }
  else if diff < 0 then
    some { ret := false, self := self, span := span, cout := [dequeueOverflowLine] }
  else none

/-- Embedding of `ConcurrentRingBuffer::TryBulkDequeueByte32`, run for at most `fuel`
passes. -/
def ConcurrentRingBuffer.TryBulkDequeueByte32 (self : ConcurrentRingBuffer) (span : ByteSpan)
    (fuel : Nat) : Option (DequeueResult ConcurrentRingBuffer) :=
  if span.Length ≠ 32 then some { ret := false, self := self, span := span, cout := [] }
  else spinLoop (self.TryBulkDequeueByte32Pass span) fuel

/-- Embedding of `ConcurrentRingBuffer::GetValue(int position)`: the returned byte.  The
object is not modified. -/
def ConcurrentRingBuffer.GetValue (self : ConcurrentRingBuffer) (position : Int) : UInt8 :=
  let bufferPosition := self._dequeuePosition + position
  self._buffer (Int.land bufferPosition self._bufferMask)

/-- Embedding of `ConcurrentRingBuffer::GetHeadValue()`: the returned byte.  The object is
not modified. -/
def ConcurrentRingBuffer.GetHeadValue (self : ConcurrentRingBuffer) : UInt8 :=
  let position := self._dequeuePosition
  self._buffer (Int.land position self._bufferMask)

/-- Embedding of `ConcurrentRingBuffer::Slice(int start, int length, ByteSpan&, ByteSpan&)`:
the pair `(firstSegmentSpan, secondSegmentSpan)`.  The object is not modified. -/
def ConcurrentRingBuffer.Slice (self : ConcurrentRingBuffer) (start length : Int) :
    BufferSpan × BufferSpan :=
  let headPosition := self._dequeuePosition
  let startIndex := Int.land (headPosition + start) self._bufferMask
  let endIndex := Int.land (headPosition + start + length) self._bufferMask
  if startIndex ≤ endIndex then
    ({ Pointer := startIndex, Length := length }, { Pointer := 0, Length := 0 })
  else
    let firstSegmentSize := self._bufferSize - startIndex
    let secondSegmentSize := length - firstSegmentSize
    ({ Pointer := startIndex, Length := firstSegmentSize },
     { Pointer := 0, Length := secondSegmentSize })

/-! ## Vocabulary of the specification -/

/-- The first `Length` bytes reachable through a caller span. -/
def ByteSpan.bytes (span : ByteSpan) : List UInt8 :=
  (List.range span.Length.toNat).map span.Pointer

/-- The bytes of the buffer that a span produced by `Slice` covers. -/
def BufferSpan.bytes (span : BufferSpan) (buffer : Int → UInt8) : List UInt8 :=
  (List.range span.Length.toNat).map (fun (i : Nat) => buffer (span.Pointer + (i : Int)))

/-- A span produced by `Slice` lies inside an allocation of `bufferSize` bytes. -/
def BufferSpan.Inside (span : BufferSpan) (bufferSize : Int) : Prop :=
  0 ≤ span.Pointer ∧ 0 ≤ span.Length ∧ span.Pointer + span.Length ≤ bufferSize

instance (span : BufferSpan) (bufferSize : Int) : Decidable (span.Inside bufferSize) := by
  unfold BufferSpan.Inside; infer_instance

/-- Well-formed state of the serial buffer: the size is a power of two, the
mask is the size minus one, and `0 ≤ D ≤ E ≤ D + B`. -/
def RingBuffer.WellFormed (self : RingBuffer) : Prop :=
  (∃ k : Nat, self._bufferSize = 2 ^ k) ∧
  self._bufferMask = self._bufferSize - 1 ∧
  0 ≤ self._dequeuePosition ∧
  self._dequeuePosition ≤ self._enqueuePosition ∧
  self._enqueuePosition - self._dequeuePosition ≤ self._bufferSize

/-- The bytes at logical offsets `[start, start + length)` from the dequeue
position: `buffer[(D + start + i) & mask]` for `i` in `[0, length)`. -/
def RingBuffer.window (self : RingBuffer) (start length : Int) : List UInt8 :=
  (List.range length.toNat).map
    (fun (i : Nat) =>
      self._buffer (Int.land (self._dequeuePosition + start + (i : Int)) self._bufferMask))

/-- The live payload: `buffer[(D + i) & mask]` for `i` in `[0, count)`. -/
def RingBuffer.payload (self : RingBuffer) : List UInt8 :=
  self.window 0 self.GetCount

/-- A call of the bulk interface of the serial buffer. -/
inductive Call where
  | enqueue (span : ByteSpan)
  | dequeue (span : ByteSpan)

/-- A buffer together with the stream `S` of the bytes accepted by successful
enqueues and the stream `R` of the bytes returned by successful dequeues. -/
structure Trace where
  self : RingBuffer
  S : List UInt8
  R : List UInt8

/-- Performs one call and extends the streams. -/
def Trace.step (t : Trace) : Call → Trace
  | .enqueue span =>
    let r := t.self.TryBulkEnqueue span
    { self := r.self, S := if r.ret then t.S ++ span.bytes else t.S, R := t.R }
  | .dequeue span =>
    let r := t.self.TryBulkDequeue span
    { self := r.self, S := t.S, R := if r.ret then t.R ++ r.span.bytes else t.R }

/-- Performs the calls from left to right. -/
def Trace.run (t : Trace) (calls : List Call) : Trace :=
  calls.foldl Trace.step t

/-- Every span has a length `≥ 0` and every dequeue asks for at most `count`
bytes at the time of its call. -/
def Call.Admissible : RingBuffer → List Call → Prop
  | _, [] => True
  | rb, .enqueue span :: rest =>
    0 ≤ span.Length ∧ Call.Admissible (rb.TryBulkEnqueue span).self rest
  | rb, .dequeue span :: rest =>
    0 ≤ span.Length ∧ span.Length ≤ rb.GetCount ∧
      Call.Admissible (rb.TryBulkDequeue span).self rest

instance Call.decidableAdmissible : (rb : RingBuffer) → (calls : List Call) →
    Decidable (Call.Admissible rb calls)
  | _, [] => isTrue trivial
  | rb, .enqueue span :: rest =>
    have := Call.decidableAdmissible (rb.TryBulkEnqueue span).self rest
    inferInstanceAs
      (Decidable (0 ≤ span.Length ∧ Call.Admissible (rb.TryBulkEnqueue span).self rest))
  | rb, .dequeue span :: rest =>
    have := Call.decidableAdmissible (rb.TryBulkDequeue span).self rest
    inferInstanceAs
      (Decidable (0 ≤ span.Length ∧ span.Length ≤ rb.GetCount ∧
        Call.Admissible (rb.TryBulkDequeue span).self rest))

/-- An operation of the serial buffer. -/
inductive Op where
  | TryBulkEnqueue (span : ByteSpan)
  | TryBulkEnqueueByte4 (span : ByteSpan)
  | TryBulkEnqueueByte8 (span : ByteSpan)
  | TryBulkEnqueueByte16 (span : ByteSpan)
  | TryBulkEnqueueByte32 (span : ByteSpan)
  | TryBulkDequeue (span : ByteSpan)
  | TryBulkDequeueByte4 (span : ByteSpan)
  | TryBulkDequeueByte8 (span : ByteSpan)
  | TryBulkDequeueByte16 (span : ByteSpan)
  | TryBulkDequeueByte32 (span : ByteSpan)
  | Clear
  | ClearN (length : Int)
  | Slice (start length : Int)
  | SliceFrom (start : Int)

/-- The buffer after an operation. -/
def Op.apply (rb : RingBuffer) : Op → RingBuffer
  | .TryBulkEnqueue span => (rb.TryBulkEnqueue span).self
  | .TryBulkEnqueueByte4 span => (rb.TryBulkEnqueueByte4 span).self
  | .TryBulkEnqueueByte8 span => (rb.TryBulkEnqueueByte8 span).self
  | .TryBulkEnqueueByte16 span => (rb.TryBulkEnqueueByte16 span).self
  | .TryBulkEnqueueByte32 span => (rb.TryBulkEnqueueByte32 span).self
  | .TryBulkDequeue span => (rb.TryBulkDequeue span).self
  | .TryBulkDequeueByte4 span => (rb.TryBulkDequeueByte4 span).self
  | .TryBulkDequeueByte8 span => (rb.TryBulkDequeueByte8 span).self
  | .TryBulkDequeueByte16 span => (rb.TryBulkDequeueByte16 span).self
  | .TryBulkDequeueByte32 span => (rb.TryBulkDequeueByte32 span).self
  | .Clear => rb.Clear
  | .ClearN length => rb.ClearN length
  | .Slice _ _ => rb
  | .SliceFrom _ => rb

/-- The buffer after a sequence of operations, performed from left to right. -/
def Op.run (rb : RingBuffer) (ops : List Op) : RingBuffer :=
  ops.foldl Op.apply rb

/-- The span of an operation that takes one. -/
def Op.span? : Op → Option ByteSpan
  | .TryBulkEnqueue span | .TryBulkEnqueueByte4 span | .TryBulkEnqueueByte8 span
  | .TryBulkEnqueueByte16 span | .TryBulkEnqueueByte32 span
  | .TryBulkDequeue span | .TryBulkDequeueByte4 span | .TryBulkDequeueByte8 span
  | .TryBulkDequeueByte16 span | .TryBulkDequeueByte32 span => some span
  | _ => none

/-- Every span of the sequence has a length `≥ 0`. -/
def Op.SpansNonneg (ops : List Op) : Prop :=
  ∀ op ∈ ops, ∀ span, op.span? = some span → 0 ≤ span.Length

/-- The operation respects the preconditions of the serial buffer in state
`rb`: a span has a length `≥ 0`, a dequeue that is not rejected for a length
mismatch asks for at most `count` bytes, and `Clear(n)` is called with `n ≥ 0`. -/
def Op.Respects (rb : RingBuffer) : Op → Prop
  | .TryBulkEnqueue span | .TryBulkEnqueueByte4 span | .TryBulkEnqueueByte8 span
  | .TryBulkEnqueueByte16 span | .TryBulkEnqueueByte32 span => 0 ≤ span.Length
  | .TryBulkDequeue span => 0 ≤ span.Length ∧ span.Length ≤ rb.GetCount
  | .TryBulkDequeueByte4 span => 0 ≤ span.Length ∧ (span.Length = 4 → span.Length ≤ rb.GetCount)
  | .TryBulkDequeueByte8 span => 0 ≤ span.Length ∧ (span.Length = 8 → span.Length ≤ rb.GetCount)
  | .TryBulkDequeueByte16 span =>
    0 ≤ span.Length ∧ (span.Length = 16 → span.Length ≤ rb.GetCount)
  | .TryBulkDequeueByte32 span =>
    0 ≤ span.Length ∧ (span.Length = 32 → span.Length ≤ rb.GetCount)
  | .Clear => True
  | .ClearN length => 0 ≤ length
  | .Slice _ _ => True
  | .SliceFrom _ => True

/-- Every operation of the sequence respects the preconditions in the state
in which it is performed. -/
def Op.RespectsAll : RingBuffer → List Op → Prop
  | _, [] => True
  | rb, op :: rest => Op.Respects rb op ∧ Op.RespectsAll (Op.apply rb op) rest


instance Op.decidableRespects (rb : RingBuffer) (op : Op) : Decidable (Op.Respects rb op) := by
  cases op <;> unfold Op.Respects <;> infer_instance

instance Op.decidableRespectsAll : (rb : RingBuffer) → (ops : List Op) →
    Decidable (Op.RespectsAll rb ops)
  | _, [] => isTrue trivial
  | rb, op :: rest =>
    have := Op.decidableRespectsAll (Op.apply rb op) rest
    inferInstanceAs (Decidable (Op.Respects rb op ∧ Op.RespectsAll (Op.apply rb op) rest))

/-- What a caller observes of one call: the returned `bool`, the bytes handed
back (those of the destination span after a successful dequeue, none
otherwise) and `GetCount()` after the call. -/
structure Observation where
  ret : Bool
  bytes : List UInt8
  count : Int
deriving DecidableEq

/-- The observations of a sequence of calls on the serial buffer. -/
def RingBuffer.observe : RingBuffer → List Call → List Observation
  | _, [] => []
  | rb, .enqueue span :: rest =>
    let r := rb.TryBulkEnqueue span
    { ret := r.ret, bytes := [], count := r.self.GetCount } :: RingBuffer.observe r.self rest
  | rb, .dequeue span :: rest =>
    let r := rb.TryBulkDequeue span
    { ret := r.ret, bytes := if r.ret then r.span.bytes else [], count := r.self.GetCount } ::
      RingBuffer.observe r.self rest

/-- The observations of a sequence of calls on the concurrent buffer, made
without other threads, every loop run for at most `fuel` passes: `none` when
a call does not return. -/
def ConcurrentRingBuffer.observe (fuel : Nat) :
    ConcurrentRingBuffer → List Call → Option (List Observation)
  | _, [] => some []
  | crb, .enqueue span :: rest =>
    match crb.TryBulkEnqueue span fuel with
    | none => none
    | some r =>
      (ConcurrentRingBuffer.observe fuel r.self rest).map
        (fun tail => { ret := r.ret, bytes := [], count := r.self.GetCount } :: tail)
  | crb, .dequeue span :: rest =>
    match crb.TryBulkDequeue span fuel with
    | none => none
    | some r =>
      (ConcurrentRingBuffer.observe fuel r.self rest).map
        (fun tail =>
          { ret := r.ret, bytes := if r.ret then r.span.bytes else [], count := r.self.GetCount } ::
            tail)

/-- The concurrent buffer after one call made without other threads: `none`
when the call does not return within `fuel` passes. -/
def ConcurrentRingBuffer.step (fuel : Nat) (self : ConcurrentRingBuffer) :
    Call → Option ConcurrentRingBuffer
  | .enqueue span => (self.TryBulkEnqueue span fuel).map (fun r => r.self)
  | .dequeue span => (self.TryBulkDequeue span fuel).map (fun r => r.self)

/-- The concurrent buffer after a sequence of calls made without other
threads: `none` when one of them does not return within `fuel` passes. -/
def ConcurrentRingBuffer.run (fuel : Nat) :
    ConcurrentRingBuffer → List Call → Option ConcurrentRingBuffer
  | self, [] => some self
  | self, call :: rest =>
    match self.step fuel call with
    | none => none
    | some next => ConcurrentRingBuffer.run fuel next rest

/-- The call is made with a span of length `≥ 0`, its byte range does not
cross the end of the buffer, and a dequeue asks for at most `count` bytes.
For an enqueue the range is the one it claims when there is room for it. -/
def Call.StaysInside (self : ConcurrentRingBuffer) : Call → Prop
  | .enqueue span =>
    0 ≤ span.Length ∧
      (span.Length ≤ self._bufferSize - self.GetCount →
        Int.land self._enqueuePosition self._bufferMask + span.Length ≤ self._bufferSize)
  | .dequeue span =>
    0 ≤ span.Length ∧ span.Length ≤ self.GetCount ∧
      Int.land self._dequeuePosition self._bufferMask + span.Length ≤ self._bufferSize

instance Call.decidableStaysInside (self : ConcurrentRingBuffer) (call : Call) :
    Decidable (Call.StaysInside self call) := by
  cases call <;> unfold Call.StaysInside <;> infer_instance

/-- Every call of the sequence stays inside the buffer in the state in which
it is made. -/
def Call.AllStayInside (fuel : Nat) : ConcurrentRingBuffer → List Call → Prop
  | _, [] => True
  | self, call :: rest =>
    Call.StaysInside self call ∧
      match self.step fuel call with
      | none => True
      | some next => Call.AllStayInside fuel next rest

instance Call.decidableAllStayInside (fuel : Nat) :
    (self : ConcurrentRingBuffer) → (calls : List Call) →
      Decidable (Call.AllStayInside fuel self calls)
  | _, [] => isTrue trivial
  | self, call :: rest => by
    unfold Call.AllStayInside
    cases h : self.step fuel call with
    | none => exact inferInstanceAs (Decidable (Call.StaysInside self call ∧ True))
    | some next =>
      have := Call.decidableAllStayInside fuel next rest
      exact inferInstanceAs
        (Decidable (Call.StaysInside self call ∧ Call.AllStayInside fuel next rest))

/-- The call is made with a span of length `≥ 0`; an enqueue claims a range
that does not cross the end of the buffer when there is room for it, and a
dequeue asks for at most `count` bytes. -/
def Call.Fits (self : ConcurrentRingBuffer) : Call → Prop
  | .enqueue span =>
    0 ≤ span.Length ∧
      (span.Length ≤ self._bufferSize - self.GetCount →
        Int.land self._enqueuePosition self._bufferMask + span.Length ≤ self._bufferSize)
  | .dequeue span => 0 ≤ span.Length ∧ span.Length ≤ self.GetCount

instance Call.decidableFits (self : ConcurrentRingBuffer) (call : Call) :
    Decidable (Call.Fits self call) := by
  cases call <;> unfold Call.Fits <;> infer_instance

/-- Every call of the sequence fits in the state in which it is made. -/
def Call.AllFit (fuel : Nat) : ConcurrentRingBuffer → List Call → Prop
  | _, [] => True
  | self, call :: rest =>
    Call.Fits self call ∧
      match self.step fuel call with
      | none => True
      | some next => Call.AllFit fuel next rest

instance Call.decidableAllFit (fuel : Nat) :
    (self : ConcurrentRingBuffer) → (calls : List Call) →
      Decidable (Call.AllFit fuel self calls)
  | _, [] => isTrue trivial
  | self, call :: rest => by
    unfold Call.AllFit
    cases h : self.step fuel call with
    | none => exact inferInstanceAs (Decidable (Call.Fits self call ∧ True))
    | some next =>
      have := Call.decidableAllFit fuel next rest
      exact inferInstanceAs (Decidable (Call.Fits self call ∧ Call.AllFit fuel next rest))

/-- The per-slot stamps of the concurrent buffer agree with its positions: the
size is a power of two, the mask is the size minus one, `0 ≤ D ≤ E ≤ D + B`,
every slot of `[D, E)` carries the stamp of a filled slot and every slot of
`[E, D + B)` the stamp of its next producer turn. -/
def ConcurrentRingBuffer.Inv (self : ConcurrentRingBuffer) : Prop :=
  (∃ k : Nat, self._bufferSize = 2 ^ k) ∧
  self._bufferMask = self._bufferSize - 1 ∧
  0 ≤ self._dequeuePosition ∧
  self._dequeuePosition ≤ self._enqueuePosition ∧
  self._enqueuePosition - self._dequeuePosition ≤ self._bufferSize ∧
  (∀ j : Int, self._dequeuePosition ≤ j → j < self._enqueuePosition →
    self._sequence (Int.land j self._bufferMask) = j + 1) ∧
  (∀ j : Int, self._enqueuePosition ≤ j → j < self._dequeuePosition + self._bufferSize →
    self._sequence (Int.land j self._bufferMask) = j)

/-- The serial buffer with the same storage, mask, size and positions as the
concurrent one: the concurrent buffer without its stamps. -/
def ConcurrentRingBuffer.serial (self : ConcurrentRingBuffer) : RingBuffer :=
  { _buffer := self._buffer
    _bufferMask := self._bufferMask
    _bufferSize := self._bufferSize
    _enqueuePosition := self._enqueuePosition
    _dequeuePosition := self._dequeuePosition }

/-- A sequence of calls on which the two buffers can be compared, read off the
serial buffer: every enqueue has a span of length `≥ 0`, claims a range that
does not cross the end of the buffer when there is room for it, and offers no
empty span to a full buffer; every dequeue asks for at least one and at most
`count` bytes. -/
def Call.Tame : RingBuffer → List Call → Prop
  | _, [] => True
  | rb, .enqueue span :: rest =>
    0 ≤ span.Length ∧
      (span.Length ≤ rb._bufferSize - rb.GetCount →
        Int.land rb._enqueuePosition rb._bufferMask + span.Length ≤ rb._bufferSize) ∧
      (span.Length = 0 → rb.GetCount < rb._bufferSize) ∧
      Call.Tame (rb.TryBulkEnqueue span).self rest
  | rb, .dequeue span :: rest =>
    1 ≤ span.Length ∧ span.Length ≤ rb.GetCount ∧
      Call.Tame (rb.TryBulkDequeue span).self rest

instance Call.decidableTame : (rb : RingBuffer) → (calls : List Call) →
    Decidable (Call.Tame rb calls)
  | _, [] => isTrue trivial
  | rb, .enqueue span :: rest =>
    have := Call.decidableTame (rb.TryBulkEnqueue span).self rest
    inferInstanceAs
      (Decidable (0 ≤ span.Length ∧
        (span.Length ≤ rb._bufferSize - rb.GetCount →
          Int.land rb._enqueuePosition rb._bufferMask + span.Length ≤ rb._bufferSize) ∧
        (span.Length = 0 → rb.GetCount < rb._bufferSize) ∧
        Call.Tame (rb.TryBulkEnqueue span).self rest))
  | rb, .dequeue span :: rest =>
    have := Call.decidableTame (rb.TryBulkDequeue span).self rest
    inferInstanceAs
      (Decidable (1 ≤ span.Length ∧ span.Length ≤ rb.GetCount ∧
        Call.Tame (rb.TryBulkDequeue span).self rest))

/-- A concurrent buffer together with the stream `S` of the bytes accepted by
its successful enqueues and the stream `R` of the bytes returned by its
successful dequeues. -/
structure ConcurrentTrace where
  self : ConcurrentRingBuffer
  S : List UInt8
  R : List UInt8

/-- Performs one call without other threads and extends the streams: `none`
when the call does not return within `fuel` passes. -/
def ConcurrentTrace.step (fuel : Nat) (t : ConcurrentTrace) : Call → Option ConcurrentTrace
  | .enqueue span =>
    (t.self.TryBulkEnqueue span fuel).map
      (fun r => { self := r.self, S := if r.ret then t.S ++ span.bytes else t.S, R := t.R })
  | .dequeue span =>
    (t.self.TryBulkDequeue span fuel).map
      (fun r => { self := r.self, S := t.S, R := if r.ret then t.R ++ r.span.bytes else t.R })

/-- Performs the calls from left to right. -/
def ConcurrentTrace.run (fuel : Nat) : ConcurrentTrace → List Call → Option ConcurrentTrace
  | t, [] => some t
  | t, call :: rest =>
    match t.step fuel call with
    | none => none
    | some next => ConcurrentTrace.run fuel next rest

/-- The size and the mask of the concurrent buffer are as its constructor sets
them: the size is a power of two and the mask is the size minus one. -/
def ConcurrentRingBuffer.Configured (self : ConcurrentRingBuffer) : Prop :=
  (∃ k : Nat, self._bufferSize = 2 ^ k) ∧ self._bufferMask = self._bufferSize - 1

/-- An operation of the concurrent buffer that moves a position. -/
inductive ConcurrentOp where
  | TryBulkEnqueue (span : ByteSpan)
  | TryBulkDequeue (span : ByteSpan)
  | ClearN (length : Int)

/-- The concurrent buffer after an operation made without other threads:
`none` when the operation does not return within `fuel` passes. -/
def ConcurrentOp.apply (fuel : Nat) (self : ConcurrentRingBuffer) :
    ConcurrentOp → Option ConcurrentRingBuffer
  | .TryBulkEnqueue span => (self.TryBulkEnqueue span fuel).map (fun r => r.self)
  | .TryBulkDequeue span => (self.TryBulkDequeue span fuel).map (fun r => r.self)
  | .ClearN length => self.ClearN length fuel

/-- The concurrent buffer after a sequence of operations made without other
threads: `none` when one of them does not return within `fuel` passes. -/
def ConcurrentOp.run (fuel : Nat) :
    ConcurrentRingBuffer → List ConcurrentOp → Option ConcurrentRingBuffer
  | self, [] => some self
  | self, op :: rest =>
    match ConcurrentOp.apply fuel self op with
    | none => none
    | some next => ConcurrentOp.run fuel next rest

/-- The operation is one of those that the per-slot invariant is stated for:
a span has a length `≥ 0`; an enqueue that has room claims a range that does
not cross the end of the buffer; a dequeue asks for at most `count` bytes;
`Clear(n)` is called with `n ≥ 0` on a buffer that is not empty and the range
`[D, D + min(n, count))` it frees does not cross the end of the buffer. -/
def ConcurrentOp.Permitted (self : ConcurrentRingBuffer) : ConcurrentOp → Prop
  | .TryBulkEnqueue span =>
    0 ≤ span.Length ∧
      (span.Length ≤ self._bufferSize - self.GetCount →
        Int.land self._enqueuePosition self._bufferMask + span.Length ≤ self._bufferSize)
  | .TryBulkDequeue span => 0 ≤ span.Length ∧ span.Length ≤ self.GetCount
  | .ClearN length =>
    0 ≤ length ∧ 0 < self.GetCount ∧
      Int.land self._dequeuePosition self._bufferMask + min length self.GetCount ≤
        self._bufferSize

instance ConcurrentOp.decidablePermitted (self : ConcurrentRingBuffer) (op : ConcurrentOp) :
    Decidable (ConcurrentOp.Permitted self op) := by
  cases op <;> unfold ConcurrentOp.Permitted <;> infer_instance

/-- Every operation of the sequence is permitted in the state in which it is
made. -/
def ConcurrentOp.AllPermitted (fuel : Nat) :
    ConcurrentRingBuffer → List ConcurrentOp → Prop
  | _, [] => True
  | self, op :: rest =>
    ConcurrentOp.Permitted self op ∧
      match ConcurrentOp.apply fuel self op with
      | none => True
      | some next => ConcurrentOp.AllPermitted fuel next rest

instance ConcurrentOp.decidableAllPermitted (fuel : Nat) :
    (self : ConcurrentRingBuffer) → (ops : List ConcurrentOp) →
      Decidable (ConcurrentOp.AllPermitted fuel self ops)
  | _, [] => isTrue trivial
  | self, op :: rest => by
    unfold ConcurrentOp.AllPermitted
    cases h : ConcurrentOp.apply fuel self op with
    | none => exact inferInstanceAs (Decidable (ConcurrentOp.Permitted self op ∧ True))
    | some next =>
      have := ConcurrentOp.decidableAllPermitted fuel next rest
      exact inferInstanceAs
        (Decidable (ConcurrentOp.Permitted self op ∧ ConcurrentOp.AllPermitted fuel next rest))

/-- The span of a call. -/
def Call.span : Call → ByteSpan
  | .enqueue span => span
  | .dequeue span => span

/-- The bytes at logical offsets `[start, start + length)` from the dequeue
position of the concurrent buffer: `buffer[(D + start + i) & mask]` for `i` in
`[0, length)`. -/
def ConcurrentRingBuffer.window (self : ConcurrentRingBuffer) (start length : Int) :
    List UInt8 :=
  (List.range length.toNat).map
    (fun (i : Nat) =>
      self._buffer (Int.land (self._dequeuePosition + start + (i : Int)) self._bufferMask))

/-! ## Concrete inputs -/

/-- Caller memory holding the bytes `first`, `first + 1`, `first + 2`, and so on. -/
def ramp (first : Nat) : Nat → UInt8 :=
  fun i => UInt8.ofNat (first + i)

/-- Zeroed memory. -/
def zeroed {ι : Type} : ι → UInt8 :=
  fun _ => 0

/-- The state in which the constructor leaves a buffer of size `2 ^ k`. -/
def RingBuffer.fresh (k : Nat) (storage : Int → UInt8) : RingBuffer :=
  { _bufferSize := 2 ^ k
    _bufferMask := 2 ^ k - 1
    _buffer := storage
    _enqueuePosition := 0
    _dequeuePosition := 0 }

/-- A well-formed empty buffer of size 8 whose positions stand at 6, so that a
range of more than two bytes written or read from there wraps. -/
def wrappedEmpty : RingBuffer :=
  { _buffer := zeroed
    _bufferMask := 7
    _bufferSize := 8
    _enqueuePosition := 6
    _dequeuePosition := 6 }

/-- The calls of the wrap-around scenario on a buffer of size 8 before its
`Slice`: enqueue the bytes 1 to 6, dequeue 4 bytes, enqueue the bytes 7 to 10. -/
def wrapCalls : List Call :=
  [.enqueue ⟨ramp 1, 6⟩, .dequeue ⟨zeroed, 4⟩, .enqueue ⟨ramp 7, 4⟩]

/-- The buffer after the calls of the wrap-around scenario. -/
def wrapState : RingBuffer :=
  (Trace.run ⟨RingBuffer.fresh 3 zeroed, [], []⟩ wrapCalls).self

/-- A full buffer of size 4: the state after enqueuing the bytes 1 to 4 into a
buffer constructed with capacity 4. -/
def full4 : RingBuffer :=
  ((RingBuffer.fresh 2 zeroed).TryBulkEnqueue ⟨ramp 1, 4⟩).self

/-- Calls that fill a buffer of size 8 while its dequeue position stands at 4:
enqueue 4 bytes, dequeue 4 bytes, enqueue the bytes 1 to 8. -/
def fullWrappedCalls : List Call :=
  [.enqueue ⟨zeroed, 4⟩, .dequeue ⟨zeroed, 4⟩, .enqueue ⟨ramp 1, 8⟩]

/-- The full buffer of size 8 with `D = 4` and `E = 12` reached by `fullWrappedCalls`. -/
def fullWrapped : RingBuffer :=
  (Trace.run ⟨RingBuffer.fresh 3 zeroed, [], []⟩ fullWrappedCalls).self

/-- A sequence that mixes the general entry points, the unrolled ones, `Slice`
and the two `Clear` overloads. -/
def mixedOps : List Op :=
  [.TryBulkEnqueue ⟨ramp 1, 6⟩, .TryBulkDequeueByte4 ⟨zeroed, 4⟩,
    .TryBulkEnqueueByte4 ⟨ramp 7, 4⟩, .Slice 0 6, .ClearN 9,
    .TryBulkEnqueueByte8 ⟨ramp 1, 8⟩, .TryBulkEnqueue ⟨ramp 1, 1⟩, .Clear]

/-- The state in which the constructor leaves a concurrent buffer of size `2 ^ k`. -/
def ConcurrentRingBuffer.fresh (k : Nat) (storage : Int → UInt8) (stamps : Int → Int) :
    ConcurrentRingBuffer :=
  { _bufferSize := 2 ^ k
    _bufferMask := 2 ^ k - 1
    _buffer := storage
    _sequence :=
      (List.range ((2 : Int) ^ k).toNat).foldl
        (fun s (i : Nat) => Function.update s (i : Int) (i : Int)) stamps
    _enqueuePosition := 0
    _dequeuePosition := 0 }

/-- Stamps all equal to `-1`, as content of a freshly allocated `_sequence`. -/
def staleStamps : Int → Int :=
  fun _ => -1

/-- The calls of the wrap-around scenario on a buffer of size 8: enqueue the
bytes 1 to 6, dequeue 4 bytes, enqueue the bytes 7 to 10, dequeue 6 bytes. -/
def scenario3 : List Call :=
  wrapCalls ++ [.dequeue ⟨zeroed, 6⟩]

/-- Calls on a buffer of size 8 none of whose enqueues crosses the end of the
buffer, while the last dequeue reads across it: enqueue the bytes 1 to 6,
dequeue 4, enqueue the bytes 7 and 8, enqueue the bytes 9 to 12, dequeue 6. -/
def tameCalls : List Call :=
  [.enqueue ⟨ramp 1, 6⟩, .dequeue ⟨zeroed, 4⟩, .enqueue ⟨ramp 7, 2⟩, .enqueue ⟨ramp 9, 4⟩,
    .dequeue ⟨zeroed, 6⟩]

/-- The concurrent buffer of size 8 and its streams after the first four calls
of `tameCalls`: `D = 4`, `E = 12`, eight live bytes. -/
def tameTrace : ConcurrentTrace :=
  (ConcurrentTrace.run 1 ⟨ConcurrentRingBuffer.fresh 3 zeroed staleStamps, [], []⟩
    (tameCalls.take 4)).getD ⟨ConcurrentRingBuffer.fresh 3 zeroed staleStamps, [], []⟩

/-- The full concurrent buffer of size 2 reached by enqueuing the bytes 1 and 2. -/
def fullConcurrent2 : ConcurrentRingBuffer :=
  (ConcurrentRingBuffer.run 1 (ConcurrentRingBuffer.fresh 1 zeroed staleStamps)
    [.enqueue ⟨ramp 1, 2⟩]).getD (ConcurrentRingBuffer.fresh 1 zeroed staleStamps)

/-- Operations on a concurrent buffer of size 8, all permitted: enqueue the
bytes 1 to 6, free 2 bytes, dequeue 2, enqueue the bytes 7 and 8, free the
rest (`Clear(9)` with 4 bytes held). -/
def permittedOps : List ConcurrentOp :=
  [.TryBulkEnqueue ⟨ramp 1, 6⟩, .ClearN 2, .TryBulkDequeue ⟨zeroed, 2⟩,
    .TryBulkEnqueue ⟨ramp 7, 2⟩, .ClearN 9]

/-- The concurrent buffer after `permittedOps`. -/
def permittedState : ConcurrentRingBuffer :=
  (ConcurrentOp.run 1 (ConcurrentRingBuffer.fresh 3 zeroed staleStamps) permittedOps).getD
    (ConcurrentRingBuffer.fresh 3 zeroed staleStamps)

/-- The concurrent buffer of size 8 with `D = 4` and `E = 6` reached by the
first two calls of the wrap-around scenario; an enqueue of more than two bytes
claims a range that crosses the end of the buffer. -/
def beforeWrap : ConcurrentRingBuffer :=
  (ConcurrentRingBuffer.run 1 (ConcurrentRingBuffer.fresh 3 zeroed staleStamps)
    (wrapCalls.take 2)).getD (ConcurrentRingBuffer.fresh 3 zeroed staleStamps)

/-- Calls with records of four bytes on a buffer of size 8: three records are
offered (the third finds the buffer full), one is taken, one is offered and
two are taken. -/
def recordCalls : List Call :=
  [.enqueue ⟨ramp 1, 4⟩, .enqueue ⟨ramp 5, 4⟩, .enqueue ⟨ramp 9, 4⟩, .dequeue ⟨zeroed, 4⟩,
    .enqueue ⟨ramp 9, 4⟩, .dequeue ⟨zeroed, 4⟩]

/-- The concurrent buffer after `recordCalls`: `D = 8`, `E = 12`. -/
def recordState : ConcurrentRingBuffer :=
  (ConcurrentRingBuffer.run 1 (ConcurrentRingBuffer.fresh 3 zeroed staleStamps)
    recordCalls).getD (ConcurrentRingBuffer.fresh 3 zeroed staleStamps)

/-! # Theorems -/

/-! ## Index arithmetic and the two copy loops -/

theorem land_mask_eq_emod (p : Int) (k : Nat) (hp : 0 ≤ p) :
    Int.land p (2 ^ k - 1) = p % 2 ^ k := by
  obtain ⟨n, rfl⟩ := Int.eq_ofNat_of_zero_le hp
  have h1 : ((2 : Int) ^ k - 1) = ((2 ^ k - 1 : Nat) : Int) := by
    have : 1 ≤ 2 ^ k := Nat.one_le_two_pow
    push_cast [Nat.cast_sub this]
    rfl
  rw [h1]
  show ((n &&& (2 ^ k - 1) : Nat) : Int) = _
  rw [Nat.and_pow_two_sub_one_eq_mod]
  push_cast
  rfl

theorem emod_ne_of_lt (B p q : Int) (hpq : p < q) (hq : q < p + B) : p % B ≠ q % B := by
  intro h
  have hB : 0 < B := by omega
  have h2 : (q - p) % B = 0 := Int.emod_eq_emod_iff_emod_sub_eq_zero.mp h.symm
  have h3 : B ∣ (q - p) := Int.dvd_of_emod_eq_zero h2
  have := Int.le_of_dvd (by omega) h3
  omega

theorem loadLoop_apply (m p : Int) (buf : Int → UInt8) (len : Int) (dest : Nat → UInt8) (j : Nat) :
    loadLoop m p buf len dest j = if (j : Int) < len then buf (Int.land (p + j) m) else dest j := by
  unfold loadLoop
  have key : ∀ n : Nat, ((List.range n).foldl
      (fun d (i : Nat) => Function.update d i (buf (Int.land (p + (i : Int)) m))) dest) j
        = if j < n then buf (Int.land (p + j) m) else dest j := by
    intro n
    induction n with
    | zero => simp
    | succ n ih =>
      rw [List.range_succ, List.foldl_append]
      simp only [List.foldl_cons, List.foldl_nil, Function.update_apply]
      by_cases hj : j = n
      · subst hj; simp
      · rw [if_neg hj, ih]
        have : (j < n + 1) ↔ j < n := by omega
        simp [this]
  rw [key]
  have : (j < len.toNat) ↔ (j : Int) < len := by omega
  simp [this]

theorem storeLoop_apply_of_miss (m p : Int) (data : Nat → UInt8) (len : Int) (buf : Int → UInt8)
    (j : Int) (hmiss : ∀ i : Nat, (i : Int) < len → Int.land (p + i) m ≠ j) :
    storeLoop m p data len buf j = buf j := by
  unfold storeLoop
  have key : ∀ n : Nat, n ≤ len.toNat → ((List.range n).foldl
      (fun b (i : Nat) => Function.update b (Int.land (p + (i : Int)) m) (data i)) buf) j
        = buf j := by
    intro n
    induction n with
    | zero => simp
    | succ n ih =>
      intro hn
      rw [List.range_succ, List.foldl_append]
      simp only [List.foldl_cons, List.foldl_nil]
      rw [Function.update_noteq (hmiss n (by omega)).symm]
      exact ih (by omega)
  exact key _ le_rfl

theorem storeLoop_apply_of_hit (m p : Int) (data : Nat → UInt8) (len : Int) (buf : Int → UInt8)
    (i : Nat) (hi : (i : Int) < len)
    (hlast : ∀ i2 : Nat, i < i2 → (i2 : Int) < len → Int.land (p + i2) m ≠ Int.land (p + i) m) :
    storeLoop m p data len buf (Int.land (p + i) m) = data i := by
  unfold storeLoop
  have key : ∀ n : Nat, i < n → n ≤ len.toNat → ((List.range n).foldl
      (fun b (i : Nat) => Function.update b (Int.land (p + (i : Int)) m) (data i)) buf)
        (Int.land (p + i) m) = data i := by
    intro n
    induction n with
    | zero => intro h; omega
    | succ n ih =>
      intro hin hn
      rw [List.range_succ, List.foldl_append]
      simp only [List.foldl_cons, List.foldl_nil]
      by_cases h : i = n
      · subst h; simp
      · rw [Function.update_noteq (hlast n (by omega) (by omega)).symm]
        exact ih (by omega) (by omega)
  exact key _ (by omega) le_rfl

theorem TryBulkEnqueueByte4_eq (self : RingBuffer) (span : ByteSpan) (h : span.Length = 4) :
    self.TryBulkEnqueueByte4 span = self.TryBulkEnqueue span := by
  obtain ⟨ptr, len⟩ := span
  subst h
  rfl

theorem TryBulkEnqueueByte32_eq (self : RingBuffer) (span : ByteSpan) (h : span.Length = 32) :
    self.TryBulkEnqueueByte32 span = self.TryBulkEnqueue span := by
  obtain ⟨ptr, len⟩ := span
  subst h
  rfl


theorem TryBulkDequeue_eq (self : RingBuffer) (span : ByteSpan) :
    self.TryBulkDequeue span =
      { ret := true
        self := { self with _dequeuePosition := self._dequeuePosition + span.Length }
        span :=
          { span with
            Pointer :=
              loadLoop self._bufferMask self._dequeuePosition self._buffer span.Length
                span.Pointer }
        cout := [] } := by
  obtain ⟨ptr, len⟩ := span
  by_cases h4 : len = 4
  · subst h4; rfl
  by_cases h8 : len = 8
  · subst h8; rfl
  by_cases h16 : len = 16
  · subst h16; rfl
  by_cases h32 : len = 32
  · subst h32; rfl
  simp [RingBuffer.TryBulkDequeue, h4, h8, h16, h32]

theorem wf_land_eq {self : RingBuffer} (hwf : self.WellFormed) (p : Int) (hp : 0 ≤ p) :
    Int.land p self._bufferMask = p % self._bufferSize := by
  obtain ⟨⟨k, hk⟩, hm, -⟩ := hwf
  rw [hm, hk]
  exact land_mask_eq_emod p k hp

theorem wf_size_pos {self : RingBuffer} (hwf : self.WellFormed) : 0 < self._bufferSize := by
  obtain ⟨⟨k, hk⟩, -⟩ := hwf
  rw [hk]; positivity

theorem wf_land_ne {self : RingBuffer} (hwf : self.WellFormed) (p q : Int) (hp : 0 ≤ p)
    (hpq : p < q) (hq : q < p + self._bufferSize) :
    Int.land p self._bufferMask ≠ Int.land q self._bufferMask := by
  rw [wf_land_eq hwf p hp, wf_land_eq hwf q (by omega)]
  exact emod_ne_of_lt _ p q hpq hq

theorem wf_enqueue {self : RingBuffer} (hwf : self.WellFormed) (span : ByteSpan)
    (h0 : 0 ≤ span.Length) : (self.TryBulkEnqueue span).self.WellFormed := by
  obtain ⟨hk, hm, hD, hDE, hB⟩ := hwf
  unfold RingBuffer.TryBulkEnqueue
  simp only
  split
  · refine ⟨hk, hm, hD, ?_, ?_⟩ <;> simp only <;> omega
  · exact ⟨hk, hm, hD, hDE, hB⟩

theorem wf_dequeue {self : RingBuffer} (hwf : self.WellFormed) (span : ByteSpan)
    (h0 : 0 ≤ span.Length) (hL : span.Length ≤ self.GetCount) :
    (self.TryBulkDequeue span).self.WellFormed := by
  obtain ⟨hk, hm, hD, hDE, hB⟩ := hwf
  rw [TryBulkDequeue_eq]
  unfold RingBuffer.GetCount at hL
  refine ⟨hk, hm, ?_, ?_, ?_⟩ <;> simp only <;> omega

/-- Bytes stored by a successful enqueue. -/
theorem enqueue_buffer_new {self : RingBuffer} (hwf : self.WellFormed) (span : ByteSpan)
    (hL : span.Length ≤ self._bufferSize - self.GetCount) (i : Nat) (hi : (i : Int) < span.Length) :
    (self.TryBulkEnqueue span).self._buffer
        (Int.land (self._enqueuePosition + i) self._bufferMask) = span.Pointer i := by
  have hL2 := hL
  unfold RingBuffer.GetCount at hL2
  unfold RingBuffer.TryBulkEnqueue
  simp only [if_pos hL2]
  apply storeLoop_apply_of_hit _ _ _ _ _ i hi
  intro i2 h1 h2
  obtain ⟨hk, hm, hD, hDE, hB⟩ := id hwf
  exact (wf_land_ne hwf _ _ (by omega) (by omega) (by omega)).symm

/-- Live bytes are not touched by a successful enqueue. -/
theorem enqueue_buffer_old {self : RingBuffer} (hwf : self.WellFormed) (span : ByteSpan)
    (hL : span.Length ≤ self._bufferSize - self.GetCount) (i : Nat) (hi : (i : Int) < self.GetCount) :
    (self.TryBulkEnqueue span).self._buffer
        (Int.land (self._dequeuePosition + i) self._bufferMask) =
      self._buffer (Int.land (self._dequeuePosition + i) self._bufferMask) := by
  have hL2 := hL
  unfold RingBuffer.GetCount at hL2 hi
  unfold RingBuffer.TryBulkEnqueue
  simp only [if_pos hL2]
  apply storeLoop_apply_of_miss
  intro i2 h2
  obtain ⟨hk, hm, hD, hDE, hB⟩ := id hwf
  exact (wf_land_ne hwf _ _ (by omega) (by omega) (by omega)).symm

theorem payload_length (self : RingBuffer) : self.payload.length = self.GetCount.toNat := by
  simp [RingBuffer.payload, RingBuffer.window]

theorem payload_enqueue {self : RingBuffer} (hwf : self.WellFormed) (span : ByteSpan)
    (h0 : 0 ≤ span.Length) (hL : span.Length ≤ self._bufferSize - self.GetCount) :
    (self.TryBulkEnqueue span).self.payload = self.payload ++ span.bytes := by
  have hnew := enqueue_buffer_new hwf span hL
  have hold := enqueue_buffer_old hwf span hL
  obtain ⟨hk, hm, hD, hDE, hB⟩ := id hwf
  have hL2 := hL
  unfold RingBuffer.GetCount at hL2
  have hE : (self.TryBulkEnqueue span).self._enqueuePosition = self._enqueuePosition + span.Length := by
    unfold RingBuffer.TryBulkEnqueue; simp only [if_pos hL2]
  have hD2 : (self.TryBulkEnqueue span).self._dequeuePosition = self._dequeuePosition := by
    unfold RingBuffer.TryBulkEnqueue; simp only [if_pos hL2]
  have hM : (self.TryBulkEnqueue span).self._bufferMask = self._bufferMask := by
    unfold RingBuffer.TryBulkEnqueue; simp only [if_pos hL2]
  apply List.ext_getElem
  · simp only [RingBuffer.payload, RingBuffer.window, RingBuffer.GetCount, ByteSpan.bytes,
      List.length_map, List.length_range, List.length_append, hE, hD2]
    omega
  · intro n h1 h2
    simp only [RingBuffer.payload, RingBuffer.window, RingBuffer.GetCount, ByteSpan.bytes,
      List.length_map, List.length_range, List.length_append, hE, hD2] at h1 h2
    by_cases hn : (n : Int) < self.GetCount
    · rw [List.getElem_append_left (by simpa [payload_length] using (by omega : n < self.GetCount.toNat))]
      simp only [RingBuffer.payload, RingBuffer.window, List.getElem_map, List.getElem_range,
        hD2, hM, add_zero]
      exact hold n hn
    · unfold RingBuffer.GetCount at hn
      rw [List.getElem_append_right (by simp [payload_length, RingBuffer.GetCount]; omega)]
      simp only [RingBuffer.payload, RingBuffer.window, ByteSpan.bytes, List.getElem_map,
        List.getElem_range, hD2, hM, add_zero, List.length_map, List.length_range,
        RingBuffer.GetCount]
      have := hnew (n - (self._enqueuePosition - self._dequeuePosition).toNat) (by omega)
      rw [← this]
      congr 2
      omega

theorem payload_dequeue (self : RingBuffer) (span : ByteSpan)
    (h0 : 0 ≤ span.Length) (hL : span.Length ≤ self.GetCount) :
    (self.TryBulkDequeue span).span.bytes = self.payload.take span.Length.toNat ∧
    (self.TryBulkDequeue span).self.payload = self.payload.drop span.Length.toNat := by
  rw [TryBulkDequeue_eq]
  unfold RingBuffer.GetCount at hL
  constructor
  · apply List.ext_getElem
    · simp [ByteSpan.bytes, payload_length, RingBuffer.GetCount]
      omega
    · intro n h1 h2
      simp only [ByteSpan.bytes, List.length_map, List.length_range] at h1
      simp only [ByteSpan.bytes, List.getElem_map, List.getElem_range, List.getElem_take,
        RingBuffer.payload, RingBuffer.window, add_zero]
      rw [loadLoop_apply, if_pos (by omega)]
  · apply List.ext_getElem
    · simp [payload_length, RingBuffer.GetCount]
      omega
    · intro n h1 h2
      simp only [List.getElem_map, List.getElem_range, List.getElem_drop,
        RingBuffer.payload, RingBuffer.window, add_zero]
      congr 2
      push_cast
      omega



theorem new_eq (c : Int) (storage : Int → UInt8) (hc : 1 ≤ c) :
    RingBuffer.new c storage =
      if (2 : Int) ^ Nat.clog 2 c.toNat ≤ INT_MAX then
        some (RingBuffer.fresh (Nat.clog 2 c.toNat) storage)
      else none := by
  unfold RingBuffer.new ceilLog2 pow2Int
  simp only [if_pos hc]
  have h : ¬ ((Nat.clog 2 c.toNat : Nat) : Int) < 0 := by omega
  simp only [if_neg h, Int.toNat_ofNat]
  by_cases h2 : (2 : Int) ^ Nat.clog 2 c.toNat ≤ INT_MAX
  · simp only [if_pos h2]; rfl
  · simp only [if_neg h2]

theorem fresh_wf (k : Nat) (storage : Int → UInt8) : (RingBuffer.fresh k storage).WellFormed :=
  ⟨⟨k, rfl⟩, rfl, le_refl _, le_refl _, by
    show (0 : Int) - 0 ≤ 2 ^ k
    have : (0 : Int) < 2 ^ k := by positivity
    omega⟩

theorem fresh_payload (k : Nat) (storage : Int → UInt8) :
    (RingBuffer.fresh k storage).payload = [] := by
  simp [RingBuffer.payload, RingBuffer.window, RingBuffer.GetCount, RingBuffer.fresh]

theorem new_fresh {c : Int} {storage : Int → UInt8} {rb : RingBuffer} (hc : 1 ≤ c)
    (h : RingBuffer.new c storage = some rb) :
    rb = RingBuffer.fresh (Nat.clog 2 c.toNat) storage := by
  rw [new_eq c storage hc] at h
  split at h
  · exact (Option.some.inj h).symm
  · exact absurd h (by simp)

theorem fifo_invariant (calls : List Call) :
    ∀ t : Trace, t.self.WellFormed → t.R ++ t.self.payload = t.S →
      Call.Admissible t.self calls →
      (t.run calls).self.WellFormed ∧
        (t.run calls).R ++ (t.run calls).self.payload = (t.run calls).S := by
  induction calls with
  | nil => intro t hwf hinv _; exact ⟨hwf, hinv⟩
  | cons call rest ih =>
    intro t hwf hinv hadm
    show ((t.step call).run rest).self.WellFormed ∧ _
    cases call with
    | enqueue span =>
      obtain ⟨h0, hrest⟩ := hadm
      apply ih (t.step (.enqueue span))
      · exact wf_enqueue hwf span h0
      · by_cases hL : span.Length ≤ t.self._bufferSize - t.self.GetCount
        · have hp := payload_enqueue hwf span h0 hL
          have hret : (t.self.TryBulkEnqueue span).ret = true := by
            unfold RingBuffer.GetCount at hL
            unfold RingBuffer.TryBulkEnqueue; simp only [if_pos hL]
          simp only [Trace.step, hret, if_true, hp, ← hinv, List.append_assoc]
        · have hret : (t.self.TryBulkEnqueue span) =
              { ret := false, self := t.self, cout := [enqueueOverflowLine] } := by
            unfold RingBuffer.GetCount at hL
            unfold RingBuffer.TryBulkEnqueue; simp only [if_neg hL]
          simp only [Trace.step, hret, hinv]
          simp
      · exact hrest
    | dequeue span =>
      obtain ⟨h0, hL, hrest⟩ := hadm
      apply ih (t.step (.dequeue span))
      · exact wf_dequeue hwf span h0 hL
      · obtain ⟨hb, hp⟩ := payload_dequeue t.self span h0 hL
        have hret : (t.self.TryBulkDequeue span).ret = true := by rw [TryBulkDequeue_eq]
        simp only [Trace.step, hret, if_true, hp, hb, ← hinv, List.append_assoc,
          List.take_append_drop]
      · exact hrest


theorem new_fresh_of_le (k : Nat) (storage : Int → UInt8) (hk : k ≤ 30) :
    RingBuffer.new (2 ^ k) storage = some (RingBuffer.fresh k storage) := by
  have h1 : (1 : Int) ≤ 2 ^ k := by
    have : (0 : Int) < 2 ^ k := by positivity
    omega
  rw [new_eq _ _ h1]
  have h2 : ((2 : Int) ^ k).toNat = 2 ^ k := by
    have : ((2 : Int) ^ k) = ((2 ^ k : Nat) : Int) := by push_cast; rfl
    rw [this, Int.toNat_ofNat]
  rw [h2, Nat.clog_pow 2 k (by decide)]
  have h3 : (2 : Int) ^ k ≤ INT_MAX := by
    have : (2 : Int) ^ k ≤ 2 ^ 30 := pow_le_pow_right₀ (by decide) hk
    unfold INT_MAX
    omega
  rw [if_pos h3]

theorem wrapCalls_admissible : Call.Admissible (RingBuffer.fresh 3 zeroed) wrapCalls := by
  decide

theorem TryBulkEnqueueByte8_eq (self : RingBuffer) (span : ByteSpan) (h : span.Length = 8) :
    self.TryBulkEnqueueByte8 span = self.TryBulkEnqueue span := by
  obtain ⟨ptr, len⟩ := span
  subst h
  rfl

theorem TryBulkEnqueueByte16_eq (self : RingBuffer) (span : ByteSpan) (h : span.Length = 16) :
    self.TryBulkEnqueueByte16 span = self.TryBulkEnqueue span := by
  obtain ⟨ptr, len⟩ := span
  subst h
  rfl

theorem TryBulkEnqueueByte4_mismatch (self : RingBuffer) (span : ByteSpan) (h : span.Length ≠ 4) :
    self.TryBulkEnqueueByte4 span = { ret := false, self := self, cout := [] } := by
  unfold RingBuffer.TryBulkEnqueueByte4
  simp only [if_pos h]

theorem TryBulkEnqueueByte8_mismatch (self : RingBuffer) (span : ByteSpan) (h : span.Length ≠ 8) :
    self.TryBulkEnqueueByte8 span = { ret := false, self := self, cout := [] } := by
  unfold RingBuffer.TryBulkEnqueueByte8
  simp only [if_pos h]

theorem TryBulkEnqueueByte16_mismatch (self : RingBuffer) (span : ByteSpan)
    (h : span.Length ≠ 16) :
    self.TryBulkEnqueueByte16 span = { ret := false, self := self, cout := [] } := by
  unfold RingBuffer.TryBulkEnqueueByte16
  simp only [if_pos h]

theorem TryBulkEnqueueByte32_mismatch (self : RingBuffer) (span : ByteSpan)
    (h : span.Length ≠ 32) :
    self.TryBulkEnqueueByte32 span = { ret := false, self := self, cout := [] } := by
  unfold RingBuffer.TryBulkEnqueueByte32
  simp only [if_pos h]

theorem TryBulkDequeueByte4_eq (self : RingBuffer) (span : ByteSpan) (h : span.Length = 4) :
    self.TryBulkDequeueByte4 span = self.TryBulkDequeue span := by
  obtain ⟨ptr, len⟩ := span
  subst h
  rfl

theorem TryBulkDequeueByte8_eq (self : RingBuffer) (span : ByteSpan) (h : span.Length = 8) :
    self.TryBulkDequeueByte8 span = self.TryBulkDequeue span := by
  obtain ⟨ptr, len⟩ := span
  subst h
  rfl

theorem TryBulkDequeueByte16_eq (self : RingBuffer) (span : ByteSpan) (h : span.Length = 16) :
    self.TryBulkDequeueByte16 span = self.TryBulkDequeue span := by
  obtain ⟨ptr, len⟩ := span
  subst h
  rfl

theorem TryBulkDequeueByte32_eq (self : RingBuffer) (span : ByteSpan) (h : span.Length = 32) :
    self.TryBulkDequeueByte32 span = self.TryBulkDequeue span := by
  obtain ⟨ptr, len⟩ := span
  subst h
  rfl

theorem TryBulkDequeueByte4_mismatch (self : RingBuffer) (span : ByteSpan) (h : span.Length ≠ 4) :
    self.TryBulkDequeueByte4 span = { ret := false, self := self, span := span, cout := [] } := by
  unfold RingBuffer.TryBulkDequeueByte4
  simp only [if_pos h]

theorem TryBulkDequeueByte8_mismatch (self : RingBuffer) (span : ByteSpan) (h : span.Length ≠ 8) :
    self.TryBulkDequeueByte8 span = { ret := false, self := self, span := span, cout := [] } := by
  unfold RingBuffer.TryBulkDequeueByte8
  simp only [if_pos h]

theorem TryBulkDequeueByte16_mismatch (self : RingBuffer) (span : ByteSpan)
    (h : span.Length ≠ 16) :
    self.TryBulkDequeueByte16 span = { ret := false, self := self, span := span, cout := [] } := by
  unfold RingBuffer.TryBulkDequeueByte16
  simp only [if_pos h]

theorem TryBulkDequeueByte32_mismatch (self : RingBuffer) (span : ByteSpan)
    (h : span.Length ≠ 32) :
    self.TryBulkDequeueByte32 span = { ret := false, self := self, span := span, cout := [] } := by
  unfold RingBuffer.TryBulkDequeueByte32
  simp only [if_pos h]

theorem wf_clearN {self : RingBuffer} (hwf : self.WellFormed) (n : Int) (hn : 0 ≤ n) :
    (self.ClearN n).WellFormed := by
  obtain ⟨hk, hm, hD, hDE, hB⟩ := hwf
  unfold RingBuffer.ClearN
  simp only
  split <;> exact ⟨hk, hm, by simp only; omega, by simp only; omega, by simp only; omega⟩

/-- Every operation that respects the preconditions preserves well-formedness. -/
theorem wf_apply {rb : RingBuffer} (hwf : rb.WellFormed) (op : Op) (hop : Op.Respects rb op) :
    (Op.apply rb op).WellFormed := by
  cases op with
  | TryBulkEnqueue span => exact wf_enqueue hwf span hop
  | TryBulkEnqueueByte4 span =>
    show (rb.TryBulkEnqueueByte4 span).self.WellFormed
    by_cases h : span.Length = 4
    · rw [TryBulkEnqueueByte4_eq rb span h]; exact wf_enqueue hwf span hop
    · rw [TryBulkEnqueueByte4_mismatch rb span h]; exact hwf
  | TryBulkEnqueueByte8 span =>
    show (rb.TryBulkEnqueueByte8 span).self.WellFormed
    by_cases h : span.Length = 8
    · rw [TryBulkEnqueueByte8_eq rb span h]; exact wf_enqueue hwf span hop
    · rw [TryBulkEnqueueByte8_mismatch rb span h]; exact hwf
  | TryBulkEnqueueByte16 span =>
    show (rb.TryBulkEnqueueByte16 span).self.WellFormed
    by_cases h : span.Length = 16
    · rw [TryBulkEnqueueByte16_eq rb span h]; exact wf_enqueue hwf span hop
    · rw [TryBulkEnqueueByte16_mismatch rb span h]; exact hwf
  | TryBulkEnqueueByte32 span =>
    show (rb.TryBulkEnqueueByte32 span).self.WellFormed
    by_cases h : span.Length = 32
    · rw [TryBulkEnqueueByte32_eq rb span h]; exact wf_enqueue hwf span hop
    · rw [TryBulkEnqueueByte32_mismatch rb span h]; exact hwf
  | TryBulkDequeue span => exact wf_dequeue hwf span hop.1 hop.2
  | TryBulkDequeueByte4 span =>
    show (rb.TryBulkDequeueByte4 span).self.WellFormed
    by_cases h : span.Length = 4
    · rw [TryBulkDequeueByte4_eq rb span h]; exact wf_dequeue hwf span hop.1 (hop.2 h)
    · rw [TryBulkDequeueByte4_mismatch rb span h]; exact hwf
  | TryBulkDequeueByte8 span =>
    show (rb.TryBulkDequeueByte8 span).self.WellFormed
    by_cases h : span.Length = 8
    · rw [TryBulkDequeueByte8_eq rb span h]; exact wf_dequeue hwf span hop.1 (hop.2 h)
    · rw [TryBulkDequeueByte8_mismatch rb span h]; exact hwf
  | TryBulkDequeueByte16 span =>
    show (rb.TryBulkDequeueByte16 span).self.WellFormed
    by_cases h : span.Length = 16
    · rw [TryBulkDequeueByte16_eq rb span h]; exact wf_dequeue hwf span hop.1 (hop.2 h)
    · rw [TryBulkDequeueByte16_mismatch rb span h]; exact hwf
  | TryBulkDequeueByte32 span =>
    show (rb.TryBulkDequeueByte32 span).self.WellFormed
    by_cases h : span.Length = 32
    · rw [TryBulkDequeueByte32_eq rb span h]; exact wf_dequeue hwf span hop.1 (hop.2 h)
    · rw [TryBulkDequeueByte32_mismatch rb span h]; exact hwf
  | Clear =>
    obtain ⟨hk, hm, hD, hDE, hB⟩ := id hwf
    exact wf_clearN hwf _ (by omega)
  | ClearN n => exact wf_clearN hwf n hop
  | Slice _ _ => exact hwf
  | SliceFrom _ => exact hwf

theorem wf_run (ops : List Op) :
    ∀ rb : RingBuffer, rb.WellFormed → Op.RespectsAll rb ops → (Op.run rb ops).WellFormed := by
  induction ops with
  | nil => intro rb hwf _; exact hwf
  | cons op rest ih =>
    intro rb hwf hres
    exact ih (Op.apply rb op) (wf_apply hwf op hres.1) hres.2

theorem crb_new_eq (c : Int) (storage : Int → UInt8) (stamps : Int → Int) (hc : 1 ≤ c) :
    (ConcurrentRingBuffer.new c storage stamps).map ConcurrentRingBuffer.GetBufferSize =
      if (2 : Int) ^ Nat.clog 2 c.toNat ≤ INT_MAX then some ((2 : Int) ^ Nat.clog 2 c.toNat)
      else none := by
  unfold ConcurrentRingBuffer.new ceilLog2 pow2Int
  simp only [if_pos hc]
  have h : ¬ ((Nat.clog 2 c.toNat : Nat) : Int) < 0 := by omega
  simp only [if_neg h, Int.toNat_ofNat]
  by_cases h2 : (2 : Int) ^ Nat.clog 2 c.toNat ≤ INT_MAX
  · simp only [if_pos h2]; rfl
  · simp only [if_neg h2]; rfl

theorem rb_new_size (c : Int) (storage : Int → UInt8) (hc : 1 ≤ c) :
    (RingBuffer.new c storage).map RingBuffer.GetBufferSize =
      if (2 : Int) ^ Nat.clog 2 c.toNat ≤ INT_MAX then some ((2 : Int) ^ Nat.clog 2 c.toNat)
      else none := by
  rw [new_eq c storage hc]
  split <;> rfl

/-- The size `2 ^ ⌈log₂ c⌉` is the least power of two that is `≥ c`. -/
theorem clog_least (c : Int) (hc : 1 ≤ c) :
    c ≤ (2 : Int) ^ Nat.clog 2 c.toNat ∧
    ∀ j : Nat, c ≤ (2 : Int) ^ j → (2 : Int) ^ Nat.clog 2 c.toNat ≤ (2 : Int) ^ j := by
  constructor
  · have h := Nat.le_pow_clog (by decide : 1 < 2) c.toNat
    have h2 : ((c.toNat : Nat) : Int) ≤ ((2 ^ Nat.clog 2 c.toNat : Nat) : Int) := by
      exact_mod_cast h
    push_cast at h2
    omega
  · intro j hj
    have h1 : c.toNat ≤ 2 ^ j := by
      have : ((c.toNat : Nat) : Int) ≤ ((2 ^ j : Nat) : Int) := by
        push_cast; omega
      exact_mod_cast this
    have h2 : Nat.clog 2 c.toNat ≤ j := (Nat.le_pow_iff_clog_le (by decide)).mp h1
    exact pow_le_pow_right₀ (by decide) h2

theorem pow_clog_fits_iff (c : Int) (hc : 1 ≤ c) :
    (2 : Int) ^ Nat.clog 2 c.toNat ≤ INT_MAX ↔ c ≤ 2 ^ 30 := by
  have hl := clog_least c hc
  constructor
  · intro h
    by_contra hcon
    have h31 : 31 ≤ Nat.clog 2 c.toNat := by
      by_contra h30
      have h30 : Nat.clog 2 c.toNat ≤ 30 := by omega
      have : c.toNat ≤ 2 ^ 30 := (Nat.le_pow_iff_clog_le (by decide)).mpr h30
      omega
    have : (2 : Int) ^ 31 ≤ 2 ^ Nat.clog 2 c.toNat := pow_le_pow_right₀ (by decide) h31
    unfold INT_MAX at h
    omega
  · intro h
    have := hl.2 30 h
    unfold INT_MAX
    omega

theorem clog_five : Nat.clog 2 (5 : Int).toNat = 3 := by simp [Nat.clog]

theorem clog_eight : Nat.clog 2 (8 : Int).toNat = 3 := by simp [Nat.clog]

theorem clog_one : Nat.clog 2 (1 : Int).toNat = 0 := by simp [Nat.clog]


theorem wrappedEmpty_wf : wrappedEmpty.WellFormed :=
  ⟨⟨3, by decide⟩, by decide, by decide, by decide, by decide⟩

theorem wrapState_wf : wrapState.WellFormed :=
  ⟨⟨3, by decide⟩, by decide, by decide, by decide, by decide⟩

theorem fullWrapped_wf : fullWrapped.WellFormed :=
  ⟨⟨3, by decide⟩, by decide, by decide, by decide, by decide⟩

/-! ## Serial buffer: the claims -/


/-- Claim C1.  Serial FIFO: on a buffer freshly constructed with capacity
`c ≥ 1`, after any sequence of `TryBulkEnqueue` and `TryBulkDequeue` calls in
which every span has a length `≥ 0` and every dequeue asks for at most `count`
bytes, the stream `R` of dequeued bytes is a prefix of the stream `S` of
accepted bytes, and the live payload is `S` with the prefix `R` removed. -/
theorem serial_fifo (c : Int) (storage : Int → UInt8) (rb : RingBuffer) (calls : List Call)
    (hc : 1 ≤ c) (hnew : RingBuffer.new c storage = some rb)
    (hadm : Call.Admissible rb calls) :
    (Trace.run ⟨rb, [], []⟩ calls).R <+: (Trace.run ⟨rb, [], []⟩ calls).S ∧
    (Trace.run ⟨rb, [], []⟩ calls).self.payload =
      (Trace.run ⟨rb, [], []⟩ calls).S.drop (Trace.run ⟨rb, [], []⟩ calls).R.length := by
  have hrb := new_fresh hc hnew
  subst hrb
  obtain ⟨-, hinv⟩ := fifo_invariant calls
    (Trace.mk (RingBuffer.fresh (Nat.clog 2 c.toNat) storage) [] []) (fresh_wf _ _)
    (by simp only [fresh_payload, List.append_nil]) hadm
  constructor
  · exact ⟨_, hinv⟩
  · rw [← hinv, List.drop_left]

/-- Witness for C1: the wrap-around scenario on a buffer of capacity 8. -/
theorem serial_fifo_witness :
    (1 : Int) ≤ 8 ∧
    RingBuffer.new 8 zeroed = some (RingBuffer.fresh 3 zeroed) ∧
    Call.Admissible (RingBuffer.fresh 3 zeroed) wrapCalls ∧
    (Trace.run ⟨RingBuffer.fresh 3 zeroed, [], []⟩ wrapCalls).R = [1, 2, 3, 4] ∧
    (Trace.run ⟨RingBuffer.fresh 3 zeroed, [], []⟩ wrapCalls).S =
      [1, 2, 3, 4, 5, 6, 7, 8, 9, 10] ∧
    (Trace.run ⟨RingBuffer.fresh 3 zeroed, [], []⟩ wrapCalls).self.payload =
      [5, 6, 7, 8, 9, 10] ∧
    ((Trace.run ⟨RingBuffer.fresh 3 zeroed, [], []⟩ wrapCalls).R <+:
        (Trace.run ⟨RingBuffer.fresh 3 zeroed, [], []⟩ wrapCalls).S ∧
      (Trace.run ⟨RingBuffer.fresh 3 zeroed, [], []⟩ wrapCalls).self.payload =
        (Trace.run ⟨RingBuffer.fresh 3 zeroed, [], []⟩ wrapCalls).S.drop
          (Trace.run ⟨RingBuffer.fresh 3 zeroed, [], []⟩ wrapCalls).R.length) :=
  ⟨by decide, new_fresh_of_le 3 zeroed (by decide), wrapCalls_admissible, by decide, by decide,
    by decide,
    serial_fifo 8 zeroed (RingBuffer.fresh 3 zeroed) wrapCalls (by decide)
      (new_fresh_of_le 3 zeroed (by decide)) wrapCalls_admissible⟩


/-- Claim C2.  Serial round trip: in a well-formed state with `count = 0`
(any head position, so the written range may wrap), for a source span with
`0 ≤ Length ≤ B` and a destination span of the same length, `TryBulkEnqueue`
returns true and makes `count = Length`; the following `TryBulkDequeue`
returns true, leaves `dst[i] = src[i]` for every `i` in `[0, Length)` and
brings `count` back to 0.  The lengths 4, 8, 16 and 32, which `TryBulkDequeue`
hands to the unrolled entry points, are included. -/
theorem serial_round_trip (self : RingBuffer) (src dst : ByteSpan) (hwf : self.WellFormed)
    (hcount : self.GetCount = 0) (h0 : 0 ≤ src.Length) (hB : src.Length ≤ self._bufferSize)
    (hdst : dst.Length = src.Length) :
    (self.TryBulkEnqueue src).ret = true ∧
    (self.TryBulkEnqueue src).self.GetCount = src.Length ∧
    ((self.TryBulkEnqueue src).self.TryBulkDequeue dst).ret = true ∧
    (∀ i : Nat, (i : Int) < src.Length →
      ((self.TryBulkEnqueue src).self.TryBulkDequeue dst).span.Pointer i = src.Pointer i) ∧
    ((self.TryBulkEnqueue src).self.TryBulkDequeue dst).span.bytes = src.bytes ∧
    ((self.TryBulkEnqueue src).self.TryBulkDequeue dst).self.GetCount = 0 := by
  have hL : src.Length ≤ self._bufferSize - self.GetCount := by omega
  have hnew := enqueue_buffer_new hwf src hL
  have hL2 := hL
  unfold RingBuffer.GetCount at hL2 hcount
  have hE : (self.TryBulkEnqueue src).self._enqueuePosition =
      self._enqueuePosition + src.Length := by
    unfold RingBuffer.TryBulkEnqueue; simp only [if_pos hL2]
  have hD : (self.TryBulkEnqueue src).self._dequeuePosition = self._dequeuePosition := by
    unfold RingBuffer.TryBulkEnqueue; simp only [if_pos hL2]
  have hM : (self.TryBulkEnqueue src).self._bufferMask = self._bufferMask := by
    unfold RingBuffer.TryBulkEnqueue; simp only [if_pos hL2]
  have hret : (self.TryBulkEnqueue src).ret = true := by
    unfold RingBuffer.TryBulkEnqueue; simp only [if_pos hL2]
  have hpt : ∀ i : Nat, (i : Int) < src.Length →
      ((self.TryBulkEnqueue src).self.TryBulkDequeue dst).span.Pointer i = src.Pointer i := by
    intro i hi
    rw [TryBulkDequeue_eq]
    simp only [loadLoop_apply, hdst, if_pos hi, hD, hM]
    have : self._dequeuePosition = self._enqueuePosition := by omega
    rw [this]
    exact hnew i hi
  refine ⟨hret, ?_, ?_, hpt, ?_, ?_⟩
  · unfold RingBuffer.GetCount; rw [hE, hD]; omega
  · rw [TryBulkDequeue_eq]
  · have hlen : ((self.TryBulkEnqueue src).self.TryBulkDequeue dst).span.Length = src.Length := by
      rw [TryBulkDequeue_eq]; exact hdst
    unfold ByteSpan.bytes
    rw [hlen]
    apply List.map_congr_left
    intro i hi
    exact hpt i (by have := List.mem_range.mp hi; omega)
  · rw [TryBulkDequeue_eq]
    unfold RingBuffer.GetCount
    simp only [hE, hD, hdst]
    omega

/-- Witness for C2: four bytes, the length that `TryBulkDequeue` hands to
`TryBulkDequeueByte4`, through a buffer of size 8 whose positions stand at 6. -/
theorem serial_round_trip_witness :
    wrappedEmpty.WellFormed ∧ wrappedEmpty.GetCount = 0 ∧ (0 : Int) ≤ 4 ∧
    (4 : Int) ≤ wrappedEmpty._bufferSize ∧ (4 : Int) = 4 ∧
    (wrappedEmpty.TryBulkEnqueue ⟨ramp 1, 4⟩).ret = true ∧
    (wrappedEmpty.TryBulkEnqueue ⟨ramp 1, 4⟩).self.GetCount = 4 ∧
    ((wrappedEmpty.TryBulkEnqueue ⟨ramp 1, 4⟩).self.TryBulkDequeue ⟨zeroed, 4⟩).ret = true ∧
    (∀ i : Nat, (i : Int) < 4 →
      ((wrappedEmpty.TryBulkEnqueue ⟨ramp 1, 4⟩).self.TryBulkDequeue ⟨zeroed, 4⟩).span.Pointer i =
        ramp 1 i) ∧
    ((wrappedEmpty.TryBulkEnqueue ⟨ramp 1, 4⟩).self.TryBulkDequeue ⟨zeroed, 4⟩).span.bytes =
      ByteSpan.bytes ⟨ramp 1, 4⟩ ∧
    ((wrappedEmpty.TryBulkEnqueue ⟨ramp 1, 4⟩).self.TryBulkDequeue ⟨zeroed, 4⟩).self.GetCount = 0 :=
  ⟨wrappedEmpty_wf, by decide, by decide, by decide, rfl,
    serial_round_trip wrappedEmpty ⟨ramp 1, 4⟩ ⟨zeroed, 4⟩ wrappedEmpty_wf (by decide)
      (by decide) (by decide) rfl⟩

/-- Claim C3.  Enqueue postcondition: in a well-formed state, for a span with
`0 ≤ Length ≤ B - count`, `TryBulkEnqueue` returns true, stores
`buffer[(E + i) & mask] = src[i]` for every `i` in `[0, Length)`, advances the
enqueue position to `E + Length` and leaves the dequeue position unchanged. -/
theorem enqueue_postcondition (self : RingBuffer) (src : ByteSpan) (hwf : self.WellFormed)
    (_h0 : 0 ≤ src.Length) (hL : src.Length ≤ self._bufferSize - self.GetCount) :
    (self.TryBulkEnqueue src).ret = true ∧
    (∀ i : Nat, (i : Int) < src.Length →
      (self.TryBulkEnqueue src).self._buffer
          (Int.land (self._enqueuePosition + (i : Int)) self._bufferMask) = src.Pointer i) ∧
    (self.TryBulkEnqueue src).self._enqueuePosition = self._enqueuePosition + src.Length ∧
    (self.TryBulkEnqueue src).self._dequeuePosition = self._dequeuePosition := by
  have hnew := enqueue_buffer_new hwf src hL
  have hL2 := hL
  unfold RingBuffer.GetCount at hL2
  refine ⟨?_, hnew, ?_, ?_⟩ <;>
    · unfold RingBuffer.TryBulkEnqueue
      simp only [if_pos hL2]

/-- Witness for C3: four bytes enqueued at position 6 of a buffer of size 8. -/
theorem enqueue_postcondition_witness :
    wrappedEmpty.WellFormed ∧ (0 : Int) ≤ 4 ∧
    (4 : Int) ≤ wrappedEmpty._bufferSize - wrappedEmpty.GetCount ∧
    (wrappedEmpty.TryBulkEnqueue ⟨ramp 1, 4⟩).ret = true ∧
    (∀ i : Nat, (i : Int) < 4 →
      (wrappedEmpty.TryBulkEnqueue ⟨ramp 1, 4⟩).self._buffer
          (Int.land (wrappedEmpty._enqueuePosition + (i : Int)) wrappedEmpty._bufferMask) =
        ramp 1 i) ∧
    (wrappedEmpty.TryBulkEnqueue ⟨ramp 1, 4⟩).self._enqueuePosition =
      wrappedEmpty._enqueuePosition + 4 ∧
    (wrappedEmpty.TryBulkEnqueue ⟨ramp 1, 4⟩).self._dequeuePosition =
      wrappedEmpty._dequeuePosition :=
  ⟨wrappedEmpty_wf, by decide, by decide,
    enqueue_postcondition wrappedEmpty ⟨ramp 1, 4⟩ wrappedEmpty_wf (by decide) (by decide)⟩

/-- Claim C4.  Overflow is atomic: in every state, for a span with
`Length > B - count`, `TryBulkEnqueue` returns false and leaves the whole
object unchanged: the enqueue position, the dequeue position and every byte of
the buffer, hence also `count`. -/
theorem enqueue_overflow_atomic (self : RingBuffer) (src : ByteSpan)
    (hover : src.Length > self._bufferSize - self.GetCount) :
    (self.TryBulkEnqueue src).ret = false ∧
    (self.TryBulkEnqueue src).self = self ∧
    (self.TryBulkEnqueue src).self._enqueuePosition = self._enqueuePosition ∧
    (self.TryBulkEnqueue src).self._dequeuePosition = self._dequeuePosition ∧
    (∀ j : Int, (self.TryBulkEnqueue src).self._buffer j = self._buffer j) ∧
    (self.TryBulkEnqueue src).self.GetCount = self.GetCount := by
  have h : ¬ src.Length ≤ self._bufferSize - (self._enqueuePosition - self._dequeuePosition) := by
    unfold RingBuffer.GetCount at hover; omega
  have hr : self.TryBulkEnqueue src =
      { ret := false, self := self, cout := [enqueueOverflowLine] } := by
    unfold RingBuffer.TryBulkEnqueue; simp only [if_neg h]
  rw [hr]
  exact ⟨rfl, rfl, rfl, rfl, fun _ => rfl, rfl⟩

/-- Witness for C4: capacity 4, four bytes enqueued, then one more byte. -/
theorem enqueue_overflow_atomic_witness :
    RingBuffer.new 4 zeroed = some (RingBuffer.fresh 2 zeroed) ∧
    full4.GetCount = 4 ∧
    (1 : Int) > full4._bufferSize - full4.GetCount ∧
    ((full4.TryBulkEnqueue ⟨ramp 9, 1⟩).ret = false ∧
      (full4.TryBulkEnqueue ⟨ramp 9, 1⟩).self = full4 ∧
      (full4.TryBulkEnqueue ⟨ramp 9, 1⟩).self._enqueuePosition = full4._enqueuePosition ∧
      (full4.TryBulkEnqueue ⟨ramp 9, 1⟩).self._dequeuePosition = full4._dequeuePosition ∧
      (∀ j : Int, (full4.TryBulkEnqueue ⟨ramp 9, 1⟩).self._buffer j = full4._buffer j) ∧
      (full4.TryBulkEnqueue ⟨ramp 9, 1⟩).self.GetCount = full4.GetCount) :=
  ⟨new_fresh_of_le 2 zeroed (by decide), by decide, by decide,
    enqueue_overflow_atomic full4 ⟨ramp 9, 1⟩ (by decide)⟩

/-- Claim C5.  No overcommit: in every state and for every span,
`TryBulkEnqueue` returns false exactly when `count + Length > GetBufferSize()`,
and after a successful enqueue `count` does not exceed `GetBufferSize()`. -/
theorem enqueue_fails_iff_overcommit (self : RingBuffer) (span : ByteSpan) :
    ((self.TryBulkEnqueue span).ret = false ↔
      self.GetCount + span.Length > self.GetBufferSize) ∧
    ((self.TryBulkEnqueue span).ret = true →
      (self.TryBulkEnqueue span).self.GetCount ≤ (self.TryBulkEnqueue span).self.GetBufferSize) := by
  unfold RingBuffer.TryBulkEnqueue RingBuffer.GetCount RingBuffer.GetBufferSize
  simp only
  split
  · refine ⟨⟨fun h => by simp at h, fun h => by omega⟩, fun _ => ?_⟩
    simp only
    omega
  · refine ⟨⟨fun _ => by omega, fun _ => rfl⟩, fun h => by simp at h⟩

/-- Claim C6.  Dequeue postcondition: in a well-formed state, for a destination
span with `0 ≤ Length ≤ count` (the lengths 4, 8, 16 and 32 included),
`TryBulkDequeue` returns true, stores `dst[i] = buffer[(D + i) & mask]` for
every `i` in `[0, Length)`, which are the first `Length` bytes of the live
payload, advances the dequeue position to `D + Length` and leaves the enqueue
position and every byte of the buffer unchanged. -/
theorem dequeue_postcondition (self : RingBuffer) (dst : ByteSpan) (_hwf : self.WellFormed)
    (h0 : 0 ≤ dst.Length) (hL : dst.Length ≤ self.GetCount) :
    (self.TryBulkDequeue dst).ret = true ∧
    (∀ i : Nat, (i : Int) < dst.Length →
      (self.TryBulkDequeue dst).span.Pointer i =
        self._buffer (Int.land (self._dequeuePosition + (i : Int)) self._bufferMask)) ∧
    (self.TryBulkDequeue dst).span.bytes = self.payload.take dst.Length.toNat ∧
    (self.TryBulkDequeue dst).self._dequeuePosition = self._dequeuePosition + dst.Length ∧
    (self.TryBulkDequeue dst).self._enqueuePosition = self._enqueuePosition ∧
    (∀ j : Int, (self.TryBulkDequeue dst).self._buffer j = self._buffer j) := by
  refine ⟨?_, ?_, (payload_dequeue self dst h0 hL).1, ?_, ?_, ?_⟩
  · rw [TryBulkDequeue_eq]
  · intro i hi
    rw [TryBulkDequeue_eq]
    simp only [loadLoop_apply, if_pos hi]
  · rw [TryBulkDequeue_eq]
  · rw [TryBulkDequeue_eq]
  · intro j; rw [TryBulkDequeue_eq]

/-- Witness for C6: four of the six live bytes of the wrap-around scenario. -/
theorem dequeue_postcondition_witness :
    wrapState.WellFormed ∧ (0 : Int) ≤ 4 ∧ (4 : Int) ≤ wrapState.GetCount ∧
    (wrapState.TryBulkDequeue ⟨zeroed, 4⟩).span.bytes = [5, 6, 7, 8] ∧
    ((wrapState.TryBulkDequeue ⟨zeroed, 4⟩).ret = true ∧
      (∀ i : Nat, (i : Int) < 4 →
        (wrapState.TryBulkDequeue ⟨zeroed, 4⟩).span.Pointer i =
          wrapState._buffer
            (Int.land (wrapState._dequeuePosition + (i : Int)) wrapState._bufferMask)) ∧
      (wrapState.TryBulkDequeue ⟨zeroed, 4⟩).span.bytes =
        wrapState.payload.take (4 : Int).toNat ∧
      (wrapState.TryBulkDequeue ⟨zeroed, 4⟩).self._dequeuePosition =
        wrapState._dequeuePosition + 4 ∧
      (wrapState.TryBulkDequeue ⟨zeroed, 4⟩).self._enqueuePosition =
        wrapState._enqueuePosition ∧
      (∀ j : Int, (wrapState.TryBulkDequeue ⟨zeroed, 4⟩).self._buffer j = wrapState._buffer j)) :=
  ⟨wrapState_wf, by decide, by decide, by decide,
    dequeue_postcondition wrapState ⟨zeroed, 4⟩ wrapState_wf (by decide) (by decide)⟩

/-- Claim C7, amended.  Count bounds under the preconditions of the serial
buffer: on a buffer freshly constructed with capacity `c ≥ 1`, after any
sequence of operations (`TryBulkEnqueue`, `TryBulkDequeue`, their 4/8/16/32
variants, `Clear()`, `Clear(n)`, both `Slice` overloads) in which every span
has a length `≥ 0`, every dequeue that is not rejected for a length mismatch
asks for at most `count` bytes at the time of its call and every `Clear(n)` has
`n ≥ 0`, `0 ≤ GetCount() ≤ GetBufferSize()`. -/
theorem count_bounds_under_preconditions (c : Int) (storage : Int → UInt8) (rb : RingBuffer)
    (ops : List Op) (hc : 1 ≤ c) (hnew : RingBuffer.new c storage = some rb)
    (hres : Op.RespectsAll rb ops) :
    0 ≤ (Op.run rb ops).GetCount ∧ (Op.run rb ops).GetCount ≤ (Op.run rb ops).GetBufferSize := by
  have hrb := new_fresh hc hnew
  subst hrb
  obtain ⟨-, -, -, hDE, hB⟩ := wf_run ops _ (fresh_wf _ _) hres
  unfold RingBuffer.GetCount RingBuffer.GetBufferSize
  omega

/-- Counterexample to C7 as stated.  On a buffer constructed with capacity 1,
one `TryBulkDequeue` with a span of length 1 (a length `≥ 0`) leaves
`GetCount() = -1`, and one `Clear(-2)` leaves `GetCount() = 2` while
`GetBufferSize() = 1`. -/
theorem count_bounds_counterexample :
    (1 : Int) ≤ 1 ∧
    RingBuffer.new 1 zeroed = some (RingBuffer.fresh 0 zeroed) ∧
    Op.SpansNonneg [Op.TryBulkDequeue ⟨zeroed, 1⟩] ∧
    (Op.run (RingBuffer.fresh 0 zeroed) [Op.TryBulkDequeue ⟨zeroed, 1⟩]).GetCount = -1 ∧
    Op.SpansNonneg [Op.ClearN (-2)] ∧
    (Op.run (RingBuffer.fresh 0 zeroed) [Op.ClearN (-2)]).GetCount = 2 ∧
    (Op.run (RingBuffer.fresh 0 zeroed) [Op.ClearN (-2)]).GetBufferSize = 1 := by
  refine ⟨by decide, new_fresh_of_le 0 zeroed (by decide), ?_, by decide, ?_, by decide,
    by decide⟩
  · intro op hop span hspan
    simp only [List.mem_singleton] at hop
    subst hop
    simp only [Op.span?, Option.some.injEq] at hspan
    subst hspan
    decide
  · intro op hop span hspan
    simp only [List.mem_singleton] at hop
    subst hop
    simp [Op.span?] at hspan

/-- Witness for the amended C7: a sequence that mixes the entry points on a
buffer constructed with capacity 5. -/
theorem count_bounds_witness :
    (1 : Int) ≤ 5 ∧ RingBuffer.new 5 zeroed = some (RingBuffer.fresh 3 zeroed) ∧
    Op.RespectsAll (RingBuffer.fresh 3 zeroed) mixedOps ∧
    (0 ≤ (Op.run (RingBuffer.fresh 3 zeroed) mixedOps).GetCount ∧
      (Op.run (RingBuffer.fresh 3 zeroed) mixedOps).GetCount ≤
        (Op.run (RingBuffer.fresh 3 zeroed) mixedOps).GetBufferSize) :=
  have h5 : RingBuffer.new 5 zeroed = some (RingBuffer.fresh 3 zeroed) := by
    rw [new_eq 5 zeroed (by decide), clog_five]; rfl
  have hres : Op.RespectsAll (RingBuffer.fresh 3 zeroed) mixedOps :=
    by decide
  ⟨by decide, h5, hres,
    count_bounds_under_preconditions 5 zeroed (RingBuffer.fresh 3 zeroed) mixedOps (by decide)
      h5 hres⟩

/-- Claim C8.  Capacity rounding: for every capacity `c ≥ 1` for which the
constructor produces an object, `GetBufferSize()` is a power of two, is `≥ c`,
and is `≤` every power of two that is `≥ c`; this holds for `RingBuffer` and for
`ConcurrentRingBuffer`.  The constructors produce an object exactly for
`c ≤ 2 ^ 30`: for a larger `c` the rounded size `2 ^ 31` is not an `int`. -/
theorem capacity_rounding (c : Int) (storage : Int → UInt8) (stamps : Int → Int) (hc : 1 ≤ c) :
    (∀ rb : RingBuffer, RingBuffer.new c storage = some rb →
      (∃ k : Nat, rb.GetBufferSize = 2 ^ k) ∧ c ≤ rb.GetBufferSize ∧
        ∀ j : Nat, c ≤ (2 : Int) ^ j → rb.GetBufferSize ≤ 2 ^ j) ∧
    (∀ crb : ConcurrentRingBuffer, ConcurrentRingBuffer.new c storage stamps = some crb →
      (∃ k : Nat, crb.GetBufferSize = 2 ^ k) ∧ c ≤ crb.GetBufferSize ∧
        ∀ j : Nat, c ≤ (2 : Int) ^ j → crb.GetBufferSize ≤ 2 ^ j) ∧
    ((RingBuffer.new c storage).isSome = true ↔ c ≤ 2 ^ 30) ∧
    ((ConcurrentRingBuffer.new c storage stamps).isSome = true ↔ c ≤ 2 ^ 30) := by
  have hl := clog_least c hc
  have hfit := pow_clog_fits_iff c hc
  have hs := rb_new_size c storage hc
  have hcs := crb_new_eq c storage stamps hc
  refine ⟨?_, ?_, ?_, ?_⟩
  · intro rb hrb
    rw [hrb] at hs
    by_cases h2 : (2 : Int) ^ Nat.clog 2 c.toNat ≤ INT_MAX
    · rw [if_pos h2] at hs
      have hB : rb.GetBufferSize = 2 ^ Nat.clog 2 c.toNat := Option.some.inj hs
      rw [hB]
      exact ⟨⟨_, rfl⟩, hl.1, hl.2⟩
    · rw [if_neg h2] at hs
      exact absurd hs (by simp)
  · intro crb hcrb
    rw [hcrb] at hcs
    by_cases h2 : (2 : Int) ^ Nat.clog 2 c.toNat ≤ INT_MAX
    · rw [if_pos h2] at hcs
      have hB : crb.GetBufferSize = 2 ^ Nat.clog 2 c.toNat := Option.some.inj hcs
      rw [hB]
      exact ⟨⟨_, rfl⟩, hl.1, hl.2⟩
    · rw [if_neg h2] at hcs
      exact absurd hcs (by simp)
  · have : (RingBuffer.new c storage).isSome =
        ((RingBuffer.new c storage).map RingBuffer.GetBufferSize).isSome := by simp
    rw [this, hs]
    by_cases h2 : (2 : Int) ^ Nat.clog 2 c.toNat ≤ INT_MAX
    · rw [if_pos h2]; exact ⟨fun _ => hfit.mp h2, fun _ => rfl⟩
    · rw [if_neg h2]; exact ⟨fun h => absurd h (by simp), fun h => absurd (hfit.mpr h) h2⟩
  · have : (ConcurrentRingBuffer.new c storage stamps).isSome =
        ((ConcurrentRingBuffer.new c storage stamps).map
          ConcurrentRingBuffer.GetBufferSize).isSome := by simp
    rw [this, hcs]
    by_cases h2 : (2 : Int) ^ Nat.clog 2 c.toNat ≤ INT_MAX
    · rw [if_pos h2]; exact ⟨fun _ => hfit.mp h2, fun _ => rfl⟩
    · rw [if_neg h2]; exact ⟨fun h => absurd h (by simp), fun h => absurd (hfit.mpr h) h2⟩

/-- Witness for C8: capacity 5 gives size 8, capacity 8 gives 8, capacity 1
gives 1. -/
theorem capacity_rounding_witness :
    (1 : Int) ≤ 5 ∧
    (RingBuffer.new 5 zeroed).map RingBuffer.GetBufferSize = some 8 ∧
    (RingBuffer.new 8 zeroed).map RingBuffer.GetBufferSize = some 8 ∧
    (RingBuffer.new 1 zeroed).map RingBuffer.GetBufferSize = some 1 ∧
    (ConcurrentRingBuffer.new 5 zeroed (fun _ => 0)).map ConcurrentRingBuffer.GetBufferSize =
      some 8 ∧
    ((∀ rb : RingBuffer, RingBuffer.new 5 zeroed = some rb →
        (∃ k : Nat, rb.GetBufferSize = 2 ^ k) ∧ 5 ≤ rb.GetBufferSize ∧
          ∀ j : Nat, 5 ≤ (2 : Int) ^ j → rb.GetBufferSize ≤ 2 ^ j) ∧
      (∀ crb : ConcurrentRingBuffer,
        ConcurrentRingBuffer.new 5 zeroed (fun _ => 0) = some crb →
        (∃ k : Nat, crb.GetBufferSize = 2 ^ k) ∧ 5 ≤ crb.GetBufferSize ∧
          ∀ j : Nat, 5 ≤ (2 : Int) ^ j → crb.GetBufferSize ≤ 2 ^ j) ∧
      ((RingBuffer.new 5 zeroed).isSome = true ↔ (5 : Int) ≤ 2 ^ 30) ∧
      ((ConcurrentRingBuffer.new 5 zeroed (fun _ => 0)).isSome = true ↔ (5 : Int) ≤ 2 ^ 30)) :=
  ⟨by decide,
    by rw [rb_new_size 5 zeroed (by decide), clog_five]; decide,
    by rw [rb_new_size 8 zeroed (by decide), clog_eight]; decide,
    by rw [rb_new_size 1 zeroed (by decide), clog_one]; decide,
    by rw [crb_new_eq 5 zeroed _ (by decide), clog_five]; decide,
    capacity_rounding 5 zeroed (fun _ => 0) (by decide)⟩

/-- Claim C9 at its failing input.  In the well-formed full buffer of size 8
with `D = 4` (reached by enqueue 4, dequeue 4, enqueue the bytes 1 to 8), the
range `start = 0`, `length = 8` satisfies `start + length ≤ count`, the start
and end index are both 4, and `Slice` takes the contiguous branch: the first
span starts at index 4 with length 8 and so runs past the end of the buffer,
and the second span is empty, while the range asked for is the payload
`[1, …, 8]`, of which the bytes 5 to 8 live at the indices 0 to 3.  On the
wrap-around scenario (`length = 6 < B`) the same code gives `[5,6,7,8]` and
`[9,10]`. -/
theorem slice_of_full_wrapped_buffer :
    Call.Admissible (RingBuffer.fresh 3 zeroed) fullWrappedCalls ∧
    fullWrapped.WellFormed ∧
    fullWrapped.GetBufferSize = 8 ∧ fullWrapped.GetCount = 8 ∧
    fullWrapped._dequeuePosition = 4 ∧
    fullWrapped.payload = [1, 2, 3, 4, 5, 6, 7, 8] ∧
    fullWrapped.window 0 8 = [1, 2, 3, 4, 5, 6, 7, 8] ∧
    fullWrapped.Slice 0 8 = ({ Pointer := 4, Length := 8 }, { Pointer := 0, Length := 0 }) ∧
    ¬ (fullWrapped.Slice 0 8).1.Inside fullWrapped.GetBufferSize ∧
    (List.range 4).map (fun (i : Nat) => fullWrapped._buffer (i : Int)) = [5, 6, 7, 8] ∧
    wrapState.Slice 0 6 = ({ Pointer := 4, Length := 4 }, { Pointer := 0, Length := 2 }) ∧
    (wrapState.Slice 0 6).1.bytes wrapState._buffer = [5, 6, 7, 8] ∧
    (wrapState.Slice 0 6).2.bytes wrapState._buffer = [9, 10] :=
  ⟨by decide, fullWrapped_wf, by decide, by decide, by decide, by decide, by decide, by decide,
    by decide, by decide, by decide, by decide, by decide⟩

/-- Claim C10.  Clear: in every state (in particular every well-formed one) and
for every `n` (in particular `n ≥ 0`), `Clear(n)` sets the dequeue position to
`D + min(n, count)` and leaves the enqueue position and every byte of the
buffer unchanged; `Clear()` is `Clear(count)`, leaves `GetCount() = 0`, and a
second `Clear()` changes nothing. -/
theorem clear_advances_dequeue (self : RingBuffer) (n : Int) :
    (self.ClearN n)._dequeuePosition = self._dequeuePosition + min n self.GetCount ∧
    (self.ClearN n)._enqueuePosition = self._enqueuePosition ∧
    (∀ j : Int, (self.ClearN n)._buffer j = self._buffer j) ∧
    self.Clear = self.ClearN self.GetCount ∧
    self.Clear.GetCount = 0 ∧
    self.Clear.Clear = self.Clear := by
  refine ⟨?_, rfl, fun _ => rfl, rfl, ?_, ?_⟩
  · unfold RingBuffer.ClearN RingBuffer.GetCount
    simp only [min_def]
  · unfold RingBuffer.Clear RingBuffer.ClearN RingBuffer.GetCount
    simp
  · unfold RingBuffer.Clear RingBuffer.ClearN
    simp

/-! ## Concurrent buffer: loops and stamps -/

theorem spinLoop_of_some {α : Type} {pass : Option α} {r : α} (h : pass = some r) (fuel : Nat) :
    spinLoop pass (fuel + 1) = some r := by
  unfold spinLoop
  rw [h]

theorem spinLoop_none {α : Type} (fuel : Nat) : spinLoop (none : Option α) fuel = none := by
  induction fuel with
  | zero => rfl
  | succ fuel ih => unfold spinLoop; exact ih

theorem spinLoop_eq_some {α : Type} {pass : Option α} {fuel : Nat} {r : α}
    (h : spinLoop pass fuel = some r) : pass = some r := by
  cases pass with
  | none => rw [spinLoop_none] at h; exact absurd h (by simp)
  | some a =>
    cases fuel with
    | zero => exact absurd h (by simp [spinLoop])
    | succ n => simpa [spinLoop] using h

theorem emod_add_of_lt (B p i : Int) (hB : 0 < B) (hi : 0 ≤ i) (h : p % B + i < B) :
    (p + i) % B = p % B + i := by
  have h0 : 0 ≤ p % B := Int.emod_nonneg p (by omega)
  have : p + i = (p % B + i) + B * (p / B) := by
    have := Int.emod_add_ediv p B
    omega
  rw [this, Int.add_mul_emod_self_left]
  exact Int.emod_eq_of_lt (by omega) h

theorem emod_add_self (B p : Int) : (p + B) % B = p % B := by
  simp

/-- The stamps after the committed loop of an enqueue, at an index it writes. -/
theorem enqueueCommitLoop_stamp_hit (index position : Int) (data : Nat → UInt8) (length : Int)
    (arrays : (Int → UInt8) × (Int → Int)) (i : Nat) (hi : (i : Int) < length) :
    (enqueueCommitLoop index position data length arrays).2 (index + i) = position + 1 + i := by
  unfold enqueueCommitLoop
  have key : ∀ n : Nat, i < n → ((List.range n).foldl
      (fun a (i : Nat) =>
        (Function.update a.1 (index + (i : Int)) (data i),
         Function.update a.2 (index + (i : Int)) (position + 1 + (i : Int)))) arrays).2
        (index + i) = position + 1 + i := by
    intro n
    induction n with
    | zero => intro h; omega
    | succ n ih =>
      intro hin
      rw [List.range_succ, List.foldl_append]
      simp only [List.foldl_cons, List.foldl_nil]
      by_cases h : i = n
      · subst h; simp
      · rw [Function.update_noteq (by omega)]
        exact ih (by omega)
  exact key _ (by omega)

/-- The stamps after the committed loop of an enqueue, at an index it does not write. -/
theorem enqueueCommitLoop_stamp_miss (index position : Int) (data : Nat → UInt8) (length : Int)
    (arrays : (Int → UInt8) × (Int → Int)) (x : Int)
    (hx : ∀ i : Nat, (i : Int) < length → x ≠ index + i) :
    (enqueueCommitLoop index position data length arrays).2 x = arrays.2 x := by
  unfold enqueueCommitLoop
  have key : ∀ n : Nat, n ≤ length.toNat → ((List.range n).foldl
      (fun a (i : Nat) =>
        (Function.update a.1 (index + (i : Int)) (data i),
         Function.update a.2 (index + (i : Int)) (position + 1 + (i : Int)))) arrays).2 x
        = arrays.2 x := by
    intro n
    induction n with
    | zero => simp
    | succ n ih =>
      intro hn
      rw [List.range_succ, List.foldl_append]
      simp only [List.foldl_cons, List.foldl_nil]
      rw [Function.update_noteq (hx n (by omega))]
      exact ih (by omega)
  exact key _ le_rfl

theorem dequeueCommitLoop_stamp_miss (m position : Int) (buffer : Int → UInt8) (length : Int)
    (arrays : (Nat → UInt8) × (Int → Int)) (x : Int)
    (hx : ∀ i : Nat, (i : Int) < length → x ≠ Int.land (position + i) m) :
    (dequeueCommitLoop m position buffer length arrays).2 x = arrays.2 x := by
  unfold dequeueCommitLoop
  have key : ∀ n : Nat, n ≤ length.toNat → ((List.range n).foldl
      (fun a (i : Nat) =>
        (Function.update a.1 i (buffer (Int.land (position + (i : Int)) m)),
         Function.update a.2 (Int.land (position + (i : Int)) m)
           (position + m + 1 + (i : Int)))) arrays).2 x = arrays.2 x := by
    intro n
    induction n with
    | zero => simp
    | succ n ih =>
      intro hn
      rw [List.range_succ, List.foldl_append]
      simp only [List.foldl_cons, List.foldl_nil]
      rw [Function.update_noteq (hx n (by omega))]
      exact ih (by omega)
  exact key _ le_rfl

theorem dequeueCommitLoop_stamp_hit (m position : Int) (buffer : Int → UInt8) (length : Int)
    (arrays : (Nat → UInt8) × (Int → Int)) (i : Nat) (hi : (i : Int) < length)
    (hlast : ∀ i2 : Nat, i < i2 → (i2 : Int) < length →
      Int.land (position + i2) m ≠ Int.land (position + i) m) :
    (dequeueCommitLoop m position buffer length arrays).2 (Int.land (position + i) m) =
      position + m + 1 + i := by
  unfold dequeueCommitLoop
  have key : ∀ n : Nat, i < n → n ≤ length.toNat → ((List.range n).foldl
      (fun a (i : Nat) =>
        (Function.update a.1 i (buffer (Int.land (position + (i : Int)) m)),
         Function.update a.2 (Int.land (position + (i : Int)) m)
           (position + m + 1 + (i : Int)))) arrays).2 (Int.land (position + i) m) =
        position + m + 1 + i := by
    intro n
    induction n with
    | zero => intro h; omega
    | succ n ih =>
      intro hin hn
      rw [List.range_succ, List.foldl_append]
      simp only [List.foldl_cons, List.foldl_nil]
      by_cases h : i = n
      · subst h; simp
      · rw [Function.update_noteq (hlast n (by omega) (by omega)).symm]
        exact ih (by omega) (by omega)
  exact key _ (by omega) le_rfl

theorem inv_land_eq {self : ConcurrentRingBuffer} (hinv : self.Inv) (p : Int) (hp : 0 ≤ p) :
    Int.land p self._bufferMask = p % self._bufferSize := by
  obtain ⟨⟨k, hk⟩, hm, -⟩ := hinv
  rw [hm, hk]
  exact land_mask_eq_emod p k hp

theorem inv_size_pos {self : ConcurrentRingBuffer} (hinv : self.Inv) : 0 < self._bufferSize := by
  obtain ⟨⟨k, hk⟩, -⟩ := hinv
  rw [hk]; positivity

theorem inv_land_ne {self : ConcurrentRingBuffer} (hinv : self.Inv) (p q : Int) (hp : 0 ≤ p)
    (hpq : p < q) (hq : q < p + self._bufferSize) :
    Int.land p self._bufferMask ≠ Int.land q self._bufferMask := by
  rw [inv_land_eq hinv p hp, inv_land_eq hinv q (by omega)]
  exact emod_ne_of_lt _ p q hpq hq

/-- A range that does not cross the end of the buffer: the contiguous index
`index + i` is the wrap-aware index `(p + i) & mask`. -/
theorem inv_land_add {self : ConcurrentRingBuffer} (hinv : self.Inv) (p i : Int) (hp : 0 ≤ p)
    (hi : 0 ≤ i) (h : Int.land p self._bufferMask + i < self._bufferSize) :
    Int.land p self._bufferMask + i = Int.land (p + i) self._bufferMask := by
  rw [inv_land_eq hinv p hp] at h ⊢
  rw [inv_land_eq hinv (p + i) (by omega)]
  exact (emod_add_of_lt _ p i (inv_size_pos hinv) hi h).symm

theorem inv_land_add_size {self : ConcurrentRingBuffer} (hinv : self.Inv) (p : Int) (hp : 0 ≤ p) :
    Int.land (p + self._bufferSize) self._bufferMask = Int.land p self._bufferMask := by
  have := inv_size_pos hinv
  rw [inv_land_eq hinv p hp, inv_land_eq hinv _ (by omega)]
  exact emod_add_self _ p

/-- The committed branch of an enqueue whose range does not cross the end of
the buffer keeps the stamps in agreement with the positions. -/
theorem inv_enqueue_commit {self : ConcurrentRingBuffer} (hinv : self.Inv) (span : ByteSpan)
    (h0 : 0 ≤ span.Length)
    (hroom : span.Length ≤ self._bufferSize - (self._enqueuePosition - self._dequeuePosition))
    (hin : Int.land self._enqueuePosition self._bufferMask + span.Length ≤ self._bufferSize) :
    ({ self with
        _enqueuePosition := self._enqueuePosition + span.Length
        _buffer := (enqueueCommitLoop (Int.land self._enqueuePosition self._bufferMask)
          self._enqueuePosition span.Pointer span.Length (self._buffer, self._sequence)).1
        _sequence := (enqueueCommitLoop (Int.land self._enqueuePosition self._bufferMask)
          self._enqueuePosition span.Pointer span.Length (self._buffer, self._sequence)).2 } :
      ConcurrentRingBuffer).Inv := by
  obtain ⟨hk, hm, hD, hDE, hB, hfull, hfree⟩ := id hinv
  refine ⟨hk, hm, hD, by simp only; omega, by simp only; omega, ?_, ?_⟩
  · intro j hj1 hj2
    simp only at hj1 hj2 ⊢
    by_cases hjE : j < self._enqueuePosition
    · rw [enqueueCommitLoop_stamp_miss]
      · exact hfull j hj1 hjE
      · intro i hi
        rw [inv_land_add hinv _ i (by omega) (by omega) (by omega)]
        exact inv_land_ne hinv j _ (by omega) (by omega) (by omega)
    · have hi : ((j - self._enqueuePosition).toNat : Int) < span.Length := by omega
      have hidx : Int.land j self._bufferMask =
          Int.land self._enqueuePosition self._bufferMask +
            ((j - self._enqueuePosition).toNat : Int) := by
        rw [inv_land_add hinv _ _ (by omega) (by omega) (by omega)]
        congr 1
        omega
      rw [hidx, enqueueCommitLoop_stamp_hit _ _ _ _ _ _ hi]
      omega
  · intro j hj1 hj2
    simp only at hj1 hj2 ⊢
    rw [enqueueCommitLoop_stamp_miss]
    · exact hfree j (by omega) hj2
    · intro i hi
      rw [inv_land_add hinv _ i (by omega) (by omega) (by omega)]
      exact (inv_land_ne hinv _ j (by omega) (by omega) (by omega)).symm

/-- The committed branch of a dequeue of at most `count` bytes keeps the stamps
in agreement with the positions. -/
theorem inv_dequeue_commit {self : ConcurrentRingBuffer} (hinv : self.Inv) (span : ByteSpan)
    (h0 : 0 ≤ span.Length)
    (hL : span.Length ≤ self._enqueuePosition - self._dequeuePosition) :
    ({ self with
        _dequeuePosition := self._dequeuePosition + span.Length
        _sequence := (dequeueCommitLoop self._bufferMask self._dequeuePosition self._buffer
          span.Length (span.Pointer, self._sequence)).2 } : ConcurrentRingBuffer).Inv := by
  obtain ⟨hk, hm, hD, hDE, hB, hfull, hfree⟩ := id hinv
  refine ⟨hk, hm, by simp only; omega, by simp only; omega, by simp only; omega, ?_, ?_⟩
  · intro j hj1 hj2
    simp only at hj1 hj2 ⊢
    rw [dequeueCommitLoop_stamp_miss]
    · exact hfull j (by omega) hj2
    · intro i hi
      exact (inv_land_ne hinv _ j (by omega) (by omega) (by omega)).symm
  · intro j hj1 hj2
    simp only at hj1 hj2 ⊢
    by_cases hjB : j < self._dequeuePosition + self._bufferSize
    · rw [dequeueCommitLoop_stamp_miss]
      · exact hfree j hj1 hjB
      · intro i hi
        exact (inv_land_ne hinv _ j (by omega) (by omega) (by omega)).symm
    · have hi : ((j - self._dequeuePosition - self._bufferSize).toNat : Int) < span.Length := by
        omega
      have hidx : Int.land j self._bufferMask =
          Int.land (self._dequeuePosition +
            ((j - self._dequeuePosition - self._bufferSize).toNat : Int)) self._bufferMask := by
        rw [← inv_land_add_size hinv (self._dequeuePosition +
          ((j - self._dequeuePosition - self._bufferSize).toNat : Int)) (by omega)]
        congr 1
        omega
      rw [hidx, dequeueCommitLoop_stamp_hit _ _ _ _ _ _ hi]
      · omega
      · intro i2 h1 h2
        exact (inv_land_ne hinv _ _ (by omega) (by omega) (by omega)).symm

/-- Under the stamp invariant the slot at the enqueue position is writable
unless the buffer is full, and is never ahead of the producer. -/
theorem inv_enqueue_diff {self : ConcurrentRingBuffer} (hinv : self.Inv) :
    self._sequence (Int.land self._enqueuePosition self._bufferMask) - self._enqueuePosition ≤ 0 ∧
    (self._enqueuePosition - self._dequeuePosition < self._bufferSize →
      self._sequence (Int.land self._enqueuePosition self._bufferMask) -
        self._enqueuePosition = 0) := by
  obtain ⟨hk, hm, hD, hDE, hB, hfull, hfree⟩ := id hinv
  have hpos := inv_size_pos hinv
  by_cases hc : self._enqueuePosition - self._dequeuePosition < self._bufferSize
  · have := hfree self._enqueuePosition le_rfl (by omega)
    constructor <;> [omega; (intro _; omega)]
  · have hE : self._enqueuePosition = self._dequeuePosition + self._bufferSize := by omega
    have h1 := inv_land_add_size hinv self._dequeuePosition hD
    have h2 := hfull self._dequeuePosition le_rfl (by omega)
    rw [hE, h1, h2]
    constructor <;> [omega; (intro _; omega)]

theorem enqueuePass_commit (self : ConcurrentRingBuffer) (span : ByteSpan)
    (hdiff : self._sequence (Int.land self._enqueuePosition self._bufferMask) -
      self._enqueuePosition = 0)
    (hroom : span.Length ≤ self._bufferSize - (self._enqueuePosition - self._dequeuePosition)) :
    self.TryBulkEnqueuePass span =
      some
        { ret := true
          self :=
            { self with
              _enqueuePosition := self._enqueuePosition + span.Length
              _buffer := (enqueueCommitLoop (Int.land self._enqueuePosition self._bufferMask)
                self._enqueuePosition span.Pointer span.Length (self._buffer, self._sequence)).1
              _sequence := (enqueueCommitLoop (Int.land self._enqueuePosition self._bufferMask)
                self._enqueuePosition span.Pointer span.Length (self._buffer, self._sequence)).2 }
          cout := [] } := by
  unfold ConcurrentRingBuffer.TryBulkEnqueuePass compareExchange
  simp only [hdiff, hroom, if_true, and_self]

theorem enqueuePass_reject (self : ConcurrentRingBuffer) (span : ByteSpan)
    (hno : ¬ (self._sequence (Int.land self._enqueuePosition self._bufferMask) -
        self._enqueuePosition = 0 ∧
      span.Length ≤ self._bufferSize - (self._enqueuePosition - self._dequeuePosition)))
    (hfail : self._sequence (Int.land self._enqueuePosition self._bufferMask) -
        self._enqueuePosition < 0 ∨
      span.Length > self._bufferSize - (self._enqueuePosition - self._dequeuePosition)) :
    self.TryBulkEnqueuePass span =
      some { ret := false, self := self, cout := [enqueueOverflowLine] } := by
  unfold ConcurrentRingBuffer.TryBulkEnqueuePass compareExchange
  simp only [if_true, and_true, hno, if_false, hfail]

theorem dequeuePass_commit (self : ConcurrentRingBuffer) (span : ByteSpan)
    (hdiff : self._sequence (Int.land self._dequeuePosition self._bufferMask) -
      (self._dequeuePosition + 1) = 0) :
    self.TryBulkDequeuePass span =
      some
        { ret := true
          self :=
            { self with
              _dequeuePosition := self._dequeuePosition + span.Length
              _sequence := (dequeueCommitLoop self._bufferMask self._dequeuePosition self._buffer
                span.Length (span.Pointer, self._sequence)).2 }
          span :=
            { span with
              Pointer := (dequeueCommitLoop self._bufferMask self._dequeuePosition self._buffer
                span.Length (span.Pointer, self._sequence)).1 }
          cout := [] } := by
  unfold ConcurrentRingBuffer.TryBulkDequeuePass compareExchange
  simp only [hdiff, if_true, and_self]

theorem dequeuePass_reject (self : ConcurrentRingBuffer) (span : ByteSpan)
    (hdiff : self._sequence (Int.land self._dequeuePosition self._bufferMask) -
      (self._dequeuePosition + 1) < 0) :
    self.TryBulkDequeuePass span =
      some { ret := false, self := self, span := span, cout := [dequeueOverflowLine] } := by
  unfold ConcurrentRingBuffer.TryBulkDequeuePass compareExchange
  have h1 : ¬ (self._sequence (Int.land self._dequeuePosition self._bufferMask) -
      (self._dequeuePosition + 1) = 0) := by omega
  simp only [h1, false_and, if_false, hdiff, if_true]

/-- Under the stamp invariant the slot at the dequeue position is readable when
the buffer holds data and carries its producer stamp when the buffer is empty. -/
theorem inv_dequeue_diff {self : ConcurrentRingBuffer} (hinv : self.Inv) :
    (self._dequeuePosition < self._enqueuePosition →
      self._sequence (Int.land self._dequeuePosition self._bufferMask) -
        (self._dequeuePosition + 1) = 0) ∧
    (self._dequeuePosition = self._enqueuePosition →
      self._sequence (Int.land self._dequeuePosition self._bufferMask) -
        (self._dequeuePosition + 1) < 0) := by
  obtain ⟨hk, hm, hD, hDE, hB, hfull, hfree⟩ := id hinv
  have hpos := inv_size_pos hinv
  constructor
  · intro h
    have := hfull self._dequeuePosition le_rfl h
    omega
  · intro h
    have := hfree self._dequeuePosition (by omega) (by omega)
    omega

/-- A call that fits keeps the stamp invariant. -/
theorem inv_step {self next : ConcurrentRingBuffer} (hinv : self.Inv) (fuel : Nat) (call : Call)
    (hin : Call.Fits self call) (hstep : self.step fuel call = some next) :
    next.Inv := by
  obtain ⟨hk, hm, hD, hDE, hB, hfull, hfree⟩ := id hinv
  cases call with
  | enqueue span =>
    obtain ⟨h0, hfit⟩ := hin
    unfold ConcurrentRingBuffer.GetCount at hfit
    simp only [ConcurrentRingBuffer.step, ConcurrentRingBuffer.TryBulkEnqueue,
      Option.map_eq_some'] at hstep
    obtain ⟨r, hr, rfl⟩ := hstep
    have hpass := spinLoop_eq_some hr
    by_cases hroom :
        span.Length ≤ self._bufferSize - (self._enqueuePosition - self._dequeuePosition)
    · by_cases hdiff : self._sequence (Int.land self._enqueuePosition self._bufferMask) -
          self._enqueuePosition = 0
      · rw [enqueuePass_commit self span hdiff hroom] at hpass
        rw [← Option.some.inj hpass]
        exact inv_enqueue_commit hinv span h0 hroom (hfit hroom)
      · have hlt := (inv_enqueue_diff hinv).1
        rw [enqueuePass_reject self span (fun h => hdiff h.1) (Or.inl (by omega))] at hpass
        rw [← Option.some.inj hpass]
        exact hinv
    · rw [enqueuePass_reject self span (fun h => hroom h.2) (Or.inr (by omega))] at hpass
      rw [← Option.some.inj hpass]
      exact hinv
  | dequeue span =>
    obtain ⟨h0, hL⟩ := hin
    unfold ConcurrentRingBuffer.GetCount at hL
    simp only [ConcurrentRingBuffer.step, ConcurrentRingBuffer.TryBulkDequeue,
      Option.map_eq_some'] at hstep
    obtain ⟨r, hr, rfl⟩ := hstep
    have hpass := spinLoop_eq_some hr
    by_cases hne : self._dequeuePosition < self._enqueuePosition
    · rw [dequeuePass_commit self span ((inv_dequeue_diff hinv).1 hne)] at hpass
      rw [← Option.some.inj hpass]
      exact inv_dequeue_commit hinv span h0 hL
    · rw [dequeuePass_reject self span ((inv_dequeue_diff hinv).2 (by omega))] at hpass
      rw [← Option.some.inj hpass]
      exact hinv

theorem inv_run (fuel : Nat) (calls : List Call) :
    ∀ self crb : ConcurrentRingBuffer, self.Inv → Call.AllFit fuel self calls →
      ConcurrentRingBuffer.run fuel self calls = some crb → crb.Inv := by
  induction calls with
  | nil =>
    intro self crb hinv _ hrun
    simp only [ConcurrentRingBuffer.run, Option.some.injEq] at hrun
    rw [← hrun]; exact hinv
  | cons call rest ih =>
    intro self crb hinv hin hrun
    unfold ConcurrentRingBuffer.run at hrun
    unfold Call.AllFit at hin
    cases hstep : self.step fuel call with
    | none => rw [hstep] at hrun; exact absurd hrun (by simp)
    | some next =>
      rw [hstep] at hrun hin
      exact ih next crb (inv_step hinv fuel call hin.1 hstep) hin.2 hrun

theorem fits_of_staysInside {self : ConcurrentRingBuffer} {call : Call}
    (h : Call.StaysInside self call) : Call.Fits self call := by
  cases call with
  | enqueue span => exact h
  | dequeue span => exact ⟨h.1, h.2.1⟩

theorem allFit_of_allStayInside (fuel : Nat) (calls : List Call) :
    ∀ self : ConcurrentRingBuffer, Call.AllStayInside fuel self calls →
      Call.AllFit fuel self calls := by
  induction calls with
  | nil => intro _ _; trivial
  | cons call rest ih =>
    intro self h
    unfold Call.AllStayInside at h
    unfold Call.AllFit
    refine ⟨fits_of_staysInside h.1, ?_⟩
    cases hstep : self.step fuel call with
    | none => trivial
    | some next =>
      have h2 := h.2
      rw [hstep] at h2
      exact ih next h2

theorem crb_new_eq_fresh (c : Int) (storage : Int → UInt8) (stamps : Int → Int) (hc : 1 ≤ c) :
    ConcurrentRingBuffer.new c storage stamps =
      if (2 : Int) ^ Nat.clog 2 c.toNat ≤ INT_MAX then
        some (ConcurrentRingBuffer.fresh (Nat.clog 2 c.toNat) storage stamps)
      else none := by
  unfold ConcurrentRingBuffer.new ceilLog2 pow2Int
  simp only [if_pos hc]
  have h : ¬ ((Nat.clog 2 c.toNat : Nat) : Int) < 0 := by omega
  simp only [if_neg h, Int.toNat_ofNat]
  by_cases h2 : (2 : Int) ^ Nat.clog 2 c.toNat ≤ INT_MAX
  · simp only [if_pos h2]; rfl
  · simp only [if_neg h2]

theorem crb_new_fresh {c : Int} {storage : Int → UInt8} {stamps : Int → Int}
    {crb : ConcurrentRingBuffer} (hc : 1 ≤ c)
    (h : ConcurrentRingBuffer.new c storage stamps = some crb) :
    crb = ConcurrentRingBuffer.fresh (Nat.clog 2 c.toNat) storage stamps := by
  rw [crb_new_eq_fresh c storage stamps hc] at h
  split at h
  · exact (Option.some.inj h).symm
  · exact absurd h (by simp)

theorem crb_new_fresh_of_le (k : Nat) (storage : Int → UInt8) (stamps : Int → Int)
    (hk : k ≤ 30) :
    ConcurrentRingBuffer.new (2 ^ k) storage stamps =
      some (ConcurrentRingBuffer.fresh k storage stamps) := by
  have h1 : (1 : Int) ≤ 2 ^ k := by
    have : (0 : Int) < 2 ^ k := by positivity
    omega
  rw [crb_new_eq_fresh _ _ _ h1]
  have h2 : ((2 : Int) ^ k).toNat = 2 ^ k := by
    have : ((2 : Int) ^ k) = ((2 ^ k : Nat) : Int) := by push_cast; rfl
    rw [this, Int.toNat_ofNat]
  rw [h2, Nat.clog_pow 2 k (by decide)]
  have h3 : (2 : Int) ^ k ≤ INT_MAX := by
    have : (2 : Int) ^ k ≤ 2 ^ 30 := pow_le_pow_right₀ (by decide) hk
    unfold INT_MAX
    omega
  rw [if_pos h3]

/-- The stamps written by the loop of the constructor. -/
theorem ctor_stamps (stamps : Int → Int) (n : Nat) (j : Int) (h0 : 0 ≤ j) (hj : j < n) :
    (List.range n).foldl (fun s (i : Nat) => Function.update s (i : Int) (i : Int)) stamps j
      = j := by
  induction n with
  | zero => omega
  | succ n ih =>
    rw [List.range_succ, List.foldl_append]
    simp only [List.foldl_cons, List.foldl_nil]
    by_cases h : j = n
    · subst h; simp
    · rw [Function.update_noteq h]
      exact ih (by omega)

theorem crb_fresh_inv (k : Nat) (storage : Int → UInt8) (stamps : Int → Int) :
    (ConcurrentRingBuffer.fresh k storage stamps).Inv := by
  have hpos : (0 : Int) < 2 ^ k := by positivity
  refine ⟨⟨k, rfl⟩, rfl, le_refl _, le_refl _, ?_, ?_, ?_⟩
  · show (0 : Int) - 0 ≤ 2 ^ k
    omega
  · intro j h1 h2
    exact absurd (lt_of_le_of_lt h1 h2) (lt_irrefl _)
  · intro j h1 h2
    have h1 : 0 ≤ j := h1
    have h2 : j < 2 ^ k := by
      have : j < 0 + 2 ^ k := h2
      omega
    show (List.range ((2 : Int) ^ k).toNat).foldl
      (fun s (i : Nat) => Function.update s (i : Int) (i : Int)) stamps
        (Int.land j (2 ^ k - 1)) = j
    rw [land_mask_eq_emod j k h1, Int.emod_eq_of_lt h1 h2]
    exact ctor_stamps stamps _ j h1 (by omega)

/-- Under the stamp invariant an enqueue returns in its first pass, and it
fails only on overcommit or on an empty span offered to a full buffer. -/
theorem inv_enqueue_returns {self : ConcurrentRingBuffer} (hinv : self.Inv) (span : ByteSpan)
    (fuel : Nat) :
    ∃ r, self.TryBulkEnqueue span (fuel + 1) = some r ∧
      (r.ret = false →
        span.Length > self._bufferSize - (self._enqueuePosition - self._dequeuePosition) ∨
        self._enqueuePosition - self._dequeuePosition = self._bufferSize) := by
  obtain ⟨hk, hm, hD, hDE, hB, hfull, hfree⟩ := id hinv
  obtain ⟨hle, hzero⟩ := inv_enqueue_diff hinv
  unfold ConcurrentRingBuffer.TryBulkEnqueue
  by_cases hroom :
      span.Length ≤ self._bufferSize - (self._enqueuePosition - self._dequeuePosition)
  · by_cases hdiff : self._sequence (Int.land self._enqueuePosition self._bufferMask) -
        self._enqueuePosition = 0
    · exact ⟨_, spinLoop_of_some (enqueuePass_commit self span hdiff hroom) fuel,
        fun h => absurd h (by simp)⟩
    · refine ⟨_, spinLoop_of_some
        (enqueuePass_reject self span (fun h => hdiff h.1) (Or.inl (by omega))) fuel, fun _ => ?_⟩
      right
      by_contra hne
      exact hdiff (hzero (by omega))
  · exact ⟨_, spinLoop_of_some
      (enqueuePass_reject self span (fun h => hroom h.2) (Or.inr (by omega))) fuel,
      fun _ => Or.inl (by omega)⟩

/-- The bytes stored by the committed loop of a concurrent enqueue are those of
the wrap-aware loop of the serial enqueue when the contiguous indices are the
wrap-aware ones. -/
theorem enqueueCommitLoop_fst (m index position : Int) (data : Nat → UInt8) (length : Int)
    (arrays : (Int → UInt8) × (Int → Int))
    (hidx : ∀ i : Nat, (i : Int) < length → index + i = Int.land (position + i) m) :
    (enqueueCommitLoop index position data length arrays).1 =
      storeLoop m position data length arrays.1 := by
  unfold enqueueCommitLoop storeLoop
  have key : ∀ n : Nat, n ≤ length.toNat → ((List.range n).foldl
      (fun a (i : Nat) =>
        (Function.update a.1 (index + (i : Int)) (data i),
         Function.update a.2 (index + (i : Int)) (position + 1 + (i : Int)))) arrays).1 =
      (List.range n).foldl
        (fun b (i : Nat) => Function.update b (Int.land (position + (i : Int)) m) (data i))
        arrays.1 := by
    intro n
    induction n with
    | zero => intro _; rfl
    | succ n ih =>
      intro hn
      rw [List.range_succ, List.foldl_append, List.foldl_append]
      simp only [List.foldl_cons, List.foldl_nil]
      rw [ih (by omega), hidx n (by omega)]
  exact key _ le_rfl

/-- The bytes handed back by the committed loop of a concurrent dequeue are
those of the loop of the serial dequeue. -/
theorem dequeueCommitLoop_fst (m position : Int) (buffer : Int → UInt8) (length : Int)
    (arrays : (Nat → UInt8) × (Int → Int)) :
    (dequeueCommitLoop m position buffer length arrays).1 =
      loadLoop m position buffer length arrays.1 := by
  unfold dequeueCommitLoop loadLoop
  generalize length.toNat = n
  induction n with
  | zero => rfl
  | succ n ih =>
    rw [List.range_succ, List.foldl_append, List.foldl_append]
    simp only [List.foldl_cons, List.foldl_nil]
    rw [ih]

theorem inv_serial_wf {self : ConcurrentRingBuffer} (hinv : self.Inv) :
    self.serial.WellFormed := by
  obtain ⟨hk, hm, hD, hDE, hB, -, -⟩ := hinv
  exact ⟨hk, hm, hD, hDE, hB⟩

/-- A concurrent enqueue made under the stamp invariant with a range that does
not cross the end of the buffer returns in its first pass, keeps the
invariant, leaves the fields that the serial enqueue leaves, and returns what
the serial enqueue returns unless an empty span is offered to a full buffer. -/
theorem sim_enqueue {self : ConcurrentRingBuffer} (hinv : self.Inv) (span : ByteSpan)
    (h0 : 0 ≤ span.Length)
    (hfit : span.Length ≤ self._bufferSize - self.GetCount →
      Int.land self._enqueuePosition self._bufferMask + span.Length ≤ self._bufferSize)
    (fuel : Nat) :
    ∃ r, self.TryBulkEnqueue span (fuel + 1) = some r ∧ r.self.Inv ∧
      r.self.serial = (self.serial.TryBulkEnqueue span).self ∧
      (r.ret = true → (self.serial.TryBulkEnqueue span).ret = true ∧
        span.Length ≤ self._bufferSize - self.GetCount) ∧
      (r.ret = false → r.self = self) ∧
      ((span.Length = 0 → self.GetCount < self._bufferSize) →
        r.ret = (self.serial.TryBulkEnqueue span).ret) := by
  obtain ⟨hk, hm, hD, hDE, hB, hfull, hfree⟩ := id hinv
  obtain ⟨hle, hzero⟩ := inv_enqueue_diff hinv
  unfold ConcurrentRingBuffer.GetCount at hfit ⊢
  unfold ConcurrentRingBuffer.TryBulkEnqueue
  by_cases hroom :
      span.Length ≤ self._bufferSize - (self._enqueuePosition - self._dequeuePosition)
  · have hser : self.serial.TryBulkEnqueue span =
        { ret := true
          self :=
            { self.serial with
              _enqueuePosition := self._enqueuePosition + span.Length
              _buffer := storeLoop self._bufferMask self._enqueuePosition span.Pointer
                span.Length self._buffer }
          cout := [] } := by
      unfold RingBuffer.TryBulkEnqueue ConcurrentRingBuffer.serial
      simp only [if_pos hroom]
    by_cases hdiff : self._sequence (Int.land self._enqueuePosition self._bufferMask) -
        self._enqueuePosition = 0
    · refine ⟨_, spinLoop_of_some (enqueuePass_commit self span hdiff hroom) fuel,
        inv_enqueue_commit hinv span h0 hroom (hfit hroom), ?_, ?_, ?_, ?_⟩
      · rw [hser]
        simp only [ConcurrentRingBuffer.serial]
        rw [enqueueCommitLoop_fst self._bufferMask]
        intro i hi
        exact inv_land_add hinv _ i (by omega) (by omega) (by have := hfit hroom; omega)
      · intro _; rw [hser]; exact ⟨rfl, hroom⟩
      · intro h; exact absurd h (by simp)
      · intro _; rw [hser]
    · have hfullb : self._enqueuePosition - self._dequeuePosition = self._bufferSize := by
        by_contra hne
        exact hdiff (hzero (by omega))
      have hL : span.Length = 0 := by omega
      refine ⟨_, spinLoop_of_some
        (enqueuePass_reject self span (fun h => hdiff h.1) (Or.inl (by omega))) fuel,
        hinv, ?_, ?_, ?_, ?_⟩
      · rw [hser]
        simp only [ConcurrentRingBuffer.serial, hL, storeLoop, add_zero, Int.toNat_zero,
          List.range_zero, List.foldl_nil]
      · intro h; exact absurd h (by simp)
      · intro _; rfl
      · intro h; have := h hL; omega
  · have hser : self.serial.TryBulkEnqueue span =
        { ret := false, self := self.serial, cout := [enqueueOverflowLine] } := by
      unfold RingBuffer.TryBulkEnqueue ConcurrentRingBuffer.serial
      simp only [if_neg hroom]
    refine ⟨_, spinLoop_of_some
      (enqueuePass_reject self span (fun h => hroom h.2) (Or.inr (by omega))) fuel,
      hinv, ?_, ?_, ?_, ?_⟩
    · rw [hser]
    · intro h; exact absurd h (by simp)
    · intro _; rfl
    · intro _; rw [hser]

/-- A concurrent dequeue of at most `count` bytes made under the stamp
invariant returns in its first pass, keeps the invariant, leaves the fields
and the destination that the serial dequeue leaves, and returns true unless
the buffer is empty. -/
theorem sim_dequeue {self : ConcurrentRingBuffer} (hinv : self.Inv) (span : ByteSpan)
    (h0 : 0 ≤ span.Length) (hL : span.Length ≤ self.GetCount) (fuel : Nat) :
    ∃ r, self.TryBulkDequeue span (fuel + 1) = some r ∧ r.self.Inv ∧
      r.self.serial = (self.serial.TryBulkDequeue span).self ∧
      r.span = (self.serial.TryBulkDequeue span).span ∧
      (r.ret = true ↔ 0 < self.GetCount) := by
  obtain ⟨hk, hm, hD, hDE, hB, hfull, hfree⟩ := id hinv
  unfold ConcurrentRingBuffer.GetCount at hL ⊢
  unfold ConcurrentRingBuffer.TryBulkDequeue
  rw [TryBulkDequeue_eq]
  by_cases hne : self._dequeuePosition < self._enqueuePosition
  · refine ⟨_, spinLoop_of_some
      (dequeuePass_commit self span ((inv_dequeue_diff hinv).1 hne)) fuel,
      inv_dequeue_commit hinv span h0 hL, rfl, ?_, ?_⟩
    · simp only [ConcurrentRingBuffer.serial]
      rw [dequeueCommitLoop_fst]
    · exact ⟨fun _ => by omega, fun _ => rfl⟩
  · have hlen : span.Length = 0 := by omega
    refine ⟨_, spinLoop_of_some
      (dequeuePass_reject self span ((inv_dequeue_diff hinv).2 (by omega))) fuel,
      hinv, ?_, ?_, ?_⟩
    · simp only [ConcurrentRingBuffer.serial, hlen, add_zero]
    · obtain ⟨ptr, len⟩ := span
      simp only at hlen
      subst hlen
      rfl
    · exact ⟨fun h => absurd h (by simp), fun h => by omega⟩

theorem crb_fresh_serial (k : Nat) (storage : Int → UInt8) (stamps : Int → Int) :
    (ConcurrentRingBuffer.fresh k storage stamps).serial = RingBuffer.fresh k storage := rfl

/-- Under the stamp invariant the concurrent buffer shows on a tame sequence of
calls what the serial buffer with the same fields shows. -/
theorem observe_eq_serial (fuel : Nat) (calls : List Call) :
    ∀ crb : ConcurrentRingBuffer, crb.Inv → Call.Tame crb.serial calls →
      ConcurrentRingBuffer.observe (fuel + 1) crb calls =
        some (RingBuffer.observe crb.serial calls) := by
  induction calls with
  | nil => intro crb _ _; rfl
  | cons call rest ih =>
    intro crb hinv htame
    cases call with
    | enqueue span =>
      obtain ⟨h0, hfit, hnz, hrest⟩ := htame
      obtain ⟨r, hr, hinv2, hser, -, -, hret⟩ := sim_enqueue hinv span h0 hfit fuel
      have hret2 := hret hnz
      rw [← hser] at hrest
      have ihr := ih r.self hinv2 hrest
      simp only [ConcurrentRingBuffer.observe, hr, ihr, Option.map_some', RingBuffer.observe,
        hret2, ← hser]
      rfl
    | dequeue span =>
      obtain ⟨h1, hL, hrest⟩ := htame
      obtain ⟨r, hr, hinv2, hser, hspan, hret⟩ := sim_dequeue hinv span (by omega) hL fuel
      have hpos : 0 < crb.GetCount := by
        have : crb.serial.GetCount = crb.GetCount := rfl
        omega
      have hret2 : r.ret = true := hret.mpr hpos
      have hsret : (crb.serial.TryBulkDequeue span).ret = true := by rw [TryBulkDequeue_eq]
      rw [← hser] at hrest
      have ihr := ih r.self hinv2 hrest
      simp only [ConcurrentRingBuffer.observe, hr, ihr, Option.map_some', RingBuffer.observe,
        hret2, hsret, ← hser, ← hspan]
      rfl

theorem enqueue_first_pass {self : ConcurrentRingBuffer} {span : ByteSpan} {fuel : Nat}
    {r : EnqueueResult ConcurrentRingBuffer} (h : self.TryBulkEnqueue span fuel = some r) :
    self.TryBulkEnqueue span 1 = some r :=
  spinLoop_of_some (spinLoop_eq_some h) 0

theorem dequeue_first_pass {self : ConcurrentRingBuffer} {span : ByteSpan} {fuel : Nat}
    {r : DequeueResult ConcurrentRingBuffer} (h : self.TryBulkDequeue span fuel = some r) :
    self.TryBulkDequeue span 1 = some r :=
  spinLoop_of_some (spinLoop_eq_some h) 0

/-- The streams of a concurrent buffer: a call that fits keeps the stamp
invariant and the equation `R ++ payload = S`. -/
theorem ctrace_step {t next : ConcurrentTrace} (hinv : t.self.Inv)
    (hfifo : t.R ++ t.self.serial.payload = t.S) (fuel : Nat) (call : Call)
    (hfits : Call.Fits t.self call) (hstep : t.step fuel call = some next) :
    t.self.step fuel call = some next.self ∧ next.self.Inv ∧
      next.R ++ next.self.serial.payload = next.S := by
  cases call with
  | enqueue span =>
    obtain ⟨h0, hfit⟩ := hfits
    simp only [ConcurrentTrace.step, Option.map_eq_some'] at hstep
    obtain ⟨r, hr, rfl⟩ := hstep
    obtain ⟨r1, hr1, hinv2, hser, htrue, hfalse, -⟩ := sim_enqueue hinv span h0 hfit 0
    have heq : r1 = r := Option.some.inj ((hr1.symm).trans (enqueue_first_pass hr))
    subst heq
    refine ⟨by simp only [ConcurrentRingBuffer.step, hr, Option.map_some'], hinv2, ?_⟩
    simp only
    cases hret : r1.ret with
    | true =>
      obtain ⟨-, hroom⟩ := htrue hret
      have hp := payload_enqueue (inv_serial_wf hinv) span h0 hroom
      simp only [if_true, hser, hp, ← hfifo, List.append_assoc]
    | false =>
      rw [hfalse hret]
      simpa using hfifo
  | dequeue span =>
    obtain ⟨h0, hL⟩ := hfits
    simp only [ConcurrentTrace.step, Option.map_eq_some'] at hstep
    obtain ⟨r, hr, rfl⟩ := hstep
    obtain ⟨r1, hr1, hinv2, hser, hspan, hret⟩ := sim_dequeue hinv span h0 hL 0
    have heq : r1 = r := Option.some.inj ((hr1.symm).trans (dequeue_first_pass hr))
    subst heq
    refine ⟨by simp only [ConcurrentRingBuffer.step, hr, Option.map_some'], hinv2, ?_⟩
    obtain ⟨hb, hp⟩ := payload_dequeue t.self.serial span h0 hL
    simp only
    cases hr1ret : r1.ret with
    | true =>
      simp only [if_true, hser, hspan, hb, hp, ← hfifo, List.append_assoc,
        List.take_append_drop]
    | false =>
      have hcount : ¬ 0 < t.self.GetCount := fun h => by
        have := hret.mpr h
        rw [hr1ret] at this
        exact absurd this (by simp)
      have hlen : span.Length.toNat = 0 := by omega
      rw [hser, hp, hlen, List.drop_zero]
      simpa using hfifo

theorem ctrace_run (fuel : Nat) (calls : List Call) :
    ∀ t final : ConcurrentTrace, t.self.Inv → t.R ++ t.self.serial.payload = t.S →
      Call.AllFit fuel t.self calls → ConcurrentTrace.run fuel t calls = some final →
      final.self.Inv ∧ final.R ++ final.self.serial.payload = final.S := by
  induction calls with
  | nil =>
    intro t final hinv hfifo _ hrun
    simp only [ConcurrentTrace.run, Option.some.injEq] at hrun
    rw [← hrun]; exact ⟨hinv, hfifo⟩
  | cons call rest ih =>
    intro t final hinv hfifo hfit hrun
    unfold ConcurrentTrace.run at hrun
    unfold Call.AllFit at hfit
    cases hstep : t.step fuel call with
    | none => rw [hstep] at hrun; exact absurd hrun (by simp)
    | some next =>
      rw [hstep] at hrun
      obtain ⟨hs, hinv2, hfifo2⟩ := ctrace_step hinv hfifo fuel call hfit.1 hstep
      have h2 := hfit.2
      rw [hs] at h2
      exact ih next final hinv2 hfifo2 h2 hrun

/-- What `TryBulkEnqueue` of the serial buffer returns and where it leaves the
positions. -/
theorem enqueue_fields (self : RingBuffer) (span : ByteSpan) :
    (self.TryBulkEnqueue span).ret =
      decide (span.Length ≤ self._bufferSize - self.GetCount) ∧
    (self.TryBulkEnqueue span).self._bufferSize = self._bufferSize ∧
    (self.TryBulkEnqueue span).self._bufferMask = self._bufferMask ∧
    (self.TryBulkEnqueue span).self._dequeuePosition = self._dequeuePosition ∧
    (self.TryBulkEnqueue span).self._enqueuePosition =
      (if span.Length ≤ self._bufferSize - self.GetCount then
        self._enqueuePosition + span.Length
      else self._enqueuePosition) ∧
    (¬ span.Length ≤ self._bufferSize - self.GetCount →
      (self.TryBulkEnqueue span).self = self) := by
  unfold RingBuffer.TryBulkEnqueue RingBuffer.GetCount
  simp only
  split <;> simp [*]

/-- On a tame sequence of calls the observations of a well-formed serial buffer
depend on its size, mask, positions and live payload only, not on the bytes
that its storage holds elsewhere. -/
theorem observe_payload_only (calls : List Call) :
    ∀ a b : RingBuffer, a.WellFormed → b.WellFormed → a._bufferSize = b._bufferSize →
      a._bufferMask = b._bufferMask → a._enqueuePosition = b._enqueuePosition →
      a._dequeuePosition = b._dequeuePosition → a.payload = b.payload → Call.Tame a calls →
      Call.Tame b calls ∧ RingBuffer.observe a calls = RingBuffer.observe b calls := by
  induction calls with
  | nil => intro a b _ _ _ _ _ _ _ _; exact ⟨trivial, rfl⟩
  | cons call rest ih =>
    intro a b hwa hwb hsize hmask hE hD hpay htame
    have hcount : a.GetCount = b.GetCount := by
      unfold RingBuffer.GetCount; rw [hE, hD]
    cases call with
    | enqueue span =>
      obtain ⟨h0, hfit, hz, hrest⟩ := htame
      obtain ⟨ha1, ha2, ha3, ha4, ha5, ha6⟩ := enqueue_fields a span
      obtain ⟨hb1, hb2, hb3, hb4, hb5, hb6⟩ := enqueue_fields b span
      have hret : (a.TryBulkEnqueue span).ret = (b.TryBulkEnqueue span).ret := by
        rw [ha1, hb1, hsize, hcount]
      have hE2 : (a.TryBulkEnqueue span).self._enqueuePosition =
          (b.TryBulkEnqueue span).self._enqueuePosition := by
        rw [ha5, hb5, hsize, hcount, hE]
      have hpay2 : (a.TryBulkEnqueue span).self.payload =
          (b.TryBulkEnqueue span).self.payload := by
        by_cases hroom : span.Length ≤ a._bufferSize - a.GetCount
        · rw [payload_enqueue hwa span h0 hroom,
            payload_enqueue hwb span h0 (by rw [← hsize, ← hcount]; exact hroom), hpay]
        · rw [ha6 hroom, hb6 (by rw [← hsize, ← hcount]; exact hroom), hpay]
      obtain ⟨ht, hobs⟩ := ih _ _ (wf_enqueue hwa span h0) (wf_enqueue hwb span h0)
        (by rw [ha2, hb2, hsize]) (by rw [ha3, hb3, hmask]) hE2 (by rw [ha4, hb4, hD]) hpay2
        hrest
      refine ⟨⟨h0, ?_, ?_, ht⟩, ?_⟩
      · rw [← hsize, ← hcount, ← hE, ← hmask]; exact hfit
      · rw [← hsize, ← hcount]; exact hz
      · simp only [RingBuffer.observe, hret, hobs]
        congr 2
        unfold RingBuffer.GetCount
        rw [hE2, ha4, hb4, hD]
    | dequeue span =>
      obtain ⟨h1, hL, hrest⟩ := htame
      have h0 : 0 ≤ span.Length := by omega
      have hLb : span.Length ≤ b.GetCount := by rw [← hcount]; exact hL
      have hpa := payload_dequeue a span h0 hL
      have hpb := payload_dequeue b span h0 hLb
      have ha := TryBulkDequeue_eq a span
      have hb := TryBulkDequeue_eq b span
      have hret : (a.TryBulkDequeue span).ret = (b.TryBulkDequeue span).ret := by
        rw [ha, hb]
      have hD2 : (a.TryBulkDequeue span).self._dequeuePosition =
          (b.TryBulkDequeue span).self._dequeuePosition := by
        rw [ha, hb]; simp only; rw [hD]
      have hE2 : (a.TryBulkDequeue span).self._enqueuePosition =
          (b.TryBulkDequeue span).self._enqueuePosition := by
        rw [ha, hb]; exact hE
      obtain ⟨ht, hobs⟩ := ih _ _ (wf_dequeue hwa span h0 hL) (wf_dequeue hwb span h0 hLb)
        (by rw [ha, hb]; exact hsize) (by rw [ha, hb]; exact hmask) hE2 hD2
        (by rw [hpa.2, hpb.2, hpay]) hrest
      refine ⟨⟨h1, hLb, ht⟩, ?_⟩
      simp only [RingBuffer.observe, hret, hobs, hpa.1, hpb.1, hpay]
      congr 2
      unfold RingBuffer.GetCount
      rw [hE2, hD2]

/-! ## Specialised entry points and the concurrent buffer: the claims -/

theorem TryBulkDequeueLoop_eq (self : RingBuffer) (span : ByteSpan) :
    self.TryBulkDequeue span = self.TryBulkDequeueLoop span :=
  TryBulkDequeue_eq self span

theorem clearN_spins (self : ConcurrentRingBuffer)
    (h : self._sequence (Int.land self._dequeuePosition self._bufferMask) ≠
      self._dequeuePosition + 1) (fuel : Nat) :
    ∀ length : Int, self.ClearN length fuel = none := by
  induction fuel with
  | zero => intro length; rfl
  | succ fuel ih =>
    intro length
    unfold ConcurrentRingBuffer.ClearN
    have hd : ¬ (self._sequence (Int.land self._dequeuePosition self._bufferMask) -
        (self._dequeuePosition + 1) = 0) := by omega
    simp only [hd, false_and, if_false]
    exact ih _

theorem tameTrace_run :
    ConcurrentTrace.run 1 ⟨ConcurrentRingBuffer.fresh 3 zeroed staleStamps, [], []⟩
      (tameCalls.take 4) = some tameTrace := rfl

theorem fullConcurrent2_run :
    ConcurrentRingBuffer.run 1 (ConcurrentRingBuffer.fresh 1 zeroed staleStamps)
      [.enqueue ⟨ramp 1, 2⟩] = some fullConcurrent2 := rfl

/-- Claim C11.  Specialised length rejection: for `N` in 4, 8, 16, 32, in every
state and for every span whose length is not `N`, `TryBulkEnqueueByteN` and
`TryBulkDequeueByteN` of the serial and of the concurrent buffer return false,
leave the object unchanged (both positions, every byte of the buffer and, for
the concurrent buffer, every stamp), leave the destination unchanged and
write no diagnostic.  The concurrent entry points return before their loop,
whatever the number of passes allowed. -/
theorem specialized_length_rejection (rb : RingBuffer) (crb : ConcurrentRingBuffer)
    (span : ByteSpan) (fuel : Nat) :
    (span.Length ≠ 4 →
      rb.TryBulkEnqueueByte4 span = { ret := false, self := rb, cout := [] } ∧
      rb.TryBulkDequeueByte4 span = { ret := false, self := rb, span := span, cout := [] } ∧
      crb.TryBulkEnqueueByte4 span fuel = some { ret := false, self := crb, cout := [] } ∧
      crb.TryBulkDequeueByte4 span fuel =
        some { ret := false, self := crb, span := span, cout := [] }) ∧
    (span.Length ≠ 8 →
      rb.TryBulkEnqueueByte8 span = { ret := false, self := rb, cout := [] } ∧
      rb.TryBulkDequeueByte8 span = { ret := false, self := rb, span := span, cout := [] } ∧
      crb.TryBulkEnqueueByte8 span fuel = some { ret := false, self := crb, cout := [] } ∧
      crb.TryBulkDequeueByte8 span fuel =
        some { ret := false, self := crb, span := span, cout := [] }) ∧
    (span.Length ≠ 16 →
      rb.TryBulkEnqueueByte16 span = { ret := false, self := rb, cout := [] } ∧
      rb.TryBulkDequeueByte16 span = { ret := false, self := rb, span := span, cout := [] } ∧
      crb.TryBulkEnqueueByte16 span fuel = some { ret := false, self := crb, cout := [] } ∧
      crb.TryBulkDequeueByte16 span fuel =
        some { ret := false, self := crb, span := span, cout := [] }) ∧
    (span.Length ≠ 32 →
      rb.TryBulkEnqueueByte32 span = { ret := false, self := rb, cout := [] } ∧
      rb.TryBulkDequeueByte32 span = { ret := false, self := rb, span := span, cout := [] } ∧
      crb.TryBulkEnqueueByte32 span fuel = some { ret := false, self := crb, cout := [] } ∧
      crb.TryBulkDequeueByte32 span fuel =
        some { ret := false, self := crb, span := span, cout := [] }) := by
  refine ⟨fun h => ⟨TryBulkEnqueueByte4_mismatch rb span h, TryBulkDequeueByte4_mismatch rb span h,
      ?_, ?_⟩,
    fun h => ⟨TryBulkEnqueueByte8_mismatch rb span h, TryBulkDequeueByte8_mismatch rb span h,
      ?_, ?_⟩,
    fun h => ⟨TryBulkEnqueueByte16_mismatch rb span h, TryBulkDequeueByte16_mismatch rb span h,
      ?_, ?_⟩,
    fun h => ⟨TryBulkEnqueueByte32_mismatch rb span h, TryBulkDequeueByte32_mismatch rb span h,
      ?_, ?_⟩⟩
  · unfold ConcurrentRingBuffer.TryBulkEnqueueByte4; rw [if_pos h]
  · unfold ConcurrentRingBuffer.TryBulkDequeueByte4; rw [if_pos h]
  · unfold ConcurrentRingBuffer.TryBulkEnqueueByte8; rw [if_pos h]
  · unfold ConcurrentRingBuffer.TryBulkDequeueByte8; rw [if_pos h]
  · unfold ConcurrentRingBuffer.TryBulkEnqueueByte16; rw [if_pos h]
  · unfold ConcurrentRingBuffer.TryBulkDequeueByte16; rw [if_pos h]
  · unfold ConcurrentRingBuffer.TryBulkEnqueueByte32; rw [if_pos h]
  · unfold ConcurrentRingBuffer.TryBulkDequeueByte32; rw [if_pos h]

/-- Witness for C11: `TryBulkEnqueueByte8` with a span of 7 bytes on the buffer
of the wrap-around scenario fails and leaves `count` at 6. -/
theorem specialized_length_rejection_witness :
    wrapState.GetCount = 6 ∧
    wrapState.TryBulkEnqueueByte8 ⟨ramp 1, 7⟩ = { ret := false, self := wrapState, cout := [] } ∧
    (wrapState.TryBulkEnqueueByte8 ⟨ramp 1, 7⟩).self.GetCount = 6 ∧
    tameTrace.self.TryBulkEnqueueByte8 ⟨ramp 1, 7⟩ 0 =
      some { ret := false, self := tameTrace.self, cout := [] } :=
  ⟨by decide,
    ((specialized_length_rejection wrapState tameTrace.self ⟨ramp 1, 7⟩ 0).2.1 (by decide)).1,
    by decide,
    ((specialized_length_rejection wrapState tameTrace.self ⟨ramp 1, 7⟩ 0).2.1
      (by decide)).2.2.1⟩

/-- Claim C12.  The serial enqueue specialisations equal the general path: for
`N` in 4, 8, 16, 32, in every state and for every span of length `N`,
`TryBulkEnqueueByteN` gives the result of `TryBulkEnqueue`: the same `bool`,
the same object (positions and every byte of the buffer) and the same
diagnostic, also when the bytes wrap and when the call overflows. -/
theorem enqueue_specializations_eq_general (self : RingBuffer) (span : ByteSpan) :
    (span.Length = 4 → self.TryBulkEnqueueByte4 span = self.TryBulkEnqueue span) ∧
    (span.Length = 8 → self.TryBulkEnqueueByte8 span = self.TryBulkEnqueue span) ∧
    (span.Length = 16 → self.TryBulkEnqueueByte16 span = self.TryBulkEnqueue span) ∧
    (span.Length = 32 → self.TryBulkEnqueueByte32 span = self.TryBulkEnqueue span) :=
  ⟨TryBulkEnqueueByte4_eq self span, TryBulkEnqueueByte8_eq self span,
    TryBulkEnqueueByte16_eq self span, TryBulkEnqueueByte32_eq self span⟩


/-- Witness for C12: four bytes that wrap around the end of a buffer of size 8,
and four bytes offered to a full buffer of size 4. -/
theorem enqueue_specializations_eq_general_witness :
    wrappedEmpty.TryBulkEnqueueByte4 ⟨ramp 1, 4⟩ = wrappedEmpty.TryBulkEnqueue ⟨ramp 1, 4⟩ ∧
    (wrappedEmpty.TryBulkEnqueueByte4 ⟨ramp 1, 4⟩).ret = true ∧
    full4.TryBulkEnqueueByte4 ⟨ramp 5, 4⟩ = full4.TryBulkEnqueue ⟨ramp 5, 4⟩ ∧
    (full4.TryBulkEnqueueByte4 ⟨ramp 5, 4⟩).ret = false :=
  ⟨(enqueue_specializations_eq_general wrappedEmpty ⟨ramp 1, 4⟩).1 rfl, by decide,
    (enqueue_specializations_eq_general full4 ⟨ramp 5, 4⟩).1 rfl, by decide⟩

/-- Claim C13.  The serial dequeue specialisations equal the general path: for
`N` in 4, 8, 16, 32, in every state and for every destination span of length
`N`, `TryBulkDequeueByteN`, and `TryBulkDequeue` which hands the call to it,
give the result of the general wrap-aware loop of `TryBulkDequeue`: they return
true, store `dst[i] = buffer[(D + i) & mask]` for every `i` in `[0, N)` and set
the dequeue position to `D + N`. -/
theorem dequeue_specializations_eq_general (self : RingBuffer) (span : ByteSpan) :
    (span.Length = 4 → self.TryBulkDequeueByte4 span = self.TryBulkDequeueLoop span) ∧
    (span.Length = 8 → self.TryBulkDequeueByte8 span = self.TryBulkDequeueLoop span) ∧
    (span.Length = 16 → self.TryBulkDequeueByte16 span = self.TryBulkDequeueLoop span) ∧
    (span.Length = 32 → self.TryBulkDequeueByte32 span = self.TryBulkDequeueLoop span) ∧
    self.TryBulkDequeue span = self.TryBulkDequeueLoop span ∧
    (self.TryBulkDequeue span).ret = true ∧
    (∀ i : Nat, (i : Int) < span.Length →
      (self.TryBulkDequeue span).span.Pointer i =
        self._buffer (Int.land (self._dequeuePosition + (i : Int)) self._bufferMask)) ∧
    (self.TryBulkDequeue span).self._dequeuePosition = self._dequeuePosition + span.Length := by
  have hloop := TryBulkDequeueLoop_eq self span
  refine ⟨fun h => ?_, fun h => ?_, fun h => ?_, fun h => ?_, hloop, ?_, ?_, ?_⟩
  · rw [TryBulkDequeueByte4_eq self span h, hloop]
  · rw [TryBulkDequeueByte8_eq self span h, hloop]
  · rw [TryBulkDequeueByte16_eq self span h, hloop]
  · rw [TryBulkDequeueByte32_eq self span h, hloop]
  · rw [hloop]; rfl
  · intro i hi
    rw [hloop]
    simp only [RingBuffer.TryBulkDequeueLoop, loadLoop_apply, if_pos hi]
  · rw [hloop]; rfl

/-- Counterexample to C14 as stated.  On buffers of capacity 8 the calls of the
wrap-around scenario (spans of length `≥ 0`, dequeues of 4 and 6 bytes with
`1 ≤ length ≤ count`) make the last dequeue hand back `[5,6,7,8,9,10]` on the
serial buffer and `[5,6,7,8,1,2]` on the concurrent one, whose second enqueue
wrote the bytes 9 and 10 and their stamps at the indices 8 and 9, outside the
buffer.  On buffers of capacity 2, after two bytes are enqueued, the enqueue
of an empty span returns true on the serial buffer and false on the
concurrent one. -/
theorem crb_differs_from_serial :
    RingBuffer.new 8 zeroed = some (RingBuffer.fresh 3 zeroed) ∧
    ConcurrentRingBuffer.new 8 zeroed staleStamps =
      some (ConcurrentRingBuffer.fresh 3 zeroed staleStamps) ∧
    Call.Admissible (RingBuffer.fresh 3 zeroed) scenario3 ∧
    RingBuffer.observe (RingBuffer.fresh 3 zeroed) scenario3 =
      [⟨true, [], 6⟩, ⟨true, [1, 2, 3, 4], 2⟩, ⟨true, [], 6⟩,
        ⟨true, [5, 6, 7, 8, 9, 10], 0⟩] ∧
    ConcurrentRingBuffer.observe 1 (ConcurrentRingBuffer.fresh 3 zeroed staleStamps) scenario3 =
      some [⟨true, [], 6⟩, ⟨true, [1, 2, 3, 4], 2⟩, ⟨true, [], 6⟩,
        ⟨true, [5, 6, 7, 8, 1, 2], 0⟩] ∧
    (ConcurrentRingBuffer.run 1 (ConcurrentRingBuffer.fresh 3 zeroed staleStamps) wrapCalls).map
        (fun crb =>
          (crb._buffer 8, crb._buffer 9, crb._sequence 8, crb._sequence 9,
            crb._buffer 0, crb._buffer 1)) =
      some (9, 10, 9, 10, 1, 2) ∧
    RingBuffer.new 2 zeroed = some (RingBuffer.fresh 1 zeroed) ∧
    ConcurrentRingBuffer.new 2 zeroed staleStamps =
      some (ConcurrentRingBuffer.fresh 1 zeroed staleStamps) ∧
    RingBuffer.observe (RingBuffer.fresh 1 zeroed) [.enqueue ⟨ramp 1, 2⟩, .enqueue ⟨zeroed, 0⟩] =
      [⟨true, [], 2⟩, ⟨true, [], 2⟩] ∧
    ConcurrentRingBuffer.observe 1 (ConcurrentRingBuffer.fresh 1 zeroed staleStamps)
        [.enqueue ⟨ramp 1, 2⟩, .enqueue ⟨zeroed, 0⟩] =
      some [⟨true, [], 2⟩, ⟨false, [], 2⟩] :=
  ⟨new_fresh_of_le 3 zeroed (by decide), crb_new_fresh_of_le 3 zeroed staleStamps (by decide),
    by decide, by decide, by decide, by decide,
    new_fresh_of_le 1 zeroed (by decide), crb_new_fresh_of_le 1 zeroed staleStamps (by decide),
    by decide, by decide⟩

/-- Claim C14, amended.  In single-threaded use the concurrent buffer shows what
the serial one shows on every sequence of calls in which no enqueue that has
room claims a byte range crossing the end of the buffer and no empty span is
offered to a full buffer: for every capacity `c ≥ 1` and every such sequence
of `TryBulkEnqueue` calls (span length `≥ 0`) and `TryBulkDequeue` calls
(`1 ≤ length ≤ count`) on a fresh serial and a fresh concurrent buffer,
whatever their two storages hold at construction, every call of the concurrent
buffer returns in its first pass, and the two buffers return the same `bool`
at every call, the same bytes at every dequeue and the same `GetCount()` after
every call. -/
theorem crb_agrees_with_serial (c : Int) (storage storageC : Int → UInt8)
    (stamps : Int → Int)
    (rb : RingBuffer) (crb : ConcurrentRingBuffer) (calls : List Call) (fuel : Nat)
    (hc : 1 ≤ c) (hrb : RingBuffer.new c storage = some rb)
    (hcrb : ConcurrentRingBuffer.new c storageC stamps = some crb)
    (htame : Call.Tame rb calls) :
    ConcurrentRingBuffer.observe (fuel + 1) crb calls = some (RingBuffer.observe rb calls) := by
  have h1 := new_fresh hc hrb
  have h2 := crb_new_fresh hc hcrb
  subst h1 h2
  obtain ⟨htame2, hobs⟩ := observe_payload_only calls _
    (RingBuffer.fresh (Nat.clog 2 c.toNat) storageC) (fresh_wf _ storage) (fresh_wf _ storageC)
    rfl rfl rfl rfl (by rw [fresh_payload, fresh_payload]) htame
  have := observe_eq_serial fuel calls _ (crb_fresh_inv _ storageC stamps)
    (by rw [crb_fresh_serial]; exact htame2)
  rw [this, crb_fresh_serial, hobs]

/-- Witness for the amended C14: a sequence on buffers of capacity 8 whose last
dequeue reads across the end of the buffer; the storage of the serial buffer
is zeroed and that of the concurrent buffer holds the byte 255 everywhere. -/
theorem crb_agrees_with_serial_witness :
    (1 : Int) ≤ 8 ∧
    RingBuffer.new 8 zeroed = some (RingBuffer.fresh 3 zeroed) ∧
    ConcurrentRingBuffer.new 8 (fun _ => 255) staleStamps =
      some (ConcurrentRingBuffer.fresh 3 (fun _ => 255) staleStamps) ∧
    Call.Tame (RingBuffer.fresh 3 zeroed) tameCalls ∧
    RingBuffer.observe (RingBuffer.fresh 3 zeroed) tameCalls =
      [⟨true, [], 6⟩, ⟨true, [1, 2, 3, 4], 2⟩, ⟨true, [], 4⟩, ⟨true, [], 8⟩,
        ⟨true, [5, 6, 7, 8, 9, 10], 2⟩] ∧
    ConcurrentRingBuffer.observe (0 + 1)
        (ConcurrentRingBuffer.fresh 3 (fun _ => 255) staleStamps) tameCalls =
      some (RingBuffer.observe (RingBuffer.fresh 3 zeroed) tameCalls) :=
  ⟨by decide, new_fresh_of_le 3 zeroed (by decide),
    crb_new_fresh_of_le 3 (fun _ => 255) staleStamps (by decide), by decide, by decide,
    crb_agrees_with_serial 8 zeroed (fun _ => 255) staleStamps (RingBuffer.fresh 3 zeroed)
      (ConcurrentRingBuffer.fresh 3 (fun _ => 255) staleStamps) tameCalls 0 (by decide)
      (new_fresh_of_le 3 zeroed (by decide))
      (crb_new_fresh_of_le 3 (fun _ => 255) staleStamps (by decide)) (by decide)⟩

/-- Counterexample to C15 as stated.  On a fresh concurrent buffer of size 8,
after the one byte 1 is enqueued successfully, a dequeue into a span of length
2 returns true, hands back `[1, 0]` although the only byte enqueued and not
yet dequeued is 1, and leaves the dequeue position 2 past the enqueue position
1.  After the successful calls of the wrap-around scenario, whose second
enqueue crosses the end of the buffer, a dequeue of 6 bytes returns true and
hands back `[5,6,7,8,1,2]` although the bytes enqueued and not yet dequeued
are `[5,6,7,8,9,10]`. -/
theorem crb_dequeue_returns_uncommitted_bytes :
    (ConcurrentTrace.run 1 ⟨ConcurrentRingBuffer.fresh 3 zeroed staleStamps, [], []⟩
        [.enqueue ⟨ramp 1, 1⟩]).map (fun t => (t.S, t.R, t.self.GetCount)) =
      some ([1], [], 1) ∧
    (ConcurrentTrace.run 1 ⟨ConcurrentRingBuffer.fresh 3 zeroed staleStamps, [], []⟩
        [.enqueue ⟨ramp 1, 1⟩]).bind
        (fun t =>
          (t.self.TryBulkDequeue ⟨zeroed, 2⟩ 1).map
            (fun d =>
              (d.ret, d.span.bytes, d.self._dequeuePosition, d.self._enqueuePosition,
                d.self.GetCount))) =
      some (true, [1, 0], 2, 1, -1) ∧
    (ConcurrentTrace.run 1 ⟨ConcurrentRingBuffer.fresh 3 zeroed staleStamps, [], []⟩
        wrapCalls).map (fun t => (t.S, t.R, t.self.GetCount)) =
      some ([1, 2, 3, 4, 5, 6, 7, 8, 9, 10], [1, 2, 3, 4], 6) ∧
    (ConcurrentTrace.run 1 ⟨ConcurrentRingBuffer.fresh 3 zeroed staleStamps, [], []⟩
        wrapCalls).bind
        (fun t =>
          (t.self.TryBulkDequeue ⟨zeroed, 6⟩ 1).map (fun d => (d.ret, d.span.bytes))) =
      some (true, [5, 6, 7, 8, 1, 2]) :=
  ⟨by decide, by decide, by decide, by decide⟩

/-- Claim C15, amended.  No torn payload, single-threaded form: for every
concurrent buffer state reached from a fresh buffer by a single-threaded
sequence of enqueues and dequeues in which every span has a length `≥ 0`, no
enqueue that has room claims a byte range crossing the end of the buffer and
every dequeue asks for at most `count` bytes, and for every destination span
of length `L` with `0 ≤ L ≤ count`, `TryBulkDequeue` returns in its first pass,
and if it returns true the `L` bytes it hands back are the next `L` bytes, in
enqueue order, of the bytes accepted by prior successful enqueues and not yet
dequeued, and the dequeue position stays at or below the enqueue position. -/
theorem crb_dequeue_returns_committed_bytes (c : Int) (storage : Int → UInt8)
    (stamps : Int → Int) (start : ConcurrentRingBuffer) (calls : List Call) (fuel : Nat)
    (t : ConcurrentTrace) (dst : ByteSpan) (passes : Nat)
    (hc : 1 ≤ c) (hnew : ConcurrentRingBuffer.new c storage stamps = some start)
    (hfit : Call.AllFit fuel start calls)
    (hrun : ConcurrentTrace.run fuel ⟨start, [], []⟩ calls = some t)
    (h0 : 0 ≤ dst.Length) (hL : dst.Length ≤ t.self.GetCount) :
    ∃ r, t.self.TryBulkDequeue dst (passes + 1) = some r ∧
      (r.ret = true →
        t.R <+: t.S ∧
        r.span.bytes = (t.S.drop t.R.length).take dst.Length.toNat ∧
        r.self._dequeuePosition ≤ r.self._enqueuePosition) := by
  have hstart := crb_new_fresh hc hnew
  subst hstart
  obtain ⟨hinv, hfifo⟩ := ctrace_run fuel calls
    (ConcurrentTrace.mk (ConcurrentRingBuffer.fresh (Nat.clog 2 c.toNat) storage stamps) [] [])
    t (crb_fresh_inv _ _ _)
    (by simp only [crb_fresh_serial, fresh_payload, List.append_nil]) hfit hrun
  obtain ⟨r, hr, hinv2, hser, hspan, hret⟩ := sim_dequeue hinv dst h0 hL passes
  refine ⟨r, hr, fun _ => ⟨⟨_, hfifo⟩, ?_, ?_⟩⟩
  · rw [hspan, (payload_dequeue t.self.serial dst h0 hL).1, ← hfifo, List.drop_left]
  · obtain ⟨-, -, -, hDE, -⟩ := hinv2
    exact hDE

/-- Witness for the amended C15: six of the eight live bytes of a buffer of
size 8 with `D = 4`, read across the end of the buffer. -/
theorem crb_dequeue_returns_committed_bytes_witness :
    (1 : Int) ≤ 8 ∧
    ConcurrentRingBuffer.new 8 zeroed staleStamps =
      some (ConcurrentRingBuffer.fresh 3 zeroed staleStamps) ∧
    Call.AllFit 1 (ConcurrentRingBuffer.fresh 3 zeroed staleStamps) (tameCalls.take 4) ∧
    ConcurrentTrace.run 1 ⟨ConcurrentRingBuffer.fresh 3 zeroed staleStamps, [], []⟩
      (tameCalls.take 4) = some tameTrace ∧
    (0 : Int) ≤ 6 ∧ (6 : Int) ≤ tameTrace.self.GetCount ∧
    (tameTrace.S, tameTrace.R) = ([1, 2, 3, 4, 5, 6, 7, 8, 9, 10, 11, 12], [1, 2, 3, 4]) ∧
    (tameTrace.self.TryBulkDequeue ⟨zeroed, 6⟩ 1).map (fun r => (r.ret, r.span.bytes)) =
      some (true, [5, 6, 7, 8, 9, 10]) ∧
    (∃ r, tameTrace.self.TryBulkDequeue ⟨zeroed, 6⟩ (0 + 1) = some r ∧
      (r.ret = true →
        tameTrace.R <+: tameTrace.S ∧
        r.span.bytes = (tameTrace.S.drop tameTrace.R.length).take (6 : Int).toNat ∧
        r.self._dequeuePosition ≤ r.self._enqueuePosition)) :=
  ⟨by decide, crb_new_fresh_of_le 3 zeroed staleStamps (by decide), by decide, tameTrace_run,
    by decide, by decide, by decide, by decide,
    crb_dequeue_returns_committed_bytes 8 zeroed staleStamps
      (ConcurrentRingBuffer.fresh 3 zeroed staleStamps) (tameCalls.take 4) 1 tameTrace
      ⟨zeroed, 6⟩ 0 (by decide) (crb_new_fresh_of_le 3 zeroed staleStamps (by decide))
      (by decide) tameTrace_run (by decide) (by decide)⟩

/-- Counterexample to C16 as stated.  On a concurrent buffer of capacity 2 that
one enqueue of two bytes (a range that does not cross the end of the buffer)
has filled, `TryBulkEnqueue` with an empty span returns false and writes the
overflow diagnostic although `count + 0 = 2` does not exceed
`GetBufferSize() = 2`. -/
theorem crb_empty_span_on_full_buffer :
    ConcurrentRingBuffer.new 2 zeroed staleStamps =
      some (ConcurrentRingBuffer.fresh 1 zeroed staleStamps) ∧
    Call.AllStayInside 1 (ConcurrentRingBuffer.fresh 1 zeroed staleStamps)
      [.enqueue ⟨ramp 1, 2⟩] ∧
    (ConcurrentRingBuffer.run 1 (ConcurrentRingBuffer.fresh 1 zeroed staleStamps)
        [.enqueue ⟨ramp 1, 2⟩]).bind
        (fun crb =>
          (crb.TryBulkEnqueue ⟨zeroed, 0⟩ 1).map
            (fun r => (r.ret, r.cout, crb.GetCount + 0, crb.GetBufferSize))) =
      some (false, [enqueueOverflowLine], 2, 2) :=
  ⟨crb_new_fresh_of_le 1 zeroed staleStamps (by decide), by decide, by decide⟩

/-- Claim C16, amended.  Concurrent buffer no overcommit, single-threaded form:
for every concurrent buffer state reached from a fresh buffer by
single-threaded enqueues and dequeues whose byte ranges do not cross the end
of the buffer and whose dequeue lengths do not exceed `count`, and for every
span of length `len ≥ 0` other than an empty span offered to a full buffer,
`TryBulkEnqueue` returns in its first pass, and if it returns failure then
`count + len > GetBufferSize()`. -/
theorem crb_no_overcommit (c : Int) (storage : Int → UInt8) (stamps : Int → Int)
    (start crb : ConcurrentRingBuffer) (calls : List Call) (fuel : Nat) (span : ByteSpan)
    (passes : Nat)
    (hc : 1 ≤ c) (hnew : ConcurrentRingBuffer.new c storage stamps = some start)
    (hin : Call.AllStayInside fuel start calls)
    (hrun : ConcurrentRingBuffer.run fuel start calls = some crb)
    (h0 : 0 ≤ span.Length)
    (hne : span.Length ≠ 0 ∨ crb.GetCount < crb.GetBufferSize) :
    ∃ r, crb.TryBulkEnqueue span (passes + 1) = some r ∧
      (r.ret = false → crb.GetCount + span.Length > crb.GetBufferSize) := by
  have hstart := crb_new_fresh hc hnew
  subst hstart
  have hinv := inv_run fuel calls _ crb (crb_fresh_inv _ _ _)
    (allFit_of_allStayInside fuel calls _ hin) hrun
  obtain ⟨r, hr, hfail⟩ := inv_enqueue_returns hinv span passes
  refine ⟨r, hr, fun hret => ?_⟩
  unfold ConcurrentRingBuffer.GetCount ConcurrentRingBuffer.GetBufferSize at hne ⊢
  rcases hfail hret with h | h
  · omega
  · rcases hne with h2 | h2
    · obtain ⟨hk, hm, hD, hDE, hB, hfull, hfree⟩ := hinv
      omega
    · omega


/-- Witness for the amended C16: one byte offered to the full buffer of size 2. -/
theorem crb_no_overcommit_witness :
    (1 : Int) ≤ 2 ∧
    ConcurrentRingBuffer.new 2 zeroed staleStamps =
      some (ConcurrentRingBuffer.fresh 1 zeroed staleStamps) ∧
    Call.AllStayInside 1 (ConcurrentRingBuffer.fresh 1 zeroed staleStamps)
      [.enqueue ⟨ramp 1, 2⟩] ∧
    ConcurrentRingBuffer.run 1 (ConcurrentRingBuffer.fresh 1 zeroed staleStamps)
      [.enqueue ⟨ramp 1, 2⟩] = some fullConcurrent2 ∧
    (0 : Int) ≤ 1 ∧
    ((1 : Int) ≠ 0 ∨ fullConcurrent2.GetCount < fullConcurrent2.GetBufferSize) ∧
    (fullConcurrent2.TryBulkEnqueue ⟨ramp 3, 1⟩ 1).map (fun r => r.ret) = some false ∧
    (∃ r, fullConcurrent2.TryBulkEnqueue ⟨ramp 3, 1⟩ (0 + 1) = some r ∧
      (r.ret = false → fullConcurrent2.GetCount + 1 > fullConcurrent2.GetBufferSize)) :=
  ⟨by decide, crb_new_fresh_of_le 1 zeroed staleStamps (by decide), by decide,
    fullConcurrent2_run, by decide, Or.inl (by decide), by decide,
    crb_no_overcommit 2 zeroed staleStamps (ConcurrentRingBuffer.fresh 1 zeroed staleStamps)
      fullConcurrent2 [.enqueue ⟨ramp 1, 2⟩] 1 ⟨ramp 3, 1⟩ 0 (by decide)
      (crb_new_fresh_of_le 1 zeroed staleStamps (by decide)) (by decide) fullConcurrent2_run
      (by decide) (Or.inl (by decide))⟩

/-- Claim C17.  Concurrent buffer underflow: in every state with `count = 0`
whose slot at the dequeue position carries its producer stamp
(`sequence[D & mask] = D`), and for every destination span, `TryBulkDequeue`
returns false in its first pass, without reaching `SpinOnce`, and leaves the
object (both positions, the buffer bytes, the stamps) and the destination
unchanged; `TryBulkDequeueByte4/8/16/32` do the same for a span of their
length.  The failing pass writes the dequeue diagnostic. -/
theorem crb_underflow (self : ConcurrentRingBuffer) (span : ByteSpan) (fuel : Nat)
    (_hcount : self.GetCount = 0)
    (hstamp : self._sequence (Int.land self._dequeuePosition self._bufferMask) =
      self._dequeuePosition) :
    self.TryBulkDequeue span (fuel + 1) =
      some { ret := false, self := self, span := span, cout := [dequeueOverflowLine] } ∧
    (span.Length = 4 → self.TryBulkDequeueByte4 span (fuel + 1) =
      some { ret := false, self := self, span := span, cout := [dequeueOverflowLine] }) ∧
    (span.Length = 8 → self.TryBulkDequeueByte8 span (fuel + 1) =
      some { ret := false, self := self, span := span, cout := [dequeueOverflowLine] }) ∧
    (span.Length = 16 → self.TryBulkDequeueByte16 span (fuel + 1) =
      some { ret := false, self := self, span := span, cout := [dequeueOverflowLine] }) ∧
    (span.Length = 32 → self.TryBulkDequeueByte32 span (fuel + 1) =
      some { ret := false, self := self, span := span, cout := [dequeueOverflowLine] }) := by
  have hd : self._sequence (Int.land self._dequeuePosition self._bufferMask) -
      (self._dequeuePosition + 1) < 0 := by omega
  have hd0 : ¬ (self._sequence (Int.land self._dequeuePosition self._bufferMask) -
      (self._dequeuePosition + 1) = 0) := by omega
  refine ⟨?_, fun h => ?_, fun h => ?_, fun h => ?_, fun h => ?_⟩
  · exact spinLoop_of_some (dequeuePass_reject self span hd) fuel
  · unfold ConcurrentRingBuffer.TryBulkDequeueByte4
    rw [if_neg (by simp [h])]
    apply spinLoop_of_some
    unfold ConcurrentRingBuffer.TryBulkDequeueByte4Pass
    simp only [hd0, false_and, if_false, hd, if_true]
  · unfold ConcurrentRingBuffer.TryBulkDequeueByte8
    rw [if_neg (by simp [h])]
    apply spinLoop_of_some
    unfold ConcurrentRingBuffer.TryBulkDequeueByte8Pass
    simp only [hd0, false_and, if_false, hd, if_true]
  · unfold ConcurrentRingBuffer.TryBulkDequeueByte16
    rw [if_neg (by simp [h])]
    apply spinLoop_of_some
    unfold ConcurrentRingBuffer.TryBulkDequeueByte16Pass
    simp only [hd0, false_and, if_false, hd, if_true]
  · unfold ConcurrentRingBuffer.TryBulkDequeueByte32
    rw [if_neg (by simp [h])]
    apply spinLoop_of_some
    unfold ConcurrentRingBuffer.TryBulkDequeueByte32Pass
    simp only [hd0, false_and, if_false, hd, if_true]

/-- Witness for C17: a freshly constructed buffer of size 8 and a destination of
four bytes. -/
theorem crb_underflow_witness :
    (ConcurrentRingBuffer.fresh 3 zeroed staleStamps).GetCount = 0 ∧
    (ConcurrentRingBuffer.fresh 3 zeroed staleStamps)._sequence
        (Int.land (ConcurrentRingBuffer.fresh 3 zeroed staleStamps)._dequeuePosition
          (ConcurrentRingBuffer.fresh 3 zeroed staleStamps)._bufferMask) =
      (ConcurrentRingBuffer.fresh 3 zeroed staleStamps)._dequeuePosition ∧
    (ConcurrentRingBuffer.fresh 3 zeroed staleStamps).TryBulkDequeue ⟨zeroed, 4⟩ (0 + 1) =
      some
        { ret := false
          self := ConcurrentRingBuffer.fresh 3 zeroed staleStamps
          span := ⟨zeroed, 4⟩
          cout := [dequeueOverflowLine] } ∧
    (ConcurrentRingBuffer.fresh 3 zeroed staleStamps).TryBulkDequeueByte4 ⟨zeroed, 4⟩ (0 + 1) =
      some
        { ret := false
          self := ConcurrentRingBuffer.fresh 3 zeroed staleStamps
          span := ⟨zeroed, 4⟩
          cout := [dequeueOverflowLine] } :=
  ⟨by decide, by decide,
    (crb_underflow (ConcurrentRingBuffer.fresh 3 zeroed staleStamps) ⟨zeroed, 4⟩ 0 (by decide)
      (by decide)).1,
    (crb_underflow (ConcurrentRingBuffer.fresh 3 zeroed staleStamps) ⟨zeroed, 4⟩ 0 (by decide)
      (by decide)).2.1 rfl⟩

/-- Claim C18 at its failing input.  On every freshly constructed concurrent
buffer (`count = 0`), `Clear(n)` for every `n` and `Clear()` do not return,
however many passes of their loop are run: the slot at the dequeue position
carries its producer stamp, so no pass commits, and the loop has no other
exit. -/
theorem crb_clear_of_fresh_buffer_never_returns (k : Nat) (storage : Int → UInt8)
    (stamps : Int → Int) (n : Int) (fuel : Nat) :
    (ConcurrentRingBuffer.fresh k storage stamps).GetCount = 0 ∧
    (ConcurrentRingBuffer.fresh k storage stamps).ClearN n fuel = none ∧
    (ConcurrentRingBuffer.fresh k storage stamps).Clear fuel = none := by
  have hinv := crb_fresh_inv k storage stamps
  have hd := (inv_dequeue_diff hinv).2 rfl
  have hne : (ConcurrentRingBuffer.fresh k storage stamps)._sequence
      (Int.land (ConcurrentRingBuffer.fresh k storage stamps)._dequeuePosition
        (ConcurrentRingBuffer.fresh k storage stamps)._bufferMask) ≠
      (ConcurrentRingBuffer.fresh k storage stamps)._dequeuePosition + 1 := by omega
  exact ⟨rfl, clearN_spins _ hne fuel n, clearN_spins _ hne fuel _⟩

/-- Counterexample to C19 as stated.  On a fresh buffer `Clear(-1)` moves the
dequeue position from 0 to -1.  In the state that a dequeue of one byte from
a fresh buffer leaves (`D = 1`, `E = 0`), `Clear()` and `Clear(0)` move the
dequeue position from 1 back to 0. -/
theorem positions_not_monotone_counterexample :
    (RingBuffer.fresh 3 zeroed)._dequeuePosition = 0 ∧
    ((RingBuffer.fresh 3 zeroed).ClearN (-1))._dequeuePosition = -1 ∧
    ((RingBuffer.fresh 3 zeroed).TryBulkDequeue ⟨zeroed, 1⟩).self._dequeuePosition = 1 ∧
    ((RingBuffer.fresh 3 zeroed).TryBulkDequeue ⟨zeroed, 1⟩).self.GetCount = -1 ∧
    ((RingBuffer.fresh 3 zeroed).TryBulkDequeue ⟨zeroed, 1⟩).self.Clear._dequeuePosition = 0 ∧
    (((RingBuffer.fresh 3 zeroed).TryBulkDequeue ⟨zeroed, 1⟩).self.ClearN 0)._dequeuePosition =
      0 := by
  decide

/-- Claim C19, amended.  Positions are monotone: in every state,
`TryBulkEnqueue` and `TryBulkDequeue` with a span of length `≥ 0` leave both
positions at or above their values before the call; in every state with
`E ≥ D` so do `Clear()` and `Clear(n)` for every `n ≥ 0`. -/
theorem positions_monotone (self : RingBuffer) (span : ByteSpan) (n : Int)
    (h0 : 0 ≤ span.Length) :
    (self._enqueuePosition ≤ (self.TryBulkEnqueue span).self._enqueuePosition ∧
      self._dequeuePosition ≤ (self.TryBulkEnqueue span).self._dequeuePosition) ∧
    (self._enqueuePosition ≤ (self.TryBulkDequeue span).self._enqueuePosition ∧
      self._dequeuePosition ≤ (self.TryBulkDequeue span).self._dequeuePosition) ∧
    (0 ≤ self.GetCount →
      self._enqueuePosition ≤ self.Clear._enqueuePosition ∧
        self._dequeuePosition ≤ self.Clear._dequeuePosition) ∧
    (0 ≤ self.GetCount → 0 ≤ n →
      self._enqueuePosition ≤ (self.ClearN n)._enqueuePosition ∧
        self._dequeuePosition ≤ (self.ClearN n)._dequeuePosition) := by
  refine ⟨?_, ?_, ?_, ?_⟩
  · unfold RingBuffer.TryBulkEnqueue
    simp only
    split
    · exact ⟨by simp only; omega, le_refl _⟩
    · exact ⟨le_refl _, le_refl _⟩
  · rw [TryBulkDequeue_eq]
    exact ⟨le_refl _, by simp only; omega⟩
  · intro hc
    unfold RingBuffer.GetCount at hc
    unfold RingBuffer.Clear RingBuffer.ClearN
    exact ⟨le_refl _, by simp only; split <;> omega⟩
  · intro hc hn
    unfold RingBuffer.GetCount at hc
    unfold RingBuffer.ClearN
    exact ⟨le_refl _, by simp only; split <;> omega⟩

/-- Witness for the amended C19: spans of two bytes and `Clear(3)` on the buffer
of the wrap-around scenario. -/
theorem positions_monotone_witness :
    (0 : Int) ≤ 2 ∧ 0 ≤ wrapState.GetCount ∧
    (wrapState._dequeuePosition, ((wrapState.ClearN 3)._dequeuePosition)) = (4, 7) ∧
    ((wrapState._enqueuePosition ≤
          (wrapState.TryBulkEnqueue ⟨ramp 1, 2⟩).self._enqueuePosition ∧
        wrapState._dequeuePosition ≤
          (wrapState.TryBulkEnqueue ⟨ramp 1, 2⟩).self._dequeuePosition) ∧
      (wrapState._enqueuePosition ≤
          (wrapState.TryBulkDequeue ⟨ramp 1, 2⟩).self._enqueuePosition ∧
        wrapState._dequeuePosition ≤
          (wrapState.TryBulkDequeue ⟨ramp 1, 2⟩).self._dequeuePosition) ∧
      (0 ≤ wrapState.GetCount →
        wrapState._enqueuePosition ≤ wrapState.Clear._enqueuePosition ∧
          wrapState._dequeuePosition ≤ wrapState.Clear._dequeuePosition) ∧
      (0 ≤ wrapState.GetCount → (0 : Int) ≤ 3 →
        wrapState._enqueuePosition ≤ (wrapState.ClearN 3)._enqueuePosition ∧
          wrapState._dequeuePosition ≤ (wrapState.ClearN 3)._dequeuePosition)) :=
  ⟨by decide, by decide, by decide, positions_monotone wrapState ⟨ramp 1, 2⟩ 3 (by decide)⟩

/-- Claim C20.  Slice convenience overload: in every state and for every
`start`, `Slice(start, first, second)` produces the two spans that
`Slice(start, count, first, second)` produces with `count = E - D` read at the
time of the call; neither overload writes a field of the buffer. -/
theorem slice_overload (self : RingBuffer) (start length : Int) :
    self.SliceFrom start = self.Slice start self.GetCount ∧
    self.SliceFrom start = self.Slice start (self._enqueuePosition - self._dequeuePosition) ∧
    Op.apply self (.Slice start length) = self ∧
    Op.apply self (.SliceFrom start) = self :=
  ⟨rfl, rfl, rfl, rfl⟩

/-! ## The mask projection at every position, and the remaining lemmas -/

/-- The mask projection on a negative position: two's complement. -/
theorem land_mask_negSucc (m k : Nat) :
    Int.land (Int.negSucc m) (2 ^ k - 1) = (Int.negSucc m) % 2 ^ k := by
  have h1 : ((2 : Int) ^ k - 1) = ((2 ^ k - 1 : Nat) : Int) := by
    have : 1 ≤ 2 ^ k := Nat.one_le_two_pow
    push_cast [Nat.cast_sub this]
    rfl
  have hpos : (0 : Int) < 2 ^ k := by positivity
  rw [Int.negSucc_emod m hpos, h1]
  show ((Nat.ldiff (2 ^ k - 1) m : Nat) : Int) = _
  have hlt : m % 2 ^ k < 2 ^ k := Nat.mod_lt _ (by positivity)
  have key : Nat.ldiff (2 ^ k - 1) m = 2 ^ k - (m % 2 ^ k + 1) := by
    apply Nat.eq_of_testBit_eq
    intro i
    rw [Nat.testBit_ldiff, Nat.testBit_two_pow_sub_one, Nat.testBit_two_pow_sub_succ hlt,
      Nat.testBit_mod_two_pow]
    by_cases hi : i < k <;> simp [hi]
  rw [key]
  have : ((m : Int) % 2 ^ k) = ((m % 2 ^ k : Nat) : Int) := by push_cast; rfl
  rw [this]
  have h2 : ((2 ^ k - 1 : Nat) : Int) = (2 : Int) ^ k - 1 := h1.symm
  rw [h2]
  have h3 : ((2 ^ k - (m % 2 ^ k + 1) : Nat) : Int) = (2 : Int) ^ k - ((m % 2 ^ k : Nat) + 1) := by
    rw [Nat.cast_sub (by omega)]
    push_cast
    rfl
  rw [h3]
  omega

/-- The mask projection is the remainder modulo the size, for every position. -/
theorem land_mask_eq_emod_int (p : Int) (k : Nat) : Int.land p (2 ^ k - 1) = p % 2 ^ k := by
  cases p with
  | ofNat n => exact land_mask_eq_emod (Int.ofNat n) k (Int.ofNat_nonneg n)
  | negSucc m => exact land_mask_negSucc m k

theorem spinLoop_map {α β : Type} (f : α → β) (pass : Option α) (fuel : Nat) :
    (spinLoop pass fuel).map f = spinLoop (pass.map f) fuel := by
  induction fuel with
  | zero => rfl
  | succ fuel ih =>
    cases pass with
    | none => exact ih
    | some r => rfl

theorem crb_TryBulkDequeueByteN_eq (self : ConcurrentRingBuffer) (span : ByteSpan) (fuel : Nat) :
    (span.Length = 4 → self.TryBulkDequeueByte4 span fuel = self.TryBulkDequeue span fuel) ∧
    (span.Length = 8 → self.TryBulkDequeueByte8 span fuel = self.TryBulkDequeue span fuel) ∧
    (span.Length = 16 → self.TryBulkDequeueByte16 span fuel = self.TryBulkDequeue span fuel) ∧
    (span.Length = 32 → self.TryBulkDequeueByte32 span fuel = self.TryBulkDequeue span fuel) := by
  obtain ⟨ptr, len⟩ := span
  refine ⟨fun h => ?_, fun h => ?_, fun h => ?_, fun h => ?_⟩ <;>
    · simp only at h
      subst h
      rfl

/-- The unrolled enqueue passes of the concurrent buffer differ from the
general pass in the diagnostic only. -/
theorem crb_TryBulkEnqueueByteNPass_eq (self : ConcurrentRingBuffer) (span : ByteSpan) :
    (span.Length = 4 →
      (self.TryBulkEnqueueByte4Pass span).map (fun r => (r.ret, r.self)) =
        (self.TryBulkEnqueuePass span).map (fun r => (r.ret, r.self))) ∧
    (span.Length = 8 →
      (self.TryBulkEnqueueByte8Pass span).map (fun r => (r.ret, r.self)) =
        (self.TryBulkEnqueuePass span).map (fun r => (r.ret, r.self))) ∧
    (span.Length = 16 →
      (self.TryBulkEnqueueByte16Pass span).map (fun r => (r.ret, r.self)) =
        (self.TryBulkEnqueuePass span).map (fun r => (r.ret, r.self))) ∧
    (span.Length = 32 →
      (self.TryBulkEnqueueByte32Pass span).map (fun r => (r.ret, r.self)) =
        (self.TryBulkEnqueuePass span).map (fun r => (r.ret, r.self))) := by
  obtain ⟨ptr, len⟩ := span
  refine ⟨fun h => ?_, fun h => ?_, fun h => ?_, fun h => ?_⟩
  · simp only at h
    subst h
    unfold ConcurrentRingBuffer.TryBulkEnqueueByte4Pass ConcurrentRingBuffer.TryBulkEnqueuePass
    simp only
    split
    · rfl
    · split <;> rfl
  · simp only at h
    subst h
    unfold ConcurrentRingBuffer.TryBulkEnqueueByte8Pass ConcurrentRingBuffer.TryBulkEnqueuePass
    simp only
    split
    · rfl
    · split <;> rfl
  · simp only at h
    subst h
    unfold ConcurrentRingBuffer.TryBulkEnqueueByte16Pass ConcurrentRingBuffer.TryBulkEnqueuePass
    simp only
    split
    · rfl
    · split <;> rfl
  · simp only at h
    subst h
    unfold ConcurrentRingBuffer.TryBulkEnqueueByte32Pass ConcurrentRingBuffer.TryBulkEnqueuePass
    simp only
    split
    · rfl
    · split <;> rfl

theorem cfg_land_eq {self : ConcurrentRingBuffer} (hcfg : self.Configured) (p : Int) :
    Int.land p self._bufferMask = p % self._bufferSize := by
  obtain ⟨⟨k, hk⟩, hm⟩ := hcfg
  rw [hm, hk]
  exact land_mask_eq_emod_int p k

theorem cfg_size_pos {self : ConcurrentRingBuffer} (hcfg : self.Configured) :
    0 < self._bufferSize := by
  obtain ⟨⟨k, hk⟩, -⟩ := hcfg
  rw [hk]; positivity

theorem cfg_land_ne {self : ConcurrentRingBuffer} (hcfg : self.Configured) (p q : Int)
    (hpq : p < q) (hq : q < p + self._bufferSize) :
    Int.land p self._bufferMask ≠ Int.land q self._bufferMask := by
  rw [cfg_land_eq hcfg p, cfg_land_eq hcfg q]
  exact emod_ne_of_lt _ p q hpq hq

theorem cfg_land_add_size {self : ConcurrentRingBuffer} (hcfg : self.Configured) (p : Int) :
    Int.land (p + self._bufferSize) self._bufferMask = Int.land p self._bufferMask := by
  rw [cfg_land_eq hcfg, cfg_land_eq hcfg]
  exact emod_add_self _ p

theorem inv_configured {self : ConcurrentRingBuffer} (hinv : self.Inv) : self.Configured :=
  ⟨hinv.1, hinv.2.1⟩

/-- The stamps after the committed loop of `Clear(int)`, at an index it writes. -/
theorem clearCommitLoop_hit (m index position : Int) (length : Int) (sequence : Int → Int)
    (i : Nat) (hi : (i : Int) < length) :
    clearCommitLoop m index position length sequence (index + i) = position + m + 1 + i := by
  unfold clearCommitLoop
  have key : ∀ n : Nat, i < n → ((List.range n).foldl
      (fun s (i : Nat) =>
        Function.update s (index + (i : Int)) (position + m + 1 + (i : Int))) sequence)
        (index + i) = position + m + 1 + i := by
    intro n
    induction n with
    | zero => intro h; omega
    | succ n ih =>
      intro hin
      rw [List.range_succ, List.foldl_append]
      simp only [List.foldl_cons, List.foldl_nil]
      by_cases h : i = n
      · subst h; simp
      · rw [Function.update_noteq (by omega)]
        exact ih (by omega)
  exact key _ (by omega)

/-- The stamps after the committed loop of `Clear(int)`, at an index it does not write. -/
theorem clearCommitLoop_miss (m index position : Int) (length : Int) (sequence : Int → Int)
    (x : Int) (hx : ∀ i : Nat, (i : Int) < length → x ≠ index + i) :
    clearCommitLoop m index position length sequence x = sequence x := by
  unfold clearCommitLoop
  have key : ∀ n : Nat, n ≤ length.toNat → ((List.range n).foldl
      (fun s (i : Nat) =>
        Function.update s (index + (i : Int)) (position + m + 1 + (i : Int))) sequence) x
        = sequence x := by
    intro n
    induction n with
    | zero => simp
    | succ n ih =>
      intro hn
      rw [List.range_succ, List.foldl_append]
      simp only [List.foldl_cons, List.foldl_nil]
      rw [Function.update_noteq (hx n (by omega))]
      exact ih (by omega)
  exact key _ le_rfl

/-- A pass of `Clear(int)` that finds the slot at the dequeue position filled
commits. -/
theorem clearN_commit (self : ConcurrentRingBuffer) (length : Int) (fuel : Nat)
    (hdiff : self._sequence (Int.land self._dequeuePosition self._bufferMask) -
      (self._dequeuePosition + 1) = 0) :
    self.ClearN length (fuel + 1) =
      some
        { self with
          _dequeuePosition := self._dequeuePosition + min length self.GetCount
          _sequence := clearCommitLoop self._bufferMask
            (Int.land self._dequeuePosition self._bufferMask) self._dequeuePosition
            (min length self.GetCount) self._sequence } := by
  unfold ConcurrentRingBuffer.ClearN compareExchange ConcurrentRingBuffer.GetCount
  have hmin : (if length ≤ self._enqueuePosition - self._dequeuePosition then length
      else self._enqueuePosition - self._dequeuePosition) =
      min length (self._enqueuePosition - self._dequeuePosition) := by
    split
    · rw [min_eq_left]; assumption
    · rw [min_eq_right]; omega
  simp only [hdiff, if_true, and_self, hmin]

/-- The committed branch of `Clear(int)` keeps the stamps in agreement with the
positions when the range it frees has a length in `[0, count]` and does not
cross the end of the buffer. -/
theorem inv_clear_commit {self : ConcurrentRingBuffer} (hinv : self.Inv) (len : Int)
    (h0 : 0 ≤ len) (hL : len ≤ self._enqueuePosition - self._dequeuePosition)
    (hin : Int.land self._dequeuePosition self._bufferMask + len ≤ self._bufferSize) :
    ({ self with
        _dequeuePosition := self._dequeuePosition + len
        _sequence := clearCommitLoop self._bufferMask
          (Int.land self._dequeuePosition self._bufferMask) self._dequeuePosition len
          self._sequence } : ConcurrentRingBuffer).Inv := by
  obtain ⟨hk, hm, hD, hDE, hB, hfull, hfree⟩ := id hinv
  refine ⟨hk, hm, by simp only; omega, by simp only; omega, by simp only; omega, ?_, ?_⟩
  · intro j hj1 hj2
    simp only at hj1 hj2 ⊢
    rw [clearCommitLoop_miss]
    · exact hfull j (by omega) hj2
    · intro i hi
      rw [inv_land_add hinv _ i hD (by omega) (by omega)]
      exact (inv_land_ne hinv _ j (by omega) (by omega) (by omega)).symm
  · intro j hj1 hj2
    simp only at hj1 hj2 ⊢
    by_cases hjB : j < self._dequeuePosition + self._bufferSize
    · rw [clearCommitLoop_miss]
      · exact hfree j hj1 hjB
      · intro i hi
        rw [inv_land_add hinv _ i hD (by omega) (by omega)]
        exact (inv_land_ne hinv _ j (by omega) (by omega) (by omega)).symm
    · have hi : ((j - self._dequeuePosition - self._bufferSize).toNat : Int) < len := by
        omega
      have hidx : Int.land j self._bufferMask =
          Int.land self._dequeuePosition self._bufferMask +
            ((j - self._dequeuePosition - self._bufferSize).toNat : Int) := by
        rw [inv_land_add hinv _ _ hD (by omega) (by omega),
          ← inv_land_add_size hinv (self._dequeuePosition +
            ((j - self._dequeuePosition - self._bufferSize).toNat : Int)) (by omega)]
        congr 1
        omega
      rw [hidx, clearCommitLoop_hit _ _ _ _ _ _ hi]
      omega

/-- A permitted operation keeps the stamps in agreement with the positions. -/
theorem inv_apply {self next : ConcurrentRingBuffer} (hinv : self.Inv) (fuel : Nat)
    (op : ConcurrentOp) (hperm : ConcurrentOp.Permitted self op)
    (happly : ConcurrentOp.apply fuel self op = some next) : next.Inv := by
  cases op with
  | TryBulkEnqueue span => exact inv_step hinv fuel (.enqueue span) hperm happly
  | TryBulkDequeue span => exact inv_step hinv fuel (.dequeue span) hperm happly
  | ClearN length =>
    obtain ⟨h0, hcount, hin⟩ := hperm
    cases fuel with
    | zero => exact absurd happly (by simp [ConcurrentOp.apply, ConcurrentRingBuffer.ClearN])
    | succ fuel =>
      unfold ConcurrentRingBuffer.GetCount at hcount
      have hdiff := (inv_dequeue_diff hinv).1 (by omega)
      simp only [ConcurrentOp.apply] at happly
      rw [clearN_commit self length fuel hdiff] at happly
      rw [← Option.some.inj happly]
      refine inv_clear_commit hinv _ (le_min h0 (by unfold ConcurrentRingBuffer.GetCount; omega))
        (min_le_right _ _) hin

theorem inv_ops_run (fuel : Nat) (ops : List ConcurrentOp) :
    ∀ self crb : ConcurrentRingBuffer, self.Inv → ConcurrentOp.AllPermitted fuel self ops →
      ConcurrentOp.run fuel self ops = some crb → crb.Inv := by
  induction ops with
  | nil =>
    intro self crb hinv _ hrun
    simp only [ConcurrentOp.run] at hrun
    rw [← Option.some.inj hrun]
    exact hinv
  | cons op rest ih =>
    intro self crb hinv hperm hrun
    unfold ConcurrentOp.AllPermitted at hperm
    unfold ConcurrentOp.run at hrun
    cases happly : ConcurrentOp.apply fuel self op with
    | none => rw [happly] at hrun; exact absurd hrun (by simp)
    | some next =>
      rw [happly] at hperm hrun
      exact ih next crb (inv_apply hinv fuel op hperm.1 happly) hperm.2 hrun

/-! ## Diagnostics and the stamp invariant: the claims -/

/-- Counterexample to C21 as stated.  A concurrent buffer constructed with
capacity 2 is offered four bytes, more than its free capacity `B - count = 2`:
`TryBulkEnqueue` returns false and writes the overflow line, while
`TryBulkEnqueueByte4` returns false for the same reason and writes nothing.
`TryBulkEnqueueByte8` does the same with eight bytes. -/
theorem crb_specialized_overflow_is_silent :
    ConcurrentRingBuffer.new 2 zeroed staleStamps =
      some (ConcurrentRingBuffer.fresh 1 zeroed staleStamps) ∧
    (ConcurrentRingBuffer.fresh 1 zeroed staleStamps).GetBufferSize -
      (ConcurrentRingBuffer.fresh 1 zeroed staleStamps).GetCount = 2 ∧
    ((ConcurrentRingBuffer.fresh 1 zeroed staleStamps).TryBulkEnqueue ⟨ramp 1, 4⟩ 1).map
        (fun r => (r.ret, r.cout)) = some (false, [enqueueOverflowLine]) ∧
    ((ConcurrentRingBuffer.fresh 1 zeroed staleStamps).TryBulkEnqueueByte4 ⟨ramp 1, 4⟩ 1).map
        (fun r => (r.ret, r.cout)) = some (false, []) ∧
    ((ConcurrentRingBuffer.fresh 1 zeroed staleStamps).TryBulkEnqueueByte8 ⟨ramp 1, 8⟩ 1).map
        (fun r => (r.ret, r.cout)) = some (false, []) :=
  ⟨crb_new_fresh_of_le 1 zeroed staleStamps (by decide), by decide, by decide, by decide,
    by decide⟩

/-- Claim C21, amended.  Overflow diagnostic: when the span length exceeds the
free capacity `B - count`, `TryBulkEnqueue` and `TryBulkEnqueueByte4/8/16/32`
of the serial buffer (the latter for a span of their length) return false and
write exactly one overflow line; `TryBulkEnqueue` of the concurrent buffer
returns false in its first pass, leaves the object unchanged and writes
exactly one overflow line; `TryBulkEnqueueByte4/8/16/32` of the concurrent
buffer return false in their first pass, leave the object unchanged and write
nothing.  A call of any of these entry points that returns true writes
nothing. -/
theorem overflow_diagnostic (rb : RingBuffer) (crb : ConcurrentRingBuffer)
    (span other : ByteSpan) (fuel : Nat)
    (hrb : span.Length > rb.GetBufferSize - rb.GetCount)
    (hcrb : span.Length > crb.GetBufferSize - crb.GetCount) :
    ((rb.TryBulkEnqueue span).ret = false ∧
      (rb.TryBulkEnqueue span).cout = [enqueueOverflowLine]) ∧
    (span.Length = 4 → (rb.TryBulkEnqueueByte4 span).ret = false ∧
      (rb.TryBulkEnqueueByte4 span).cout = [enqueueOverflowLine]) ∧
    (span.Length = 8 → (rb.TryBulkEnqueueByte8 span).ret = false ∧
      (rb.TryBulkEnqueueByte8 span).cout = [enqueueOverflowLine]) ∧
    (span.Length = 16 → (rb.TryBulkEnqueueByte16 span).ret = false ∧
      (rb.TryBulkEnqueueByte16 span).cout = [enqueueOverflowLine]) ∧
    (span.Length = 32 → (rb.TryBulkEnqueueByte32 span).ret = false ∧
      (rb.TryBulkEnqueueByte32 span).cout = [enqueueOverflowLine]) ∧
    crb.TryBulkEnqueue span (fuel + 1) =
      some { ret := false, self := crb, cout := [enqueueOverflowLine] } ∧
    (span.Length = 4 → crb.TryBulkEnqueueByte4 span (fuel + 1) =
      some { ret := false, self := crb, cout := [] }) ∧
    (span.Length = 8 → crb.TryBulkEnqueueByte8 span (fuel + 1) =
      some { ret := false, self := crb, cout := [] }) ∧
    (span.Length = 16 → crb.TryBulkEnqueueByte16 span (fuel + 1) =
      some { ret := false, self := crb, cout := [] }) ∧
    (span.Length = 32 → crb.TryBulkEnqueueByte32 span (fuel + 1) =
      some { ret := false, self := crb, cout := [] }) ∧
    ((rb.TryBulkEnqueue other).ret = true → (rb.TryBulkEnqueue other).cout = []) ∧
    ((rb.TryBulkEnqueueByte4 other).ret = true → (rb.TryBulkEnqueueByte4 other).cout = []) ∧
    ((rb.TryBulkEnqueueByte8 other).ret = true → (rb.TryBulkEnqueueByte8 other).cout = []) ∧
    ((rb.TryBulkEnqueueByte16 other).ret = true → (rb.TryBulkEnqueueByte16 other).cout = []) ∧
    ((rb.TryBulkEnqueueByte32 other).ret = true → (rb.TryBulkEnqueueByte32 other).cout = []) ∧
    (∀ r, crb.TryBulkEnqueue other fuel = some r → r.ret = true → r.cout = []) ∧
    (∀ r, crb.TryBulkEnqueueByte4 other fuel = some r → r.cout = []) ∧
    (∀ r, crb.TryBulkEnqueueByte8 other fuel = some r → r.cout = []) ∧
    (∀ r, crb.TryBulkEnqueueByte16 other fuel = some r → r.cout = []) ∧
    (∀ r, crb.TryBulkEnqueueByte32 other fuel = some r → r.cout = []) := by
  unfold RingBuffer.GetBufferSize RingBuffer.GetCount at hrb
  unfold ConcurrentRingBuffer.GetBufferSize ConcurrentRingBuffer.GetCount at hcrb
  have hser : (rb.TryBulkEnqueue span).ret = false ∧
      (rb.TryBulkEnqueue span).cout = [enqueueOverflowLine] := by
    unfold RingBuffer.TryBulkEnqueue
    simp only [if_neg (not_le.mpr hrb), and_self]
  have hserOk : ∀ s : ByteSpan, (rb.TryBulkEnqueue s).ret = true →
      (rb.TryBulkEnqueue s).cout = [] := by
    intro s
    unfold RingBuffer.TryBulkEnqueue
    simp only
    split <;> simp
  have hno : ¬ (crb._sequence (Int.land crb._enqueuePosition crb._bufferMask) -
        crb._enqueuePosition = 0 ∧
      span.Length ≤ crb._bufferSize - (crb._enqueuePosition - crb._dequeuePosition)) :=
    fun h => absurd h.2 (not_le.mpr hcrb)
  have hN := And.intro (TryBulkEnqueueByte4_eq rb span) (And.intro (TryBulkEnqueueByte8_eq rb span) (And.intro (TryBulkEnqueueByte16_eq rb span) (TryBulkEnqueueByte32_eq rb span)))
  refine ⟨hser, ?_, ?_, ?_, ?_, ?_, ?_, ?_, ?_, ?_, ?_, ?_, ?_, ?_, ?_, ?_, ?_, ?_, ?_, ?_⟩
  · intro h; rw [hN.1 h]; exact hser
  · intro h; rw [hN.2.1 h]; exact hser
  · intro h; rw [hN.2.2.1 h]; exact hser
  · intro h; rw [hN.2.2.2 h]; exact hser
  · exact spinLoop_of_some (enqueuePass_reject crb span hno (Or.inr hcrb)) fuel
  · intro h
    unfold ConcurrentRingBuffer.TryBulkEnqueueByte4
    rw [if_neg (by simp [h])]
    apply spinLoop_of_some
    unfold ConcurrentRingBuffer.TryBulkEnqueueByte4Pass
    simp only [not_le.mpr hcrb, false_and, and_false, if_false, hcrb, or_true, if_true]
  · intro h
    unfold ConcurrentRingBuffer.TryBulkEnqueueByte8
    rw [if_neg (by simp [h])]
    apply spinLoop_of_some
    unfold ConcurrentRingBuffer.TryBulkEnqueueByte8Pass
    simp only [not_le.mpr hcrb, false_and, and_false, if_false, hcrb, or_true, if_true]
  · intro h
    unfold ConcurrentRingBuffer.TryBulkEnqueueByte16
    rw [if_neg (by simp [h])]
    apply spinLoop_of_some
    unfold ConcurrentRingBuffer.TryBulkEnqueueByte16Pass
    simp only [not_le.mpr hcrb, false_and, and_false, if_false, hcrb, or_true, if_true]
  · intro h
    unfold ConcurrentRingBuffer.TryBulkEnqueueByte32
    rw [if_neg (by simp [h])]
    apply spinLoop_of_some
    unfold ConcurrentRingBuffer.TryBulkEnqueueByte32Pass
    simp only [not_le.mpr hcrb, false_and, and_false, if_false, hcrb, or_true, if_true]
  · exact hserOk other
  · by_cases h : other.Length = 4
    · rw [TryBulkEnqueueByte4_eq rb other h]; exact hserOk other
    · rw [TryBulkEnqueueByte4_mismatch rb other h]; intro _; rfl
  · by_cases h : other.Length = 8
    · rw [TryBulkEnqueueByte8_eq rb other h]; exact hserOk other
    · rw [TryBulkEnqueueByte8_mismatch rb other h]; intro _; rfl
  · by_cases h : other.Length = 16
    · rw [TryBulkEnqueueByte16_eq rb other h]; exact hserOk other
    · rw [TryBulkEnqueueByte16_mismatch rb other h]; intro _; rfl
  · by_cases h : other.Length = 32
    · rw [TryBulkEnqueueByte32_eq rb other h]; exact hserOk other
    · rw [TryBulkEnqueueByte32_mismatch rb other h]; intro _; rfl
  · intro r hr hret
    have hpass := spinLoop_eq_some hr
    unfold ConcurrentRingBuffer.TryBulkEnqueuePass at hpass
    simp only at hpass
    split at hpass
    · rw [← Option.some.inj hpass]
    · split at hpass
      · rw [← Option.some.inj hpass] at hret
        exact absurd hret (by simp)
      · exact absurd hpass (by simp)
  · intro r hr
    unfold ConcurrentRingBuffer.TryBulkEnqueueByte4 at hr
    split at hr
    · rw [← Option.some.inj hr]
    · have hpass := spinLoop_eq_some hr
      unfold ConcurrentRingBuffer.TryBulkEnqueueByte4Pass at hpass
      simp only at hpass
      split at hpass
      · rw [← Option.some.inj hpass]
      · split at hpass
        · rw [← Option.some.inj hpass]
        · exact absurd hpass (by simp)
  · intro r hr
    unfold ConcurrentRingBuffer.TryBulkEnqueueByte8 at hr
    split at hr
    · rw [← Option.some.inj hr]
    · have hpass := spinLoop_eq_some hr
      unfold ConcurrentRingBuffer.TryBulkEnqueueByte8Pass at hpass
      simp only at hpass
      split at hpass
      · rw [← Option.some.inj hpass]
      · split at hpass
        · rw [← Option.some.inj hpass]
        · exact absurd hpass (by simp)
  · intro r hr
    unfold ConcurrentRingBuffer.TryBulkEnqueueByte16 at hr
    split at hr
    · rw [← Option.some.inj hr]
    · have hpass := spinLoop_eq_some hr
      unfold ConcurrentRingBuffer.TryBulkEnqueueByte16Pass at hpass
      simp only at hpass
      split at hpass
      · rw [← Option.some.inj hpass]
      · split at hpass
        · rw [← Option.some.inj hpass]
        · exact absurd hpass (by simp)
  · intro r hr
    unfold ConcurrentRingBuffer.TryBulkEnqueueByte32 at hr
    split at hr
    · rw [← Option.some.inj hr]
    · have hpass := spinLoop_eq_some hr
      unfold ConcurrentRingBuffer.TryBulkEnqueueByte32Pass at hpass
      simp only at hpass
      split at hpass
      · rw [← Option.some.inj hpass]
      · split at hpass
        · rw [← Option.some.inj hpass]
        · exact absurd hpass (by simp)

/-- Witness for the amended C21: four bytes offered to the full serial buffer
of size 4 and to a fresh concurrent buffer of size 2. -/
theorem overflow_diagnostic_witness :
    (4 : Int) > full4.GetBufferSize - full4.GetCount ∧
    (4 : Int) > (ConcurrentRingBuffer.fresh 1 zeroed staleStamps).GetBufferSize -
      (ConcurrentRingBuffer.fresh 1 zeroed staleStamps).GetCount ∧
    ((full4.TryBulkEnqueue ⟨ramp 5, 4⟩).ret = false ∧
      (full4.TryBulkEnqueue ⟨ramp 5, 4⟩).cout = [enqueueOverflowLine]) ∧
    (ConcurrentRingBuffer.fresh 1 zeroed staleStamps).TryBulkEnqueue ⟨ramp 5, 4⟩ (0 + 1) =
      some
        { ret := false
          self := ConcurrentRingBuffer.fresh 1 zeroed staleStamps
          cout := [enqueueOverflowLine] } ∧
    (ConcurrentRingBuffer.fresh 1 zeroed staleStamps).TryBulkEnqueueByte4 ⟨ramp 5, 4⟩ (0 + 1) =
      some { ret := false, self := ConcurrentRingBuffer.fresh 1 zeroed staleStamps, cout := [] } :=
  ⟨by decide, by decide,
    (overflow_diagnostic full4 (ConcurrentRingBuffer.fresh 1 zeroed staleStamps) ⟨ramp 5, 4⟩
      ⟨ramp 1, 1⟩ 0 (by decide) (by decide)).1,
    (overflow_diagnostic full4 (ConcurrentRingBuffer.fresh 1 zeroed staleStamps) ⟨ramp 5, 4⟩
      ⟨ramp 1, 1⟩ 0 (by decide) (by decide)).2.2.2.2.2.1,
    (overflow_diagnostic full4 (ConcurrentRingBuffer.fresh 1 zeroed staleStamps) ⟨ramp 5, 4⟩
      ⟨ramp 1, 1⟩ 0 (by decide) (by decide)).2.2.2.2.2.2.1 rfl⟩

/-- Claim C23 at its failing input.  A concurrent buffer constructed with
capacity 8 takes the bytes 1 to 6 and gives back 4 of them; it is then
quiescent with `count = 2`, enqueue position `p = 6` and
`sequence[p & mask] = p`.  A span of the four bytes 7 to 10 has
`0 ≤ L ≤ B - count` and `(p & mask) + L = 10 > B`.  The committed
`TryBulkEnqueue` returns true and writes the bytes 9 and 10 and the stamps 9
and 10 at the indices 8 and 9, outside `[0, B)`, while the slots
`(p + 2) & mask = 0` and `(p + 3) & mask = 1` keep the bytes 1 and 2 and the
stamps 8 and 9 instead of `src[2] = 9`, `src[3] = 10` and the stamps
`p + 1 + 2 = 9` and `p + 1 + 3 = 10`.  `TryBulkEnqueueByte4` leaves the same
object. -/
theorem crb_enqueue_commit_writes_outside_buffer :
    ConcurrentRingBuffer.new 8 zeroed staleStamps =
      some (ConcurrentRingBuffer.fresh 3 zeroed staleStamps) ∧
    ConcurrentRingBuffer.run 1 (ConcurrentRingBuffer.fresh 3 zeroed staleStamps)
      (wrapCalls.take 2) = some beforeWrap ∧
    (beforeWrap.GetBufferSize, beforeWrap.GetCount, beforeWrap._enqueuePosition,
      Int.land beforeWrap._enqueuePosition beforeWrap._bufferMask,
      beforeWrap._sequence (Int.land beforeWrap._enqueuePosition beforeWrap._bufferMask)) =
      (8, 2, 6, 6, 6) ∧
    (beforeWrap._buffer 8, beforeWrap._buffer 9, beforeWrap._sequence 8,
      beforeWrap._sequence 9) = (0, 0, -1, -1) ∧
    (Int.land (6 + 2) beforeWrap._bufferMask, Int.land (6 + 3) beforeWrap._bufferMask,
      ramp 7 2, ramp 7 3) = (0, 1, 9, 10) ∧
    (beforeWrap.TryBulkEnqueue ⟨ramp 7, 4⟩ 1).map
        (fun r =>
          (r.ret, r.self._buffer 8, r.self._buffer 9, r.self._sequence 8, r.self._sequence 9)) =
      some (true, 9, 10, 9, 10) ∧
    (beforeWrap.TryBulkEnqueue ⟨ramp 7, 4⟩ 1).map
        (fun r =>
          (r.self._buffer 0, r.self._buffer 1, r.self._sequence 0, r.self._sequence 1)) =
      some (1, 2, 8, 9) ∧
    (beforeWrap.TryBulkEnqueueByte4 ⟨ramp 7, 4⟩ 1).map (fun r => (r.ret, r.self)) =
      (beforeWrap.TryBulkEnqueue ⟨ramp 7, 4⟩ 1).map (fun r => (r.ret, r.self)) :=
  ⟨crb_new_fresh_of_le 3 zeroed staleStamps (by decide), rfl, by decide, by decide, by decide,
    by decide, by decide, rfl⟩

/-- Claim C24.  Concurrent dequeue commit: in every state of the concurrent
buffer (size a power of two, mask the size minus one) with dequeue position
`p` and `sequence[p & mask] = p + 1`, and for every destination span of length
`L` with `0 ≤ L ≤ B`, `TryBulkDequeue` run without other threads returns true
in its first pass, sets `dst[i] = buffer[(p + i) & mask]` and
`sequence[(p + i) & mask] = p + B + i` for every `i` in `[0, L)`, sets the
dequeue position to `p + L`, leaves the buffer bytes, the enqueue position,
the size and the mask unchanged and writes no diagnostic;
`TryBulkDequeueByte4/8/16/32` give the same result for a span of their
length. -/
theorem crb_dequeue_commit (self : ConcurrentRingBuffer) (span : ByteSpan) (fuel : Nat)
    (hcfg : self.Configured)
    (hstamp : self._sequence (Int.land self._dequeuePosition self._bufferMask) =
      self._dequeuePosition + 1)
    (_h0 : 0 ≤ span.Length) (hL : span.Length ≤ self._bufferSize) :
    ∃ r, self.TryBulkDequeue span (fuel + 1) = some r ∧ r.ret = true ∧
      (∀ i : Nat, (i : Int) < span.Length →
        r.span.Pointer i =
          self._buffer (Int.land (self._dequeuePosition + i) self._bufferMask) ∧
        r.self._sequence (Int.land (self._dequeuePosition + i) self._bufferMask) =
          self._dequeuePosition + self._bufferSize + i) ∧
      r.self._dequeuePosition = self._dequeuePosition + span.Length ∧
      r.self._buffer = self._buffer ∧
      r.self._enqueuePosition = self._enqueuePosition ∧
      r.self._bufferSize = self._bufferSize ∧
      r.self._bufferMask = self._bufferMask ∧
      r.cout = [] ∧
      (span.Length = 4 → self.TryBulkDequeueByte4 span (fuel + 1) = some r) ∧
      (span.Length = 8 → self.TryBulkDequeueByte8 span (fuel + 1) = some r) ∧
      (span.Length = 16 → self.TryBulkDequeueByte16 span (fuel + 1) = some r) ∧
      (span.Length = 32 → self.TryBulkDequeueByte32 span (fuel + 1) = some r) := by
  have hdiff : self._sequence (Int.land self._dequeuePosition self._bufferMask) -
      (self._dequeuePosition + 1) = 0 := by omega
  have hr := spinLoop_of_some (dequeuePass_commit self span hdiff) fuel
  have hN := crb_TryBulkDequeueByteN_eq self span (fuel + 1)
  refine ⟨_, hr, rfl, ?_, rfl, rfl, rfl, rfl, rfl, rfl, ?_, ?_, ?_, ?_⟩
  · intro i hi
    constructor
    · simp only [dequeueCommitLoop_fst, loadLoop_apply, if_pos hi]
    · simp only
      rw [dequeueCommitLoop_stamp_hit _ _ _ _ _ i hi]
      · rw [hcfg.2]; omega
      · intro i2 h1 h2
        exact (cfg_land_ne hcfg _ _ (by omega) (by omega)).symm
  · intro h; rw [hN.1 h]; exact hr
  · intro h; rw [hN.2.1 h]; exact hr
  · intro h; rw [hN.2.2.1 h]; exact hr
  · intro h; rw [hN.2.2.2 h]; exact hr

/-- Witness for C24: four bytes dequeued from the buffer of size 8 with `D = 4`
and `E = 6`, by `TryBulkDequeue` and by `TryBulkDequeueByte4`. -/
theorem crb_dequeue_commit_witness :
    beforeWrap.Configured ∧
    beforeWrap._sequence (Int.land beforeWrap._dequeuePosition beforeWrap._bufferMask) =
      beforeWrap._dequeuePosition + 1 ∧
    (4 : Int) ≤ beforeWrap._bufferSize ∧
    (beforeWrap.TryBulkDequeue ⟨zeroed, 4⟩ 1).map
        (fun r =>
          (r.ret, r.self._dequeuePosition, (List.range 4).map r.span.Pointer,
            (List.range 8).map (fun (i : Nat) => r.self._sequence i))) =
      some (true, 8, [5, 6, 0, 0], [8, 9, 10, 11, 12, 13, 14, 15]) ∧
    (∃ r, beforeWrap.TryBulkDequeue ⟨zeroed, 4⟩ (0 + 1) = some r ∧ r.ret = true ∧
      beforeWrap.TryBulkDequeueByte4 ⟨zeroed, 4⟩ (0 + 1) = some r) :=
  ⟨⟨⟨3, by decide⟩, by decide⟩, by decide, by decide, by decide,
    (crb_dequeue_commit beforeWrap ⟨zeroed, 4⟩ 0 ⟨⟨3, by decide⟩, by decide⟩ (by decide)
      (by decide) (by decide)).imp (fun _ h => ⟨h.1, h.2.1, h.2.2.2.2.2.2.2.2.2.1 rfl⟩)⟩

/-- Claim C25.  Per-slot sequence invariant of the concurrent buffer: in every
state reached from a concurrent buffer constructed with capacity `c ≥ 1` by a
sequence, run without other threads, of `TryBulkEnqueue` calls whose claimed
range does not cross the end of the buffer, `TryBulkDequeue` calls with
`length ≤ count` and `Clear(n)` calls with `n ≥ 0` on a non-empty buffer whose
freed range does not cross the end of the buffer (spans have a length `≥ 0`),
`0 ≤ D ≤ E ≤ D + B`, every position `j` of `[D, E)` has
`sequence[j & mask] = j + 1` and every position `j` of `[E, D + B)` has
`sequence[j & mask] = j`. -/
theorem crb_stamp_invariant (c : Int) (storage : Int → UInt8) (stamps : Int → Int)
    (start crb : ConcurrentRingBuffer) (ops : List ConcurrentOp) (fuel : Nat)
    (hc : 1 ≤ c) (hnew : ConcurrentRingBuffer.new c storage stamps = some start)
    (hperm : ConcurrentOp.AllPermitted fuel start ops)
    (hrun : ConcurrentOp.run fuel start ops = some crb) :
    0 ≤ crb._dequeuePosition ∧ crb._dequeuePosition ≤ crb._enqueuePosition ∧
    crb._enqueuePosition ≤ crb._dequeuePosition + crb._bufferSize ∧
    (∀ j : Int, crb._dequeuePosition ≤ j → j < crb._enqueuePosition →
      crb._sequence (Int.land j crb._bufferMask) = j + 1) ∧
    (∀ j : Int, crb._enqueuePosition ≤ j → j < crb._dequeuePosition + crb._bufferSize →
      crb._sequence (Int.land j crb._bufferMask) = j) := by
  have hstart := crb_new_fresh hc hnew
  subst hstart
  obtain ⟨-, -, hD, hDE, hB, hfull, hfree⟩ :=
    inv_ops_run fuel ops _ crb (crb_fresh_inv _ _ _) hperm hrun
  exact ⟨hD, hDE, by omega, hfull, hfree⟩

/-- Witness for C25: a buffer constructed with capacity 8 takes the bytes 1 to
6, frees 2 bytes, gives back 2, takes the bytes 7 and 8 and frees the rest. -/
theorem crb_stamp_invariant_witness :
    (1 : Int) ≤ 8 ∧
    ConcurrentRingBuffer.new 8 zeroed staleStamps =
      some (ConcurrentRingBuffer.fresh 3 zeroed staleStamps) ∧
    ConcurrentOp.AllPermitted 1 (ConcurrentRingBuffer.fresh 3 zeroed staleStamps) permittedOps ∧
    ConcurrentOp.run 1 (ConcurrentRingBuffer.fresh 3 zeroed staleStamps) permittedOps =
      some permittedState ∧
    (permittedState._dequeuePosition, permittedState._enqueuePosition) = (8, 8) ∧
    (List.range 8).map (fun (i : Nat) => permittedState._sequence i) =
      [8, 9, 10, 11, 12, 13, 14, 15] ∧
    (0 ≤ permittedState._dequeuePosition ∧
      permittedState._dequeuePosition ≤ permittedState._enqueuePosition ∧
      permittedState._enqueuePosition ≤
        permittedState._dequeuePosition + permittedState._bufferSize ∧
      (∀ j : Int, permittedState._dequeuePosition ≤ j → j < permittedState._enqueuePosition →
        permittedState._sequence (Int.land j permittedState._bufferMask) = j + 1) ∧
      (∀ j : Int, permittedState._enqueuePosition ≤ j →
        j < permittedState._dequeuePosition + permittedState._bufferSize →
        permittedState._sequence (Int.land j permittedState._bufferMask) = j)) :=
  ⟨by decide, crb_new_fresh_of_le 3 zeroed staleStamps (by decide), by decide, rfl, by decide,
    by decide,
    crb_stamp_invariant 8 zeroed staleStamps (ConcurrentRingBuffer.fresh 3 zeroed staleStamps)
      permittedState permittedOps 1 (by decide)
      (crb_new_fresh_of_le 3 zeroed staleStamps (by decide)) (by decide) rfl⟩

/-- Claim C26.  Single-threaded calls on the concurrent buffer never spin: in
every state of the concurrent buffer (size a power of two, mask the size minus
one) with `0 ≤ E - D ≤ B` whose slots of `[D, E)` are stamped `j + 1` and whose
slots of `[E, D + B)` are stamped `j`, and for every span of length `≥ 0`, the
first pass of `TryBulkEnqueue` and the first pass of `TryBulkDequeue` return
(true or false) without reaching `SpinOnce`, so that the calls return what
their first pass returns. -/
theorem crb_single_threaded_never_spins (self : ConcurrentRingBuffer) (span : ByteSpan)
    (fuel : Nat) (hcfg : self.Configured)
    (hDE : 0 ≤ self._enqueuePosition - self._dequeuePosition)
    (hB : self._enqueuePosition - self._dequeuePosition ≤ self._bufferSize)
    (hfull : ∀ j : Int, self._dequeuePosition ≤ j → j < self._enqueuePosition →
      self._sequence (Int.land j self._bufferMask) = j + 1)
    (hfree : ∀ j : Int, self._enqueuePosition ≤ j →
      j < self._dequeuePosition + self._bufferSize →
      self._sequence (Int.land j self._bufferMask) = j)
    (_h0 : 0 ≤ span.Length) :
    (∃ r, self.TryBulkEnqueuePass span = some r ∧
      self.TryBulkEnqueue span (fuel + 1) = some r) ∧
    (∃ r, self.TryBulkDequeuePass span = some r ∧
      self.TryBulkDequeue span (fuel + 1) = some r) := by
  have hpos := cfg_size_pos hcfg
  have hle : self._sequence (Int.land self._enqueuePosition self._bufferMask) -
      self._enqueuePosition ≤ 0 := by
    by_cases hc : self._enqueuePosition - self._dequeuePosition < self._bufferSize
    · have := hfree self._enqueuePosition le_rfl (by omega)
      omega
    · have hE : self._enqueuePosition = self._dequeuePosition + self._bufferSize := by omega
      have h1 := cfg_land_add_size hcfg self._dequeuePosition
      have h2 := hfull self._dequeuePosition le_rfl (by omega)
      rw [hE, h1, h2]
      omega
  constructor
  · by_cases hroom :
        span.Length ≤ self._bufferSize - (self._enqueuePosition - self._dequeuePosition)
    · by_cases hdiff : self._sequence (Int.land self._enqueuePosition self._bufferMask) -
          self._enqueuePosition = 0
      · exact ⟨_, enqueuePass_commit self span hdiff hroom,
          spinLoop_of_some (enqueuePass_commit self span hdiff hroom) fuel⟩
      · have hrej := enqueuePass_reject self span (fun h => hdiff h.1) (Or.inl (by omega))
        exact ⟨_, hrej, spinLoop_of_some hrej fuel⟩
    · have hrej := enqueuePass_reject self span (fun h => hroom h.2) (Or.inr (by omega))
      exact ⟨_, hrej, spinLoop_of_some hrej fuel⟩
  · by_cases hne : self._dequeuePosition < self._enqueuePosition
    · have h2 := hfull self._dequeuePosition le_rfl hne
      have hc := dequeuePass_commit self span (by omega)
      exact ⟨_, hc, spinLoop_of_some hc fuel⟩
    · have h2 := hfree self._dequeuePosition (by omega) (by omega)
      have hc := dequeuePass_reject self span (by omega)
      exact ⟨_, hc, spinLoop_of_some hc fuel⟩

/-- Witness for C26: four bytes offered to and asked from the buffer of size 8
with `D = 4` and `E = 6`. -/
theorem crb_single_threaded_never_spins_witness :
    beforeWrap.Configured ∧
    0 ≤ beforeWrap._enqueuePosition - beforeWrap._dequeuePosition ∧
    beforeWrap._enqueuePosition - beforeWrap._dequeuePosition ≤ beforeWrap._bufferSize ∧
    (beforeWrap.TryBulkEnqueue ⟨ramp 7, 2⟩ 1).map (fun r => r.ret) = some true ∧
    (beforeWrap.TryBulkEnqueue ⟨ramp 7, 7⟩ 1).map (fun r => r.ret) = some false ∧
    ((∃ r, beforeWrap.TryBulkEnqueuePass ⟨ramp 7, 2⟩ = some r ∧
        beforeWrap.TryBulkEnqueue ⟨ramp 7, 2⟩ (0 + 1) = some r) ∧
      (∃ r, beforeWrap.TryBulkDequeuePass ⟨ramp 7, 2⟩ = some r ∧
        beforeWrap.TryBulkDequeue ⟨ramp 7, 2⟩ (0 + 1) = some r)) :=
  have hinv : beforeWrap.Inv :=
    inv_run 1 (wrapCalls.take 2) (ConcurrentRingBuffer.fresh 3 zeroed staleStamps) beforeWrap
      (crb_fresh_inv 3 zeroed staleStamps) (by decide) rfl
  ⟨⟨⟨3, by decide⟩, by decide⟩, by decide, by decide, by decide, by decide,
    crb_single_threaded_never_spins beforeWrap ⟨ramp 7, 2⟩ 0 ⟨⟨3, by decide⟩, by decide⟩
      (by decide) (by decide) hinv.2.2.2.2.2.1 hinv.2.2.2.2.2.2 (by decide)⟩

/-- Claim C27.  Concurrent enqueue specialisations equal the general path: for
`N` in 4, 8, 16, 32, in every state of the concurrent buffer and for every
span of length `N`, `TryBulkEnqueueByteN` run without other threads returns
within the same number of passes as `TryBulkEnqueue`, with the same boolean
and the same object (both positions, every byte of the buffer and every
stamp). -/
theorem crb_unrolled_enqueue_eq_general (self : ConcurrentRingBuffer) (span : ByteSpan)
    (fuel : Nat) :
    (span.Length = 4 →
      (self.TryBulkEnqueueByte4 span fuel).map (fun r => (r.ret, r.self)) =
        (self.TryBulkEnqueue span fuel).map (fun r => (r.ret, r.self))) ∧
    (span.Length = 8 →
      (self.TryBulkEnqueueByte8 span fuel).map (fun r => (r.ret, r.self)) =
        (self.TryBulkEnqueue span fuel).map (fun r => (r.ret, r.self))) ∧
    (span.Length = 16 →
      (self.TryBulkEnqueueByte16 span fuel).map (fun r => (r.ret, r.self)) =
        (self.TryBulkEnqueue span fuel).map (fun r => (r.ret, r.self))) ∧
    (span.Length = 32 →
      (self.TryBulkEnqueueByte32 span fuel).map (fun r => (r.ret, r.self)) =
        (self.TryBulkEnqueue span fuel).map (fun r => (r.ret, r.self))) := by
  have hpass := crb_TryBulkEnqueueByteNPass_eq self span
  refine ⟨fun h => ?_, fun h => ?_, fun h => ?_, fun h => ?_⟩
  · unfold ConcurrentRingBuffer.TryBulkEnqueueByte4 ConcurrentRingBuffer.TryBulkEnqueue
    rw [if_neg (by simp [h]), spinLoop_map, spinLoop_map, hpass.1 h]
  · unfold ConcurrentRingBuffer.TryBulkEnqueueByte8 ConcurrentRingBuffer.TryBulkEnqueue
    rw [if_neg (by simp [h]), spinLoop_map, spinLoop_map, hpass.2.1 h]
  · unfold ConcurrentRingBuffer.TryBulkEnqueueByte16 ConcurrentRingBuffer.TryBulkEnqueue
    rw [if_neg (by simp [h]), spinLoop_map, spinLoop_map, hpass.2.2.1 h]
  · unfold ConcurrentRingBuffer.TryBulkEnqueueByte32 ConcurrentRingBuffer.TryBulkEnqueue
    rw [if_neg (by simp [h]), spinLoop_map, spinLoop_map, hpass.2.2.2 h]

/-- Claim C28.  The serial dequeue does not check for underflow: in every state
of the serial buffer and for every destination span of length `L`,
`TryBulkDequeue` returns true, sets the dequeue position to `D + L`, copies
`buffer[(D + i) & mask]` into `dst[i]` for `i` in `[0, L)`, writes no
diagnostic and leaves every other field as it was; for `L > count` the
resulting `GetCount()` is negative. -/
theorem serial_dequeue_unchecked (self : RingBuffer) (span : ByteSpan) :
    (self.TryBulkDequeue span).ret = true ∧
    (self.TryBulkDequeue span).self =
      { self with _dequeuePosition := self._dequeuePosition + span.Length } ∧
    (∀ i : Nat, (i : Int) < span.Length →
      (self.TryBulkDequeue span).span.Pointer i =
        self._buffer (Int.land (self._dequeuePosition + i) self._bufferMask)) ∧
    (self.TryBulkDequeue span).cout = [] ∧
    (self.GetCount < span.Length → (self.TryBulkDequeue span).self.GetCount < 0) := by
  rw [TryBulkDequeue_eq]
  refine ⟨rfl, rfl, ?_, rfl, ?_⟩
  · intro i hi
    simp only [loadLoop_apply, if_pos hi]
  · intro h
    unfold RingBuffer.GetCount at h ⊢
    simp only
    omega

/-- Claim C29.  Construction postcondition: for every capacity `c ≥ 1`, a
constructed `RingBuffer` or `ConcurrentRingBuffer` has enqueue position 0,
dequeue position 0, `GetCount() = 0` and mask `GetBufferSize() - 1`, and a
constructed `ConcurrentRingBuffer` has `sequence[i] = i` for every `i` in
`[0, GetBufferSize())`; the constructors produce an object when
`c ≤ 2 ^ 30`. -/
theorem construction_postcondition (c : Int) (storage : Int → UInt8) (stamps : Int → Int)
    (hc : 1 ≤ c) :
    (c ≤ 2 ^ 30 → (RingBuffer.new c storage).isSome = true ∧
      (ConcurrentRingBuffer.new c storage stamps).isSome = true) ∧
    (∀ rb : RingBuffer, RingBuffer.new c storage = some rb →
      rb._enqueuePosition = 0 ∧ rb._dequeuePosition = 0 ∧ rb.GetCount = 0 ∧
        rb._bufferMask = rb.GetBufferSize - 1) ∧
    (∀ crb : ConcurrentRingBuffer, ConcurrentRingBuffer.new c storage stamps = some crb →
      crb._enqueuePosition = 0 ∧ crb._dequeuePosition = 0 ∧ crb.GetCount = 0 ∧
        crb._bufferMask = crb.GetBufferSize - 1 ∧
        ∀ i : Int, 0 ≤ i → i < crb.GetBufferSize → crb._sequence i = i) := by
  refine ⟨fun hfit => ?_, fun rb hrb => ?_, fun crb hcrb => ?_⟩
  · have h2 := (pow_clog_fits_iff c hc).mpr hfit
    rw [new_eq c storage hc, crb_new_eq_fresh c storage stamps hc, if_pos h2, if_pos h2]
    exact ⟨rfl, rfl⟩
  · rw [new_fresh hc hrb]
    exact ⟨rfl, rfl, rfl, rfl⟩
  · rw [crb_new_fresh hc hcrb]
    refine ⟨rfl, rfl, rfl, rfl, fun i h0 hi => ?_⟩
    unfold ConcurrentRingBuffer.GetBufferSize ConcurrentRingBuffer.fresh at hi
    simp only at hi
    unfold ConcurrentRingBuffer.fresh
    simp only
    apply ctor_stamps stamps _ i h0
    have hpos : (0 : Int) ≤ 2 ^ (Nat.clog 2 c.toNat) := by positivity
    rw [Int.toNat_of_nonneg hpos]
    exact hi

/-- Witness for C29: capacity 5. -/
theorem construction_postcondition_witness :
    (1 : Int) ≤ 5 ∧
    RingBuffer.new 5 zeroed = some (RingBuffer.fresh 3 zeroed) ∧
    ConcurrentRingBuffer.new 5 zeroed staleStamps =
      some (ConcurrentRingBuffer.fresh 3 zeroed staleStamps) ∧
    (List.range 8).map (fun (i : Nat) =>
      (ConcurrentRingBuffer.fresh 3 zeroed staleStamps)._sequence i) =
      [0, 1, 2, 3, 4, 5, 6, 7] ∧
    (ConcurrentRingBuffer.fresh 3 zeroed staleStamps)._sequence 8 = -1 ∧
    (∀ crb : ConcurrentRingBuffer, ConcurrentRingBuffer.new 5 zeroed staleStamps = some crb →
      crb._enqueuePosition = 0 ∧ crb._dequeuePosition = 0 ∧ crb.GetCount = 0 ∧
        crb._bufferMask = crb.GetBufferSize - 1 ∧
        ∀ i : Int, 0 ≤ i → i < crb.GetBufferSize → crb._sequence i = i) :=
  ⟨by decide,
    by rw [new_eq 5 zeroed (by decide), clog_five]; rfl,
    by rw [crb_new_eq_fresh 5 zeroed staleStamps (by decide), clog_five]; rfl,
    by decide, by decide,
    (construction_postcondition 5 zeroed staleStamps (by decide)).2.2⟩

/-- Claim C30.  A successful serial enqueue never overwrites live data: in
every well-formed state of the serial buffer and for every span with
`0 ≤ length ≤ B - count`, `TryBulkEnqueue` returns true, the count grows by
the length, the live payload `buffer[(D + i) & mask]`, `i` in
`[0, count + length)`, after the call is the live payload before the call
followed by the bytes of the span, and every buffer index outside
`(E + i) & mask`, `i` in `[0, length)`, holds the byte it held before. -/
theorem enqueue_keeps_live_data (self : RingBuffer) (span : ByteSpan) (hwf : self.WellFormed)
    (h0 : 0 ≤ span.Length) (hL : span.Length ≤ self._bufferSize - self.GetCount) :
    (self.TryBulkEnqueue span).ret = true ∧
    (self.TryBulkEnqueue span).self.GetCount = self.GetCount + span.Length ∧
    (self.TryBulkEnqueue span).self.payload = self.payload ++ span.bytes ∧
    ∀ j : Int,
      (∀ i : Nat, (i : Int) < span.Length →
        Int.land (self._enqueuePosition + i) self._bufferMask ≠ j) →
      (self.TryBulkEnqueue span).self._buffer j = self._buffer j := by
  refine ⟨?_, ?_, payload_enqueue hwf span h0 hL, ?_⟩
  · unfold RingBuffer.GetCount at hL
    unfold RingBuffer.TryBulkEnqueue
    simp only [if_pos hL]
  · unfold RingBuffer.GetCount at hL ⊢
    unfold RingBuffer.TryBulkEnqueue
    simp only [if_pos hL]
    omega
  · intro j hj
    unfold RingBuffer.GetCount at hL
    unfold RingBuffer.TryBulkEnqueue
    simp only [if_pos hL]
    exact storeLoop_apply_of_miss _ _ _ _ _ j hj

/-- Witness for C30: the last call of the wrap-around scenario, four bytes
enqueued at position 6 of a buffer of size 8 that holds the bytes 5 and 6. -/
theorem enqueue_keeps_live_data_witness :
    (Trace.run ⟨RingBuffer.fresh 3 zeroed, [], []⟩ (wrapCalls.take 2)).self.WellFormed ∧
    (Trace.run ⟨RingBuffer.fresh 3 zeroed, [], []⟩ (wrapCalls.take 2)).self.payload = [5, 6] ∧
    ((Trace.run ⟨RingBuffer.fresh 3 zeroed, [], []⟩ (wrapCalls.take 2)).self.TryBulkEnqueue
      ⟨ramp 7, 4⟩).self.payload = [5, 6] ++ ByteSpan.bytes ⟨ramp 7, 4⟩ ∧
    ByteSpan.bytes ⟨ramp 7, 4⟩ = [7, 8, 9, 10] :=
  ⟨⟨⟨3, by decide⟩, by decide, by decide, by decide, by decide⟩, by decide,
    (enqueue_keeps_live_data (Trace.run ⟨RingBuffer.fresh 3 zeroed, [], []⟩ (wrapCalls.take 2)).self
      ⟨ramp 7, 4⟩ ⟨⟨3, by decide⟩, by decide, by decide, by decide, by decide⟩ (by decide)
      (by decide)).2.2.1, by decide⟩

/-! ## Slice, records of one length and inspection: lemmas -/

/-- The remainder of a sum that passes the modulus once. -/
theorem emod_add_of_ge (B p i : Int) (_hB : 0 < B) (h1 : B ≤ p % B + i)
    (h2 : p % B + i < 2 * B) :
    (p + i) % B = p % B + i - B := by
  have hp : p = p % B + B * (p / B) := (Int.emod_add_ediv p B).symm
  have : p + i = (p % B + i - B) + B * (p / B + 1) := by
    rw [mul_add, mul_one]; omega
  rw [this, Int.add_mul_emod_self_left]
  exact Int.emod_eq_of_lt (by omega) (by omega)

/-- A multiple of `L` leaves a multiple of `L` modulo a multiple of `L`, so a
record of `L` bytes that starts there ends at or before the modulus. -/
theorem emod_add_le_of_dvd (B L p : Int) (hB : 0 < B) (hLB : L ∣ B) (hLp : L ∣ p) :
    L ∣ p % B ∧ p % B + L ≤ B := by
  have hm : L ∣ p % B := by
    rw [Int.emod_def]
    exact dvd_sub hLp (Dvd.dvd.mul_right hLB _)
  have h1 := Int.emod_nonneg p (ne_of_gt hB)
  have h2 := Int.emod_lt_of_pos p hB
  have hd : L ∣ B - p % B := dvd_sub hLB hm
  have := Int.le_of_dvd (by omega) hd
  exact ⟨hm, by omega⟩

theorem slice_unfold (self : RingBuffer) (start length : Int) :
    self.Slice start length =
      if Int.land (self._dequeuePosition + start) self._bufferMask ≤
          Int.land (self._dequeuePosition + start + length) self._bufferMask then
        ({ Pointer := Int.land (self._dequeuePosition + start) self._bufferMask,
           Length := length }, { Pointer := 0, Length := 0 })
      else
        ({ Pointer := Int.land (self._dequeuePosition + start) self._bufferMask,
           Length := self._bufferSize -
             Int.land (self._dequeuePosition + start) self._bufferMask },
         { Pointer := 0,
           Length := length - (self._bufferSize -
             Int.land (self._dequeuePosition + start) self._bufferMask) }) := rfl

theorem crb_slice_eq_serial (self : ConcurrentRingBuffer) (start length : Int) :
    self.Slice start length = self.serial.Slice start length := rfl

theorem crb_window_eq_serial (self : ConcurrentRingBuffer) (start length : Int) :
    self.window start length = self.serial.window start length := rfl

/-- The two branches of `Slice` for a length in `[0, B]`, on a buffer whose size
is a power of two and whose mask is the size minus one: with `s` the start
index, the contiguous branch is taken when `s + length < B` or `length = B`
and the other one when `B ≤ s + length` and `length < B`. -/
theorem slice_cases (self : RingBuffer) (hk : ∃ k : Nat, self._bufferSize = 2 ^ k)
    (hm : self._bufferMask = self._bufferSize - 1) (start length : Int)
    (h0 : 0 ≤ length) (hB : length ≤ self._bufferSize) :
    0 ≤ Int.land (self._dequeuePosition + start) self._bufferMask ∧
    Int.land (self._dequeuePosition + start) self._bufferMask < self._bufferSize ∧
    ((Int.land (self._dequeuePosition + start) self._bufferMask + length < self._bufferSize ∨
        length = self._bufferSize) ∧
      self.Slice start length =
        ({ Pointer := Int.land (self._dequeuePosition + start) self._bufferMask,
           Length := length }, { Pointer := 0, Length := 0 }) ∨
     (self._bufferSize ≤ Int.land (self._dequeuePosition + start) self._bufferMask + length ∧
        length < self._bufferSize) ∧
      self.Slice start length =
        ({ Pointer := Int.land (self._dequeuePosition + start) self._bufferMask,
           Length := self._bufferSize -
             Int.land (self._dequeuePosition + start) self._bufferMask },
         { Pointer := 0,
           Length := length - (self._bufferSize -
             Int.land (self._dequeuePosition + start) self._bufferMask) })) := by
  obtain ⟨k, hk⟩ := hk
  have hpos : 0 < self._bufferSize := by rw [hk]; positivity
  have hs : Int.land (self._dequeuePosition + start) self._bufferMask =
      (self._dequeuePosition + start) % self._bufferSize := by
    rw [hm, hk]; exact land_mask_eq_emod_int _ k
  have he : Int.land (self._dequeuePosition + start + length) self._bufferMask =
      (self._dequeuePosition + start + length) % self._bufferSize := by
    rw [hm, hk]; exact land_mask_eq_emod_int _ k
  have h1 := Int.emod_nonneg (self._dequeuePosition + start) (ne_of_gt hpos)
  have h2 := Int.emod_lt_of_pos (self._dequeuePosition + start) hpos
  rw [slice_unfold, hs, he]
  refine ⟨h1, h2, ?_⟩
  by_cases hfit : (self._dequeuePosition + start) % self._bufferSize + length < self._bufferSize
  · left
    rw [emod_add_of_lt _ _ _ hpos h0 hfit, if_pos (by omega)]
    exact ⟨Or.inl hfit, rfl⟩
  · have hge := emod_add_of_ge self._bufferSize (self._dequeuePosition + start) length hpos
      (by omega) (by omega)
    rw [hge]
    by_cases hfull : length = self._bufferSize
    · left
      rw [if_pos (by omega)]
      exact ⟨Or.inr hfull, rfl⟩
    · right
      rw [if_neg (by omega)]
      exact ⟨⟨by omega, by omega⟩, rfl⟩

/-- The bytes of the two spans for a range shorter than the buffer. -/
theorem slice_bytes (self : RingBuffer) (hk : ∃ k : Nat, self._bufferSize = 2 ^ k)
    (hm : self._bufferMask = self._bufferSize - 1) (start length : Int)
    (h0 : 0 ≤ length) (hlt : length < self._bufferSize) :
    (self.Slice start length).1.bytes self._buffer ++
        (self.Slice start length).2.bytes self._buffer =
      self.window start length := by
  obtain ⟨hs0, hsB, hcase⟩ := slice_cases self hk hm start length h0 (le_of_lt hlt)
  obtain ⟨k, hk⟩ := hk
  have hpos : 0 < self._bufferSize := by rw [hk]; positivity
  have hland : ∀ x : Int, Int.land x self._bufferMask = x % self._bufferSize := by
    intro x; rw [hm, hk]; exact land_mask_eq_emod_int _ k
  have hs := hland (self._dequeuePosition + start)
  rcases hcase with ⟨hfit, hsl⟩ | ⟨⟨hge, _⟩, hsl⟩
  · have hfit : Int.land (self._dequeuePosition + start) self._bufferMask + length <
        self._bufferSize := by omega
    rw [hsl]
    simp only [BufferSpan.bytes, RingBuffer.window, Int.toNat_zero, List.range_zero,
      List.map_nil, List.append_nil]
    apply List.map_congr_left
    intro i hi
    rw [List.mem_range] at hi
    rw [hland (self._dequeuePosition + start + (i : Int)),
      emod_add_of_lt self._bufferSize (self._dequeuePosition + start) i hpos (by omega)
        (by omega), hs]
  · rw [hsl]
    simp only [BufferSpan.bytes, RingBuffer.window]
    apply List.ext_getElem
    · simp only [List.length_append, List.length_map, List.length_range]
      omega
    · intro n h1 h2
      simp only [List.length_map, List.length_range] at h2
      simp only [List.getElem_map, List.getElem_range]
      by_cases hn : (n : Int) < self._bufferSize -
          Int.land (self._dequeuePosition + start) self._bufferMask
      · rw [List.getElem_append_left (by simp; omega)]
        simp only [List.getElem_map, List.getElem_range]
        rw [hland (self._dequeuePosition + start + (n : Int)),
          emod_add_of_lt self._bufferSize (self._dequeuePosition + start) n hpos (by omega)
            (by omega), hs]
      · rw [List.getElem_append_right (by simp; omega)]
        simp only [List.getElem_map, List.getElem_range, List.length_map, List.length_range]
        rw [hland (self._dequeuePosition + start + (n : Int)),
          emod_add_of_ge self._bufferSize (self._dequeuePosition + start) n hpos (by omega)
            (by omega)]
        congr 1
        omega

/-- On a buffer whose size is a multiple of `L`, a record of `L` bytes that
starts at a position that is a multiple of `L` does not cross the end of the
buffer. -/
theorem cfg_record_fits {self : ConcurrentRingBuffer} (hcfg : self.Configured) (L p : Int)
    (hLB : L ∣ self._bufferSize) (hLp : L ∣ p) :
    Int.land p self._bufferMask + L ≤ self._bufferSize := by
  rw [cfg_land_eq hcfg]
  exact (emod_add_le_of_dvd _ L p (cfg_size_pos hcfg) hLB hLp).2

/-- The contiguous index of a byte of a record is its wrap-aware index. -/
theorem cfg_record_index {self : ConcurrentRingBuffer} (hcfg : self.Configured) (L p i : Int)
    (hLB : L ∣ self._bufferSize) (hLp : L ∣ p) (hi0 : 0 ≤ i) (hi : i < L) :
    Int.land p self._bufferMask + i = Int.land (p + i) self._bufferMask ∧
    Int.land (p + i) self._bufferMask < self._bufferSize := by
  have hfit := cfg_record_fits hcfg L p hLB hLp
  rw [cfg_land_eq hcfg] at hfit
  rw [cfg_land_eq hcfg, cfg_land_eq hcfg,
    emod_add_of_lt _ p i (cfg_size_pos hcfg) hi0 (by omega)]
  exact ⟨rfl, by omega⟩

/-- Calls with records of one length `L` that divides the size keep the stamp
invariant and keep both positions multiples of `L`. -/
theorem record_step {self next : ConcurrentRingBuffer} (hinv : self.Inv) (L : Int)
    (hL : 1 ≤ L) (hLB : L ∣ self._bufferSize) (hE : L ∣ self._enqueuePosition)
    (hD : L ∣ self._dequeuePosition) (fuel : Nat) (call : Call) (hlen : call.span.Length = L)
    (hstep : self.step fuel call = some next) :
    next.Inv ∧ next._bufferSize = self._bufferSize ∧ L ∣ next._enqueuePosition ∧
      L ∣ next._dequeuePosition := by
  have hcfg := inv_configured hinv
  cases call with
  | enqueue span =>
    simp only [Call.span] at hlen
    have hfits : Call.Fits self (.enqueue span) :=
      ⟨by omega, fun _ => by rw [hlen]; exact cfg_record_fits hcfg L _ hLB hE⟩
    refine ⟨inv_step hinv fuel _ hfits hstep, ?_⟩
    simp only [ConcurrentRingBuffer.step, ConcurrentRingBuffer.TryBulkEnqueue,
      Option.map_eq_some'] at hstep
    obtain ⟨r, hr, rfl⟩ := hstep
    have hpass := spinLoop_eq_some hr
    have hle := (inv_enqueue_diff hinv).1
    by_cases hroom :
        span.Length ≤ self._bufferSize - (self._enqueuePosition - self._dequeuePosition)
    · by_cases hdiff : self._sequence (Int.land self._enqueuePosition self._bufferMask) -
          self._enqueuePosition = 0
      · rw [enqueuePass_commit self span hdiff hroom] at hpass
        rw [← Option.some.inj hpass]
        refine ⟨rfl, ?_, hD⟩
        simp only
        rw [hlen]
        exact dvd_add hE (dvd_refl L)
      · rw [enqueuePass_reject self span (fun h => hdiff h.1) (Or.inl (by omega))] at hpass
        rw [← Option.some.inj hpass]
        exact ⟨rfl, hE, hD⟩
    · rw [enqueuePass_reject self span (fun h => hroom h.2) (Or.inr (by omega))] at hpass
      rw [← Option.some.inj hpass]
      exact ⟨rfl, hE, hD⟩
  | dequeue span =>
    simp only [Call.span] at hlen
    simp only [ConcurrentRingBuffer.step, ConcurrentRingBuffer.TryBulkDequeue,
      Option.map_eq_some'] at hstep
    obtain ⟨r, hr, rfl⟩ := hstep
    have hpass := spinLoop_eq_some hr
    obtain ⟨-, -, -, hDE, -, -, -⟩ := id hinv
    by_cases hne : self._dequeuePosition < self._enqueuePosition
    · have hcount : L ≤ self._enqueuePosition - self._dequeuePosition :=
        Int.le_of_dvd (by omega) (dvd_sub hE hD)
      rw [dequeuePass_commit self span ((inv_dequeue_diff hinv).1 hne)] at hpass
      rw [← Option.some.inj hpass]
      refine ⟨inv_dequeue_commit hinv span (by omega) (by omega), rfl, hE, ?_⟩
      simp only
      rw [hlen]
      exact dvd_add hD (dvd_refl L)
    · rw [dequeuePass_reject self span ((inv_dequeue_diff hinv).2 (by omega))] at hpass
      rw [← Option.some.inj hpass]
      exact ⟨hinv, rfl, hE, hD⟩

theorem record_run (L : Int) (hL : 1 ≤ L) (fuel : Nat) (calls : List Call) :
    ∀ self crb : ConcurrentRingBuffer, self.Inv → L ∣ self._bufferSize →
      L ∣ self._enqueuePosition → L ∣ self._dequeuePosition →
      (∀ call ∈ calls, call.span.Length = L) →
      ConcurrentRingBuffer.run fuel self calls = some crb →
      crb.Inv ∧ crb._bufferSize = self._bufferSize ∧ L ∣ crb._enqueuePosition ∧
        L ∣ crb._dequeuePosition := by
  induction calls with
  | nil =>
    intro self crb hinv _ hE hD _ hrun
    simp only [ConcurrentRingBuffer.run, Option.some.injEq] at hrun
    rw [← hrun]
    exact ⟨hinv, rfl, hE, hD⟩
  | cons call rest ih =>
    intro self crb hinv hLB hE hD hlen hrun
    unfold ConcurrentRingBuffer.run at hrun
    cases hstep : self.step fuel call with
    | none => rw [hstep] at hrun; exact absurd hrun (by simp)
    | some next =>
      rw [hstep] at hrun
      obtain ⟨hinv2, hsize, hE2, hD2⟩ := record_step hinv L hL hLB hE hD fuel call
        (hlen call (List.mem_cons_self _ _)) hstep
      obtain ⟨h1, h2, h3, h4⟩ := ih next crb hinv2 (by rw [hsize]; exact hLB) hE2 hD2
        (fun c hc => hlen c (List.mem_cons_of_mem _ hc)) hrun
      exact ⟨h1, by rw [h2, hsize], h3, h4⟩

/-! ## Well-formedness, records, Slice and inspection: the claims -/

/-- Claim C31.  Well-formedness is preserved when callers respect the
preconditions: the predicate "`B` is a power of two, `mask = B - 1`,
`0 ≤ D ≤ E` and `E - D ≤ B`" holds for the serial buffer that the constructor
produces for a capacity `c ≥ 1` (it produces one when `c ≤ 2 ^ 30`), and in
every state in which it holds it still holds after `TryBulkEnqueue` and its
4/8/16/32 variants for a span of length `≥ 0`, after `TryBulkDequeue` and its
variants for a span with `0 ≤ length ≤ count`, after `Clear()`, after
`Clear(n)` for `n ≥ 0` and after both `Slice` overloads, which leave the
object as it is. -/
theorem wellformed_preserved (c : Int) (storage : Int → UInt8) (rb : RingBuffer)
    (span dst : ByteSpan) (n start length : Int)
    (hc : 1 ≤ c) (hwf : rb.WellFormed) (h0 : 0 ≤ span.Length)
    (hd0 : 0 ≤ dst.Length) (hdL : dst.Length ≤ rb.GetCount) (hn : 0 ≤ n) :
    (c ≤ 2 ^ 30 → (RingBuffer.new c storage).isSome = true) ∧
    (∀ fresh : RingBuffer, RingBuffer.new c storage = some fresh → fresh.WellFormed) ∧
    (rb.TryBulkEnqueue span).self.WellFormed ∧
    (rb.TryBulkEnqueueByte4 span).self.WellFormed ∧
    (rb.TryBulkEnqueueByte8 span).self.WellFormed ∧
    (rb.TryBulkEnqueueByte16 span).self.WellFormed ∧
    (rb.TryBulkEnqueueByte32 span).self.WellFormed ∧
    (rb.TryBulkDequeue dst).self.WellFormed ∧
    (rb.TryBulkDequeueByte4 dst).self.WellFormed ∧
    (rb.TryBulkDequeueByte8 dst).self.WellFormed ∧
    (rb.TryBulkDequeueByte16 dst).self.WellFormed ∧
    (rb.TryBulkDequeueByte32 dst).self.WellFormed ∧
    rb.Clear.WellFormed ∧
    (rb.ClearN n).WellFormed ∧
    (Op.apply rb (.Slice start length)).WellFormed ∧
    (Op.apply rb (.SliceFrom start)).WellFormed := by
  refine ⟨fun hfit => ?_, fun fresh hfresh => ?_,
    wf_apply hwf (.TryBulkEnqueue span) h0, wf_apply hwf (.TryBulkEnqueueByte4 span) h0,
    wf_apply hwf (.TryBulkEnqueueByte8 span) h0, wf_apply hwf (.TryBulkEnqueueByte16 span) h0,
    wf_apply hwf (.TryBulkEnqueueByte32 span) h0,
    wf_apply hwf (.TryBulkDequeue dst) ⟨hd0, hdL⟩,
    wf_apply hwf (.TryBulkDequeueByte4 dst) ⟨hd0, fun _ => hdL⟩,
    wf_apply hwf (.TryBulkDequeueByte8 dst) ⟨hd0, fun _ => hdL⟩,
    wf_apply hwf (.TryBulkDequeueByte16 dst) ⟨hd0, fun _ => hdL⟩,
    wf_apply hwf (.TryBulkDequeueByte32 dst) ⟨hd0, fun _ => hdL⟩,
    wf_apply hwf .Clear trivial, wf_apply hwf (.ClearN n) hn,
    wf_apply hwf (.Slice start length) trivial, wf_apply hwf (.SliceFrom start) trivial⟩
  · rw [new_eq c storage hc, if_pos ((pow_clog_fits_iff c hc).mpr hfit)]
    rfl
  · rw [new_fresh hc hfresh]
    exact fresh_wf _ _

/-- Witness for C31: the buffer of size 8 after the wrap-around scenario
(`D = 4`, `E = 10`), a span of two bytes and a destination of four. -/
theorem wellformed_preserved_witness :
    (1 : Int) ≤ 8 ∧ wrapState.WellFormed ∧ (4 : Int) ≤ wrapState.GetCount ∧
    RingBuffer.new 8 zeroed = some (RingBuffer.fresh 3 zeroed) ∧
    (RingBuffer.fresh 3 zeroed).WellFormed ∧
    (wrapState.TryBulkEnqueue ⟨ramp 11, 2⟩).self.WellFormed ∧
    (wrapState.TryBulkDequeueByte4 ⟨zeroed, 4⟩).self.WellFormed ∧
    wrapState.Clear.WellFormed ∧
    (wrapState.ClearN 3).WellFormed :=
  ⟨by decide, wrapState_wf, by decide, new_fresh_of_le 3 zeroed (by decide),
    (wellformed_preserved 8 zeroed wrapState ⟨ramp 11, 2⟩ ⟨zeroed, 4⟩ 3 0 6 (by decide)
      wrapState_wf (by decide) (by decide) (by decide) (by decide)).2.1 _
      (new_fresh_of_le 3 zeroed (by decide)),
    (wellformed_preserved 8 zeroed wrapState ⟨ramp 11, 2⟩ ⟨zeroed, 4⟩ 3 0 6 (by decide)
      wrapState_wf (by decide) (by decide) (by decide) (by decide)).2.2.1,
    (wellformed_preserved 8 zeroed wrapState ⟨ramp 11, 2⟩ ⟨zeroed, 4⟩ 3 0 6 (by decide)
      wrapState_wf (by decide) (by decide) (by decide) (by decide)).2.2.2.2.2.2.2.2.1,
    (wellformed_preserved 8 zeroed wrapState ⟨ramp 11, 2⟩ ⟨zeroed, 4⟩ 3 0 6 (by decide)
      wrapState_wf (by decide) (by decide) (by decide) (by decide)).2.2.2.2.2.2.2.2.2.2.2.2.1,
    (wellformed_preserved 8 zeroed wrapState ⟨ramp 11, 2⟩ ⟨zeroed, 4⟩ 3 0 6 (by decide)
      wrapState_wf (by decide) (by decide) (by decide) (by decide)).2.2.2.2.2.2.2.2.2.2.2.2.2.1⟩

/-- Claim C32.  Fixed-size records never cross the wrap boundary.  For every
size `2 ^ k`, every record length `M ≥ 1` that divides it, every position
`p ≥ 0` that is a multiple of `M` and every `i` in `[0, M)`,
`(p & (B - 1)) + i = (p + i) & (B - 1) < B`.  Hence, on a concurrent buffer
constructed with capacity `c ≥ 1` whose size is a multiple of `L ≥ 1`, after
any sequence of `TryBulkEnqueue` and `TryBulkDequeue` calls run without other
threads whose spans all have the length `L`, the enqueue position is a
multiple of `L`, and a further `TryBulkEnqueue` of a span of length `L` returns
in its first pass and, when it commits, has written the bytes where the
wrap-aware loop writes them, has stamped the wrap-aware slot
`(p + i) & mask` with `p + 1 + i` for every `i` in `[0, L)`, and has left
every other stamp as it was. -/
theorem fixed_size_records_never_cross (c : Int) (storage : Int → UInt8) (stamps : Int → Int)
    (start crb : ConcurrentRingBuffer) (calls : List Call) (fuel : Nat) (L : Int)
    (span : ByteSpan) (passes : Nat)
    (hc : 1 ≤ c) (hnew : ConcurrentRingBuffer.new c storage stamps = some start)
    (hL : 1 ≤ L) (hLB : L ∣ start.GetBufferSize)
    (hcalls : ∀ call ∈ calls, call.span.Length = L)
    (hrun : ConcurrentRingBuffer.run fuel start calls = some crb)
    (hspan : span.Length = L) :
    (∀ (k : Nat) (M p i : Int), 1 ≤ M → M ∣ 2 ^ k → 0 ≤ p → M ∣ p → 0 ≤ i → i < M →
      Int.land p (2 ^ k - 1) + i = Int.land (p + i) (2 ^ k - 1) ∧
      Int.land (p + i) (2 ^ k - 1) < 2 ^ k) ∧
    0 ≤ crb._enqueuePosition ∧ L ∣ crb._enqueuePosition ∧
    (∀ i : Int, 0 ≤ i → i < L →
      Int.land crb._enqueuePosition crb._bufferMask + i =
        Int.land (crb._enqueuePosition + i) crb._bufferMask ∧
      Int.land (crb._enqueuePosition + i) crb._bufferMask < crb._bufferSize) ∧
    ∃ r, crb.TryBulkEnqueue span (passes + 1) = some r ∧
      (r.ret = true →
        r.self._buffer =
          storeLoop crb._bufferMask crb._enqueuePosition span.Pointer span.Length crb._buffer ∧
        (∀ i : Nat, (i : Int) < L →
          r.self._sequence (Int.land (crb._enqueuePosition + i) crb._bufferMask) =
            crb._enqueuePosition + 1 + i) ∧
        (∀ x : Int,
          (∀ i : Nat, (i : Int) < L →
            x ≠ Int.land (crb._enqueuePosition + i) crb._bufferMask) →
          r.self._sequence x = crb._sequence x)) := by
  have hstart := crb_new_fresh hc hnew
  subst hstart
  obtain ⟨hinv, hsize, hE, -⟩ := record_run L hL fuel calls _ crb (crb_fresh_inv _ _ _) hLB
    (dvd_zero L) (dvd_zero L) hcalls hrun
  have hcfg := inv_configured hinv
  have hLB2 : L ∣ crb._bufferSize := by rw [hsize]; exact hLB
  have hE0 : 0 ≤ crb._enqueuePosition := by
    obtain ⟨-, -, hD, hDE, -⟩ := hinv
    omega
  have hidx : ∀ i : Int, 0 ≤ i → i < L →
      Int.land crb._enqueuePosition crb._bufferMask + i =
        Int.land (crb._enqueuePosition + i) crb._bufferMask ∧
      Int.land (crb._enqueuePosition + i) crb._bufferMask < crb._bufferSize :=
    fun i hi0 hi => cfg_record_index hcfg L _ i hLB2 hE hi0 hi
  refine ⟨?_, hE0, hE, hidx, ?_⟩
  · intro k M p i _ hMB _ hMp hi0 hi
    have hpos : (0 : Int) < 2 ^ k := by positivity
    have hfit := (emod_add_le_of_dvd (2 ^ k) M p hpos hMB hMp).2
    rw [land_mask_eq_emod_int, land_mask_eq_emod_int,
      emod_add_of_lt _ p i hpos hi0 (by omega)]
    exact ⟨rfl, by omega⟩
  · obtain ⟨r, hr, -⟩ := inv_enqueue_returns hinv span passes
    refine ⟨r, hr, fun hret => ?_⟩
    have hpass := spinLoop_eq_some hr
    by_cases hcommit : crb._sequence (Int.land crb._enqueuePosition crb._bufferMask) -
        crb._enqueuePosition = 0 ∧
        span.Length ≤ crb._bufferSize - (crb._enqueuePosition - crb._dequeuePosition)
    · rw [enqueuePass_commit crb span hcommit.1 hcommit.2] at hpass
      rw [← Option.some.inj hpass]
      simp only
      rw [hspan]
      refine ⟨?_, ?_, ?_⟩
      · exact enqueueCommitLoop_fst _ _ _ _ _ _
          (fun i hi => (hidx i (Int.ofNat_nonneg i) hi).1)
      · intro i hi
        rw [← (hidx i (Int.ofNat_nonneg i) hi).1]
        exact enqueueCommitLoop_stamp_hit _ _ _ _ _ i hi
      · intro x hx
        apply enqueueCommitLoop_stamp_miss
        intro i hi
        rw [(hidx i (Int.ofNat_nonneg i) hi).1]
        exact hx i hi
    · have hle := (inv_enqueue_diff hinv).1
      have hfail : crb._sequence (Int.land crb._enqueuePosition crb._bufferMask) -
            crb._enqueuePosition < 0 ∨
          span.Length > crb._bufferSize - (crb._enqueuePosition - crb._dequeuePosition) := by
        by_cases h1 : crb._sequence (Int.land crb._enqueuePosition crb._bufferMask) -
            crb._enqueuePosition = 0
        · exact Or.inr (by
            have := fun h => hcommit ⟨h1, h⟩
            omega)
        · exact Or.inl (by omega)
      rw [enqueuePass_reject crb span hcommit hfail] at hpass
      rw [← Option.some.inj hpass] at hret
      exact absurd hret (by simp)

/-- Witness for C32: records of four bytes on a buffer constructed with
capacity 8; after `recordCalls` the enqueue position is 12 and a further
record is written at the indices 4 to 7. -/
theorem fixed_size_records_never_cross_witness :
    (1 : Int) ≤ 8 ∧
    ConcurrentRingBuffer.new 8 zeroed staleStamps =
      some (ConcurrentRingBuffer.fresh 3 zeroed staleStamps) ∧
    (4 : Int) ∣ (ConcurrentRingBuffer.fresh 3 zeroed staleStamps).GetBufferSize ∧
    (∀ call ∈ recordCalls, call.span.Length = 4) ∧
    ConcurrentRingBuffer.run 1 (ConcurrentRingBuffer.fresh 3 zeroed staleStamps) recordCalls =
      some recordState ∧
    (recordState._dequeuePosition, recordState._enqueuePosition) = (8, 12) ∧
    (recordState.TryBulkEnqueue ⟨ramp 13, 4⟩ 1).map
        (fun r =>
          (r.ret, (List.range 8).map (fun (i : Nat) => r.self._buffer i),
            (List.range 8).map (fun (i : Nat) => r.self._sequence i), r.self._buffer 8,
            r.self._sequence 8)) =
      some (true, [9, 10, 11, 12, 13, 14, 15, 16], [9, 10, 11, 12, 13, 14, 15, 16], 0, -1) ∧
    (4 : Int) ∣ recordState._enqueuePosition :=
  ⟨by decide, crb_new_fresh_of_le 3 zeroed staleStamps (by decide), by decide, by decide, rfl,
    by decide, by decide,
    (fixed_size_records_never_cross 8 zeroed staleStamps
      (ConcurrentRingBuffer.fresh 3 zeroed staleStamps) recordState recordCalls 1 4
      ⟨ramp 13, 4⟩ 0 (by decide) (crb_new_fresh_of_le 3 zeroed staleStamps (by decide))
      (by decide) (by decide) (by decide) rfl rfl).2.2.1⟩

/-- Claim C33.  Slice is correct for every range shorter than the buffer: in
every well-formed state of the serial buffer and in every state of the
concurrent buffer whose size is a power of two and whose mask is the size
minus one, for every `start ≥ 0` and every `length` with `0 ≤ length < B`,
`Slice(start, length, first, second)` gives `first` starting at the index
`s = (D + start) & mask` and `second` starting at the index 0, both of length
`≥ 0`, with `s + first.Length ≤ B` and `second.Length ≤ s`, and the bytes of
`first` followed by the bytes of `second` are `buffer[(D + start + i) & mask]`
for `i` in `[0, length)`. -/
theorem slice_correct_below_size (rb : RingBuffer) (crb : ConcurrentRingBuffer)
    (start length : Int) (hwf : rb.WellFormed) (hcfg : crb.Configured) (_hs : 0 ≤ start)
    (h0 : 0 ≤ length) (hrb : length < rb._bufferSize) (hcrb : length < crb._bufferSize) :
    ((rb.Slice start length).1.Pointer =
        Int.land (rb._dequeuePosition + start) rb._bufferMask ∧
      (rb.Slice start length).2.Pointer = 0 ∧
      0 ≤ (rb.Slice start length).1.Length ∧ 0 ≤ (rb.Slice start length).2.Length ∧
      0 ≤ (rb.Slice start length).1.Pointer ∧
      (rb.Slice start length).1.Pointer + (rb.Slice start length).1.Length ≤ rb._bufferSize ∧
      (rb.Slice start length).2.Length ≤ (rb.Slice start length).1.Pointer ∧
      (rb.Slice start length).1.bytes rb._buffer ++ (rb.Slice start length).2.bytes rb._buffer =
        rb.window start length) ∧
    ((crb.Slice start length).1.Pointer =
        Int.land (crb._dequeuePosition + start) crb._bufferMask ∧
      (crb.Slice start length).2.Pointer = 0 ∧
      0 ≤ (crb.Slice start length).1.Length ∧ 0 ≤ (crb.Slice start length).2.Length ∧
      0 ≤ (crb.Slice start length).1.Pointer ∧
      (crb.Slice start length).1.Pointer + (crb.Slice start length).1.Length ≤
        crb._bufferSize ∧
      (crb.Slice start length).2.Length ≤ (crb.Slice start length).1.Pointer ∧
      (crb.Slice start length).1.bytes crb._buffer ++
          (crb.Slice start length).2.bytes crb._buffer =
        crb.window start length) := by
  have key : ∀ self : RingBuffer, (∃ k : Nat, self._bufferSize = 2 ^ k) →
      self._bufferMask = self._bufferSize - 1 → length < self._bufferSize →
      (self.Slice start length).1.Pointer =
        Int.land (self._dequeuePosition + start) self._bufferMask ∧
      (self.Slice start length).2.Pointer = 0 ∧
      0 ≤ (self.Slice start length).1.Length ∧ 0 ≤ (self.Slice start length).2.Length ∧
      0 ≤ (self.Slice start length).1.Pointer ∧
      (self.Slice start length).1.Pointer + (self.Slice start length).1.Length ≤
        self._bufferSize ∧
      (self.Slice start length).2.Length ≤ (self.Slice start length).1.Pointer ∧
      (self.Slice start length).1.bytes self._buffer ++
          (self.Slice start length).2.bytes self._buffer =
        self.window start length := by
    intro self hk hm hlt
    have hbytes := slice_bytes self hk hm start length h0 hlt
    obtain ⟨hs0, hsB, hcase⟩ := slice_cases self hk hm start length h0 (le_of_lt hlt)
    rcases hcase with ⟨hfit, hsl⟩ | ⟨⟨hge, _⟩, hsl⟩
    · rw [hsl] at hbytes ⊢
      refine ⟨rfl, rfl, h0, le_refl _, hs0, ?_, hs0, hbytes⟩
      simp only
      omega
    · rw [hsl] at hbytes ⊢
      refine ⟨rfl, rfl, ?_, ?_, hs0, ?_, ?_, hbytes⟩ <;> simp only <;> omega
  refine ⟨key rb hwf.1 hwf.2.1 hrb, ?_⟩
  have := key crb.serial hcfg.1 hcfg.2 hcrb
  exact this

/-- Witness for C33: the range `start = 0`, `length = 6` of the wrap-around
scenario on the serial buffer, and the same range on the concurrent buffer of
size 8 with `D = 4`. -/
theorem slice_correct_below_size_witness :
    wrapState.WellFormed ∧ beforeWrap.Configured ∧
    wrapState.Slice 0 6 = ({ Pointer := 4, Length := 4 }, { Pointer := 0, Length := 2 }) ∧
    wrapState.window 0 6 = [5, 6, 7, 8, 9, 10] ∧
    (wrapState.Slice 0 6).1.bytes wrapState._buffer ++
        (wrapState.Slice 0 6).2.bytes wrapState._buffer = wrapState.window 0 6 ∧
    (beforeWrap.Slice 0 6).1.bytes beforeWrap._buffer ++
        (beforeWrap.Slice 0 6).2.bytes beforeWrap._buffer = beforeWrap.window 0 6 :=
  ⟨wrapState_wf, ⟨⟨3, by decide⟩, by decide⟩, by decide, by decide,
    (slice_correct_below_size wrapState beforeWrap 0 6 wrapState_wf
      ⟨⟨3, by decide⟩, by decide⟩ (by decide) (by decide) (by decide)
      (by decide)).1.2.2.2.2.2.2.2,
    (slice_correct_below_size wrapState beforeWrap 0 6 wrapState_wf
      ⟨⟨3, by decide⟩, by decide⟩ (by decide) (by decide) (by decide)
      (by decide)).2.2.2.2.2.2.2.2⟩

/-- Claim C34.  Slice segment lengths always add up: in every well-formed state
of the serial buffer, for every `start ≥ 0` and every `length` with
`0 ≤ length ≤ B`, the spans of `Slice(start, length, first, second)` have
`first.Length ≥ 0`, `second.Length ≥ 0` and
`first.Length + second.Length = length`, and `second.Length > 0` only if
`first` ends at the end of the buffer, `s + first.Length = B` with
`s = (D + start) & mask`. -/
theorem slice_lengths_add_up (self : RingBuffer) (start length : Int) (hwf : self.WellFormed)
    (_hs : 0 ≤ start) (h0 : 0 ≤ length) (hB : length ≤ self._bufferSize) :
    0 ≤ (self.Slice start length).1.Length ∧
    0 ≤ (self.Slice start length).2.Length ∧
    (self.Slice start length).1.Length + (self.Slice start length).2.Length = length ∧
    (0 < (self.Slice start length).2.Length →
      Int.land (self._dequeuePosition + start) self._bufferMask +
        (self.Slice start length).1.Length = self._bufferSize) := by
  obtain ⟨hs0, hsB, hcase⟩ := slice_cases self hwf.1 hwf.2.1 start length h0 hB
  rcases hcase with ⟨_, hsl⟩ | ⟨⟨hge, _⟩, hsl⟩
  · rw [hsl]
    exact ⟨h0, le_refl _, by simp, fun h => absurd h (by simp)⟩
  · rw [hsl]
    refine ⟨?_, ?_, ?_, fun _ => ?_⟩ <;> simp only <;> omega

/-- Witness for C34: the whole of the full buffer of size 8 with `D = 4`
(`length = B`), and the wrapping range of the wrap-around scenario. -/
theorem slice_lengths_add_up_witness :
    fullWrapped.WellFormed ∧ (8 : Int) ≤ fullWrapped._bufferSize ∧
    ((fullWrapped.Slice 0 8).1.Length, (fullWrapped.Slice 0 8).2.Length) = (8, 0) ∧
    ((wrapState.Slice 0 6).1.Length, (wrapState.Slice 0 6).2.Length) = (4, 2) ∧
    (fullWrapped.Slice 0 8).1.Length + (fullWrapped.Slice 0 8).2.Length = 8 :=
  ⟨fullWrapped_wf, by decide, by decide, by decide,
    (slice_lengths_add_up fullWrapped 0 8 fullWrapped_wf (by decide) (by decide)
      (by decide)).2.2.1⟩

/-- Claim C35.  Clear is a dequeue that discards its output: in every state of
the serial buffer (the well-formed ones among them) and for every `n` (`n ≥ 0`
among them), the object after `Clear(n)`, that is its enqueue position, its
dequeue position and every byte of its buffer, is the object after
`TryBulkDequeue` into a scratch span of length `min(n, count)`; `Clear()` is
`Clear(count)`. -/
theorem clear_eq_discarding_dequeue (self : RingBuffer) (n : Int) (scratch : Nat → UInt8) :
    self.ClearN n = (self.TryBulkDequeue ⟨scratch, min n self.GetCount⟩).self ∧
    self.Clear = (self.TryBulkDequeue ⟨scratch, self.GetCount⟩).self := by
  rw [TryBulkDequeue_eq, TryBulkDequeue_eq]
  unfold RingBuffer.Clear RingBuffer.ClearN RingBuffer.GetCount
  simp only
  constructor
  · split
    · rw [min_eq_left (by assumption)]
    · rw [min_eq_right (by omega)]
  · rw [if_pos (le_refl _)]

/-- Claim C36.  Concurrent buffer inspection reads agree with dequeue: in every
state of the concurrent buffer and for every `i` with `0 ≤ i < count`,
`GetValue(i)` returns `buffer[(D + i) & mask]`, which is the byte that a
`TryBulkDequeue` of a length `> i` made next and returning true stores in
`dst[i]`; `GetHeadValue()` is `GetValue(0)`.  Both calls only read: the
embedding gives them the object and takes back a byte. -/
theorem crb_inspection_agrees_with_dequeue (self : ConcurrentRingBuffer) (i : Nat)
    (dst : ByteSpan) (fuel : Nat) (r : DequeueResult ConcurrentRingBuffer)
    (_hi : (i : Int) < self.GetCount) (hlen : (i : Int) < dst.Length)
    (hr : self.TryBulkDequeue dst fuel = some r) (hret : r.ret = true) :
    self.GetValue i =
      self._buffer (Int.land (self._dequeuePosition + i) self._bufferMask) ∧
    r.span.Pointer i = self.GetValue i ∧
    self.GetHeadValue = self.GetValue 0 := by
  refine ⟨rfl, ?_, ?_⟩
  · have hpass := spinLoop_eq_some hr
    by_cases hdiff : self._sequence (Int.land self._dequeuePosition self._bufferMask) -
        (self._dequeuePosition + 1) = 0
    · rw [dequeuePass_commit self dst hdiff] at hpass
      rw [← Option.some.inj hpass]
      simp only [dequeueCommitLoop_fst, loadLoop_apply, if_pos hlen]
      rfl
    · unfold ConcurrentRingBuffer.TryBulkDequeuePass at hpass
      simp only [hdiff, false_and, if_false] at hpass
      split at hpass
      · rw [← Option.some.inj hpass] at hret
        exact absurd hret (by simp)
      · exact absurd hpass (by simp)
  · unfold ConcurrentRingBuffer.GetHeadValue ConcurrentRingBuffer.GetValue
    simp only [add_zero]

/-- Witness for C36: the second of the two bytes held by the buffer of size 8
with `D = 4` and `E = 6`, and a dequeue of two bytes. -/
theorem crb_inspection_agrees_with_dequeue_witness :
    ((1 : Nat) : Int) < beforeWrap.GetCount ∧
    (beforeWrap.GetValue 0, beforeWrap.GetValue 1, beforeWrap.GetHeadValue) = (5, 6, 5) ∧
    (beforeWrap.TryBulkDequeue ⟨zeroed, 2⟩ 1).map
        (fun r => (r.ret, r.span.Pointer 0, r.span.Pointer 1)) = some (true, 5, 6) ∧
    (∀ r, beforeWrap.TryBulkDequeue ⟨zeroed, 2⟩ 1 = some r → r.ret = true →
      r.span.Pointer 1 = beforeWrap.GetValue (1 : Nat)) :=
  ⟨by decide, by decide, by decide,
    fun r hr hret =>
      (crb_inspection_agrees_with_dequeue beforeWrap 1 ⟨zeroed, 2⟩ 1 r (by decide) (by decide)
        hr hret).2.1⟩

/-- Claim C37.  Mask projection: for every buffer that a constructor produces
for a capacity `c ≥ 1` (it produces one when `c ≤ 2 ^ 30`), the size `B` is a
power of two and the mask is `B - 1`, and for every position `p ≥ 0` the index
`p & mask` is `p mod B` and lies in `[0, B)`; two different positions
`p, q ≥ 0` with `|p - q| < B` have different indices.  This holds for the
serial and for the concurrent buffer. -/
theorem mask_projection (c : Int) (storage : Int → UInt8) (stamps : Int → Int) (hc : 1 ≤ c) :
    (c ≤ 2 ^ 30 → (RingBuffer.new c storage).isSome = true ∧
      (ConcurrentRingBuffer.new c storage stamps).isSome = true) ∧
    (∀ rb : RingBuffer, RingBuffer.new c storage = some rb →
      (∃ k : Nat, rb._bufferSize = 2 ^ k) ∧ rb._bufferMask = rb._bufferSize - 1 ∧
      (∀ p : Int, 0 ≤ p →
        Int.land p rb._bufferMask = p % rb._bufferSize ∧
        0 ≤ Int.land p rb._bufferMask ∧ Int.land p rb._bufferMask < rb._bufferSize) ∧
      (∀ p q : Int, 0 ≤ p → 0 ≤ q → p ≠ q → |p - q| < rb._bufferSize →
        Int.land p rb._bufferMask ≠ Int.land q rb._bufferMask)) ∧
    (∀ crb : ConcurrentRingBuffer, ConcurrentRingBuffer.new c storage stamps = some crb →
      (∃ k : Nat, crb._bufferSize = 2 ^ k) ∧ crb._bufferMask = crb._bufferSize - 1 ∧
      (∀ p : Int, 0 ≤ p →
        Int.land p crb._bufferMask = p % crb._bufferSize ∧
        0 ≤ Int.land p crb._bufferMask ∧ Int.land p crb._bufferMask < crb._bufferSize) ∧
      (∀ p q : Int, 0 ≤ p → 0 ≤ q → p ≠ q → |p - q| < crb._bufferSize →
        Int.land p crb._bufferMask ≠ Int.land q crb._bufferMask)) := by
  have key : ∀ (B m : Int), (∃ k : Nat, B = 2 ^ k) → m = B - 1 →
      (∀ p : Int, 0 ≤ p → Int.land p m = p % B ∧ 0 ≤ Int.land p m ∧ Int.land p m < B) ∧
      (∀ p q : Int, 0 ≤ p → 0 ≤ q → p ≠ q → |p - q| < B → Int.land p m ≠ Int.land q m) := by
    rintro B m ⟨k, rfl⟩ rfl
    have hpos : (0 : Int) < 2 ^ k := by positivity
    constructor
    · intro p _
      rw [land_mask_eq_emod_int]
      exact ⟨rfl, Int.emod_nonneg p (ne_of_gt hpos), Int.emod_lt_of_pos p hpos⟩
    · intro p q _ _ hne habs
      rw [land_mask_eq_emod_int, land_mask_eq_emod_int]
      rw [abs_lt] at habs
      rcases lt_or_gt_of_ne hne with h | h
      · exact emod_ne_of_lt _ p q h (by omega)
      · exact (emod_ne_of_lt _ q p h (by omega)).symm
  refine ⟨fun hfit => ?_, fun rb hrb => ?_, fun crb hcrb => ?_⟩
  · have h2 := (pow_clog_fits_iff c hc).mpr hfit
    rw [new_eq c storage hc, crb_new_eq_fresh c storage stamps hc, if_pos h2, if_pos h2]
    exact ⟨rfl, rfl⟩
  · rw [new_fresh hc hrb]
    exact ⟨⟨_, rfl⟩, rfl, key _ _ ⟨_, rfl⟩ rfl⟩
  · rw [crb_new_fresh hc hcrb]
    exact ⟨⟨_, rfl⟩, rfl, key _ _ ⟨_, rfl⟩ rfl⟩

/-- Witness for C37: capacity 5 gives the size 8 and the mask 7; the positions
6, 10 and 13 have the indices 6, 2 and 5. -/
theorem mask_projection_witness :
    (1 : Int) ≤ 5 ∧
    RingBuffer.new 5 zeroed = some (RingBuffer.fresh 3 zeroed) ∧
    ((RingBuffer.fresh 3 zeroed)._bufferSize, (RingBuffer.fresh 3 zeroed)._bufferMask) =
      (8, 7) ∧
    (Int.land 6 7, Int.land 10 7, Int.land 13 7) = (6, 2, 5) ∧
    (∀ p : Int, 0 ≤ p →
      Int.land p (RingBuffer.fresh 3 zeroed)._bufferMask =
        p % (RingBuffer.fresh 3 zeroed)._bufferSize ∧
      0 ≤ Int.land p (RingBuffer.fresh 3 zeroed)._bufferMask ∧
      Int.land p (RingBuffer.fresh 3 zeroed)._bufferMask <
        (RingBuffer.fresh 3 zeroed)._bufferSize) :=
  ⟨by decide,
    by rw [new_eq 5 zeroed (by decide), clog_five]; rfl,
    by decide, by decide,
    ((mask_projection 5 zeroed staleStamps (by decide)).2.1 (RingBuffer.fresh 3 zeroed)
      (by rw [new_eq 5 zeroed (by decide), clog_five]; rfl)).2.2.1⟩

end SignalScatter
